import Mathlib

/-!
# helicon: the authentication core, embedded in Lean

A shallow embedding of the Go package `helicon` (files `helicon.go`, `keyring.go`,
`auth.go`, `twitter.go`, `api.go`), followed by theorems about it.

Conventions of the embedding.

* A Go `string` is the list of its bytes, each byte a natural number below 256 (`Str`).
* A method with a pointer receiver becomes a function that returns the receiver after the call
  next to the Go return value; an `error` result is an `Option Error` (`none` is `nil`).
* The operating-system keyring, the HTTP server and the headless browser are explicit state:
  `Keyring` and `Net`; the environment of the process is an explicit argument, `Env`.
* Functions of the Go standard library that the package calls are modelled next to their use,
  each one named after the Go function.
-/

namespace helicon

/-- A Go string: the list of its bytes. -/
abbrev Str := List Nat

/-- The bytes of an ASCII literal. -/
def str (s : String) : Str := s.toList.map Char.toNat

/-- Every element is a byte. -/
def IsBytes (s : Str) : Prop := ∀ b ∈ s, b < 256

instance (s : Str) : Decidable (IsBytes s) := by
  unfold IsBytes; infer_instance

/-- A Go `error`: the text is kept for the errors the package makes itself. -/
inductive Error
  /-- An error returned by a library function (`time.Parse`, `strconv.Atoi`, `keyring.Get`,
  `base64`, `net/http`, `encoding/json`, `chromedp`), named by the function. -/
  | lib (origin : Str)
  /-- The error of `fmt.Errorf(msg)`, the verbs already filled in. -/
  | msg (text : Str)
  /-- The error of `fmt.Errorf(text ++ "%w", err)`: the text in front of the wrapped error. -/
  | wrap (text : Str) (err : Error)
deriving DecidableEq, Repr

/-! ## package strings -/

namespace strings

/-- Go `strings.Contains(s, sep)` for a one-byte `sep`. -/
def Contains (s : Str) (sep : Nat) : Bool := s.contains sep

/-- Go `strings.Split(s, sep)` for a one-byte `sep`: the pieces between the occurrences of
`sep`, one more piece than there are occurrences. -/
def Split : Str → Nat → List Str
  | [], _ => [[]]
  | c :: cs, sep =>
    if c = sep then [] :: Split cs sep
    else
      match Split cs sep with
      | [] => [[c]]
      | p :: ps => (c :: p) :: ps

/-- Go `strings.SplitSeq(s, sep)` for a one-byte `sep`: the sequence of the pieces that
`strings.Split` returns, in order. -/
def SplitSeq (s : Str) (sep : Nat) : List Str := Split s sep

/-- Go `strings.Cut(s, sep)` for a one-byte `sep`: the text before and after the first
occurrence of `sep`, and whether `sep` occurs. -/
def Cut : Str → Nat → Str × Str × Bool
  | [], _ => ([], [], false)
  | c :: cs, sep =>
    if c = sep then ([], cs, true)
    else
      match Cut cs sep with
      | (before, after, found) => (c :: before, after, found)

/-- Go `strings.SplitN(s, sep, n)` for a one-byte `sep` and `n ≥ 0`: at most `n` pieces, the
last one the unsplit remainder. -/
def SplitN (s : Str) (sep : Nat) : Nat → List Str :=
  fun n => go n s
where
  /-- The pieces of `s`, at most `n` of them. -/
  go : Nat → Str → List Str
    | 0, _ => []
    | n + 1, s =>
      if n = 0 then [s]
      else
        match Cut s sep with
        | (before, after, true) => before :: go n after
        | (_, _, false) => [s]

/-- The ASCII white space of Go (`asciiSpace`): tab, line feed, vertical tab, form feed,
carriage return, space. -/
def isASCIISpace (c : Nat) : Bool :=
  c = 9 || c = 10 || c = 11 || c = 12 || c = 13 || c = 32

/-- Removes the white space at the front of `s`: ASCII white space and the UTF-8 forms of the
other characters of `unicode.IsSpace` (U+0085, U+00A0, U+1680, U+2000 to U+200A, U+2028,
U+2029, U+202F, U+205F, U+3000). -/
def trimLeft : Str → Str
  | [] => []
  | c :: cs =>
    if isASCIISpace c then trimLeft cs
    else
      match c, cs with
      | 194, 133 :: r => trimLeft r
      | 194, 160 :: r => trimLeft r
      | 225, 154 :: 128 :: r => trimLeft r
      | 226, 128 :: d :: r =>
        if (128 ≤ d && d ≤ 138) || d = 168 || d = 169 || d = 175 then trimLeft r else c :: cs
      | 226, 129 :: 159 :: r => trimLeft r
      | 227, 128 :: 128 :: r => trimLeft r
      | _, _ => c :: cs

/-- The same on a reversed string: removes the white space at the end of the string that `s`
is the reversal of. -/
def trimLeftRev : Str → Str
  | [] => []
  | c :: cs =>
    if isASCIISpace c then trimLeftRev cs
    else
      match c, cs with
      | 133, 194 :: r => trimLeftRev r
      | 160, 194 :: r => trimLeftRev r
      | 128, 154 :: 225 :: r => trimLeftRev r
      | 159, 129 :: 226 :: r => trimLeftRev r
      | 128, 128 :: 227 :: r => trimLeftRev r
      | d, 128 :: 226 :: r =>
        if (128 ≤ d && d ≤ 138) || d = 168 || d = 169 || d = 175 then trimLeftRev r else c :: cs
      | _, _ => c :: cs

/-- Go `strings.TrimSpace(s)`: `s` without the white space (`unicode.IsSpace`) at its front
and at its end. -/
def TrimSpace (s : Str) : Str := (trimLeftRev (trimLeft s).reverse).reverse

/-- Go `strings.ToLower(s)`, as far as a comparison with an ASCII literal can tell: `A` to `Z`
become `a` to `z`, the two characters outside ASCII whose lower case is an ASCII letter
(U+0130 gives `i`, U+212A gives `k`) are replaced by it; every other byte is kept, where Go
writes the lower case of a character outside ASCII, never an ASCII byte. -/
def ToLower : Str → Str
  | [] => []
  | 196 :: 176 :: r => 105 :: ToLower r
  | 226 :: 132 :: 170 :: r => 107 :: ToLower r
  | c :: cs => (if 65 ≤ c ∧ c ≤ 90 then c + 32 else c) :: ToLower cs

/-- Go `strings.Join(elems, sep)`. -/
def Join : List Str → Str → Str
  | [], _ => []
  | [a], _ => a
  | a :: b :: r, sep => a ++ sep ++ Join (b :: r) sep

/-- Go `strings.TrimPrefix(s, lit)`. -/
def TrimPrefix (s lit : Str) : Str := if lit.isPrefixOf s then s.drop lit.length else s

/-- Go `strings.TrimSuffix(s, lit)`. -/
def TrimSuffix (s lit : Str) : Str :=
  if lit.isSuffixOf s then s.take (s.length - lit.length) else s

/-- Go `strings.Cut(s, sep)` for a separator of any length: the text before and after the
first occurrence of `sep`, and whether `sep` occurs. -/
def CutStr : Str → Str → Str × Str × Bool
  | [], sep => if sep = [] then ([], [], true) else ([], [], false)
  | c :: cs, sep =>
    if sep.isPrefixOf (c :: cs) then ([], (c :: cs).drop sep.length, true)
    else
      match CutStr cs sep with
      | (before, after, true) => (c :: before, after, true)
      | (_, _, false) => (c :: cs, [], false)

end strings

/-! ## package strconv -/

namespace strconv

/-- The loop of Go `strconv.ParseUint(s, 10, 64)` from the accumulated value `n` on: `none` is a
syntax error (a byte that is no decimal digit), a value of `2^64 - 1` with `false` is a range
error. -/
def parseUintLoop : Str → Nat → Option (Nat × Bool)
  | [], n => some (n, true)
  | c :: cs, n =>
    if c < 48 ∨ 57 < c then none
    else if n ≥ (2 ^ 64 - 1) / 10 + 1 then some (2 ^ 64 - 1, false)
    else if n * 10 + (c - 48) > 2 ^ 64 - 1 then some (2 ^ 64 - 1, false)
    else parseUintLoop cs (n * 10 + (c - 48))

/-- Go `strconv.Atoi(s)` where `int` has 64 bits: the value returned and whether the error is
`nil`. An optional sign, then decimal digits, at least one; the value must lie in
`[-2^63, 2^63 - 1]`. With a syntax error the value is 0, with a range error it is the nearest
bound. -/
def Atoi (s : Str) : Int × Bool :=
  if s = [] then (0, false)
  else
    let neg : Bool := s.head? = some 45
    let digits : Str := if s.head? = some 43 ∨ s.head? = some 45 then s.drop 1 else s
    if digits = [] then (0, false)
    else
      match parseUintLoop digits 0 with
      | none => (0, false)
      | some (un, ok) =>
        if !neg ∧ un ≥ 2 ^ 63 then (2 ^ 63 - 1, false)
        else if neg ∧ un > 2 ^ 63 then (-(2 ^ 63), false)
        else ((if neg then -(un : Int) else (un : Int)), ok)

/-- The decimal digits of `n`, the most significant first, with at most `fuel` digits. -/
def digitsOf : Nat → Nat → Str
  | 0, _ => []
  | fuel + 1, n => if n < 10 then [48 + n] else digitsOf fuel (n / 10) ++ [48 + n % 10]

/-- Go `strconv.Itoa(n)` for `n ≥ 0`, which is also how `fmt` prints it for the verb `%d`. -/
def Itoa (n : Nat) : Str := digitsOf (n + 1) n

/-- Go `strconv.ParseBool`; `none` is its error. -/
def ParseBool (s : Str) : Option Bool :=
  if s ∈ [str "1", str "t", str "T", str "TRUE", str "true", str "True"] then some true
  else if s ∈ [str "0", str "f", str "F", str "FALSE", str "false", str "False"] then some false
  else none

end strconv

/-! ## package os -/

/-- The environment of the process: the variables that are set, each with its value. -/
abbrev Env := List (Str × Str)

namespace os

/-- Go `os.Getenv`: the value of the variable, empty when the variable is not set. -/
def Getenv (env : Env) (key : Str) : Str := (env.lookup key).getD []

end os

/-! ## package time -/

namespace time

/-- A Go `time.Time`, as the instant it denotes: seconds since 1970-01-01 00:00:00 UTC and
nanoseconds within the second. The location a `time.Time` also carries is not modelled. -/
structure Time where
  sec : Int
  nsec : Nat
deriving DecidableEq, Repr

/-- The zero `time.Time`: January 1 of year 1, 00:00:00 UTC. -/
def Time.zero : Time := ⟨-62135596800, 0⟩

instance : Inhabited Time := ⟨Time.zero⟩

/-- The layout elements (`std...` constants of package time) that the two layouts use. -/
inductive Std
  | stdWeekDay | stdZeroDay | stdMonth | stdLongYear | stdHour | stdZeroMinute | stdZeroSecond
  | stdTZ | stdNumTZ
deriving DecidableEq, Repr

/-- A layout as `nextStdChunk` cuts it: the literal text in front of each element and the
element. Nothing follows the last element in either layout. -/
abbrev Layout := List (Str × Std)

/-- Go `time.RFC1123`, the layout `Mon, 02 Jan 2006 15:04:05 MST`. -/
def RFC1123 : Layout :=
  [([], .stdWeekDay), (str ", ", .stdZeroDay), (str " ", .stdMonth), (str " ", .stdLongYear),
   (str " ", .stdHour), (str ":", .stdZeroMinute), (str ":", .stdZeroSecond), (str " ", .stdTZ)]

/-- Go `time.RFC1123Z`, the layout `Mon, 02 Jan 2006 15:04:05 -0700`. -/
def RFC1123Z : Layout :=
  [([], .stdWeekDay), (str ", ", .stdZeroDay), (str " ", .stdMonth), (str " ", .stdLongYear),
   (str " ", .stdHour), (str ":", .stdZeroMinute), (str ":", .stdZeroSecond), (str " ", .stdNumTZ)]

/-- The local variables of `time.Parse` that the elements fill in. -/
structure Fields where
  year : Int := 0
  month : Int := -1
  day : Int := -1
  hour : Int := 0
  min : Int := 0
  sec : Int := 0
  nsec : Nat := 0
  z : Bool := false
  zoneOffset : Int := -1
  zoneName : Str := []
deriving DecidableEq, Repr

def shortDayNames : List Str :=
  [str "Sun", str "Mon", str "Tue", str "Wed", str "Thu", str "Fri", str "Sat"]

def shortMonthNames : List Str :=
  [str "Jan", str "Feb", str "Mar", str "Apr", str "May", str "Jun", str "Jul", str "Aug",
   str "Sep", str "Oct", str "Nov", str "Dec"]

def isDigitByte (c : Nat) : Bool := 48 ≤ c && c ≤ 57

/-- Go `isDigit(s, i)`. -/
def isDigit (s : Str) (i : Nat) : Bool :=
  match s.get? i with
  | some c => isDigitByte c
  | none => false

/-- The byte `c | 0x20`. -/
def orLower (c : Nat) : Nat := if c / 32 % 2 = 1 then c else c + 32

/-- Go `match(s1, s2)`: equal up to the case of ASCII letters; the two have the same length. -/
def matchFold : Str → Str → Bool
  | c1 :: r1, c2 :: r2 =>
    (c1 = c2 || (orLower c1 = orLower c2 && 97 ≤ orLower c1 && orLower c1 ≤ 122)) && matchFold r1 r2
  | _, _ => true

/-- Go `lookup(tab, val)`, the search from index `i` on: the index of the first name of the
table that `val` starts with, letter case apart, and the rest of `val`. -/
def lookup : List Str → Nat → Str → Option (Nat × Str)
  | [], _, _ => none
  | v :: tab, i, val =>
    if val.length ≥ v.length && matchFold (val.take v.length) v then some (i, val.drop v.length)
    else lookup tab (i + 1) val

/-- Go `getnum(s, fixed)`: a number of one or two digits, of exactly two when `fixed`. -/
def getnum (s : Str) (fixed : Bool) : Option (Int × Str) :=
  if !isDigit s 0 then none
  else if !isDigit s 1 then
    if fixed then none else some (((s.getD 0 0 - 48 : Nat) : Int), s.drop 1)
  else some ((((s.getD 0 0 - 48) * 10 + (s.getD 1 0 - 48) : Nat) : Int), s.drop 2)

/-- Go `cutspace(s)`: `s` without its leading spaces. -/
def cutspace : Str → Str
  | 32 :: r => cutspace r
  | s => s

/-- Go `skip(value, prefix)`: the value after the literal text of the layout, where a run of
spaces of the layout stands for any number of spaces of the value, none only at its end. The
flag says that the layout text before was a space, already matched. -/
def skipFrom : Bool → Str → Str → Option Str
  | _, [], value => some value
  | true, 32 :: p, value => skipFrom true p value
  | false, 32 :: p, value =>
    match value with
    | [] => skipFrom true p []
    | c :: r => if c ≠ 32 then none else skipFrom true p (cutspace (c :: r))
  | _, c :: p, value =>
    match value with
    | [] => none
    | d :: r => if d ≠ c then none else skipFrom false p r

def skip (value pre : Str) : Option Str := skipFrom false pre value

/-- Go `leadingInt(s)` from the accumulated value `x` on: the leading decimal digits as a
number and the rest, `none` when the number exceeds `2^63`. -/
def leadingInt : Str → Nat → Option (Nat × Str)
  | [], x => some (x, [])
  | c :: cs, x =>
    if c < 48 ∨ 57 < c then some (x, c :: cs)
    else if x > 2 ^ 63 / 10 then none
    else if x * 10 + (c - 48) > 2 ^ 63 then none
    else leadingInt cs (x * 10 + (c - 48))

/-- Go `parseSignedOffset(value)`: the length of a sign followed by a number of at most 23,
or 0. -/
def parseSignedOffset (value : Str) : Nat :=
  match value with
  | [] => 0
  | sign :: rest =>
    if sign ≠ 45 ∧ sign ≠ 43 then 0
    else
      match leadingInt rest 0 with
      | none => 0
      | some (x, rem) =>
        if rest.length = rem.length then 0
        else if x > 23 then 0
        else value.length - rem.length

/-- Go `parseGMT(value)`: the length of `GMT` with an optional signed hour. -/
def parseGMT (value : Str) : Nat :=
  if value.drop 3 = [] then 3 else 3 + parseSignedOffset (value.drop 3)

/-- The number of upper-case letters at the front of the value, counted up to 6. -/
def countUpper : Nat → Str → Nat
  | 0, _ => 0
  | _ + 1, [] => 0
  | n + 1, c :: cs => if c < 65 ∨ 90 < c then 0 else 1 + countUpper n cs

/-- Go `parseTimeZone(value)`: the length of the time zone abbreviation the value starts
with, `none` when it starts with none. -/
def parseTimeZone (value : Str) : Option Nat :=
  if value.length < 3 then none
  else if value.length ≥ 4 ∧ (value.take 4 = str "ChST" ∨ value.take 4 = str "MeST") then some 4
  else if value.take 3 = str "GMT" then some (parseGMT value)
  else if value.head? = some 43 ∨ value.head? = some 45 then
    (if parseSignedOffset value > 0 then some (parseSignedOffset value) else none)
  else
    match countUpper 6 value with
    | 5 => if value.get? 4 = some 84 then some 5 else none
    | 4 => if value.get? 3 = some 84 ∨ value.take 4 = str "WITA" then some 4 else none
    | 3 => some 3
    | _ => none

/-- The decimal value of a string of digits. -/
def digitsValue (s : Str) : Nat := s.foldl (fun n c => n * 10 + (c - 48)) 0


/-- The value of one layout element read from the front of the value, as the `switch` of
`time.Parse` does it: the variables after it and the rest of the value, `none` for a syntax or
a range error. -/
def parseStd (std : Std) (f : Fields) (value : Str) : Option (Fields × Str) :=
  match std with
  | .stdWeekDay =>
    match lookup shortDayNames 0 value with
    | some (_, rest) => some (f, rest)
    | none => none
  | .stdZeroDay =>
    match getnum value true with
    | some (d, rest) => some ({ f with day := d }, rest)
    | none => none
  | .stdMonth =>
    match lookup shortMonthNames 0 value with
    | some (i, rest) => some ({ f with month := (i : Int) + 1 }, rest)
    | none => none
  | .stdLongYear =>
    if value.length < 4 ∨ !isDigit value 0 then none
    else
      match leadingInt (value.take 4) 0 with
      | some (y, []) => some ({ f with year := (y : Int) }, value.drop 4)
      | _ => none
  | .stdHour =>
    match getnum value false with
    | some (h, rest) => if h < 0 ∨ 24 ≤ h then none else some ({ f with hour := h }, rest)
    | none => none
  | .stdZeroMinute =>
    match getnum value true with
    | some (m, rest) => if m < 0 ∨ 60 ≤ m then none else some ({ f with min := m }, rest)
    | none => none
  | .stdZeroSecond =>
    match getnum value true with
    | some (sc, rest) =>
      if sc < 0 ∨ 60 ≤ sc then none
      else if rest.length ≥ 2 ∧ (rest.head? = some 46 ∨ rest.head? = some 44) ∧ isDigit rest 1 then
        -- a fractional second in the value that the layout does not have
        let digits := (rest.drop 1).takeWhile isDigitByte
        let kept := digits.take 9
        some ({ f with sec := sc, nsec := digitsValue kept * 10 ^ (9 - kept.length) },
              rest.drop (1 + digits.length))
      else some ({ f with sec := sc }, rest)
    | none => none
  | .stdTZ =>
    if value.length ≥ 3 ∧ value.take 3 = str "UTC" then some ({ f with z := true }, value.drop 3)
    else
      match parseTimeZone value with
      | some n => some ({ f with zoneName := value.take n }, value.drop n)
      | none => none
  | .stdNumTZ =>
    if value.length < 5 then none
    else
      match getnum ((value.drop 1).take 2) true, getnum ((value.drop 3).take 2) true with
      | some (hr, _), some (mm, _) =>
        if hr > 24 ∨ mm > 60 then none
        else if value.head? = some 43 then
          some ({ f with zoneOffset := (hr * 60 + mm) * 60 }, value.drop 5)
        else if value.head? = some 45 then
          some ({ f with zoneOffset := -((hr * 60 + mm) * 60) }, value.drop 5)
        else none
      | _, _ => none

/-- The loop of `time.Parse`: for each element, skip the literal text in front of it, then
read the element; after the last element nothing may be left of the value. -/
def parseChunks : Layout → Fields → Str → Option Fields
  | [], f, value => if value = [] then some f else none
  | (pre, std) :: rest, f, value =>
    match skip value pre with
    | none => none
    | some value1 =>
      match parseStd std f value1 with
      | none => none
      | some (f1, value2) => parseChunks rest f1 value2

/-- Go `isLeap(year)`. -/
def isLeap (year : Int) : Bool := year % 4 = 0 && (year % 100 ≠ 0 || year % 400 = 0)

/-- Go `daysIn(m, year)`. -/
def daysIn (month year : Int) : Int :=
  if month = 2 then (if isLeap year then 29 else 28)
  else if month = 4 ∨ month = 6 ∨ month = 9 ∨ month = 11 then 30
  else 31

/-- Go `daysBefore[m-1]`: the days of a common year before month `m`. -/
def daysBefore (month : Int) : Int :=
  [0, 31, 59, 90, 120, 151, 181, 212, 243, 273, 304, 334].getD (month - 1).toNat 365

/-- Go `time.Date(year, month, day, hour, min, sec, nsec, time.UTC)` for a month in 1..12, a
day of that month and a time of day in range (what `time.Parse` has checked before): the
days since January 1 of year 1 by the Gregorian rule, moved to the epoch of 1970. -/
def Date (year month day hour min sec : Int) (nsec : Nat) : Time :=
  let y := year - 1
  let days := 365 * y + y / 4 - y / 100 + y / 400 + daysBefore month
    + (if isLeap year ∧ month ≥ 3 then 1 else 0) + (day - 1)
  ⟨(days - 719162) * 86400 + hour * 3600 + min * 60 + sec, nsec⟩

/-- The end of `time.Parse`: the day is checked against the month, then the instant is built.
A numeric zone offset is subtracted. A zone abbreviation is looked up in the local zone of the
process, taken here to be UTC, which knows no abbreviation: the wall clock is then read as
UTC (the fabricated location of Go, whose offset does not move the instant). -/
def finish (f : Fields) : Option Time :=
  let month := if f.month < 0 then 1 else f.month
  let day := if f.day < 0 then 1 else f.day
  if day < 1 ∨ day > daysIn month f.year then none
  else
    let t := Date f.year month day f.hour f.min f.sec f.nsec
    if f.z then some t
    else if f.zoneOffset ≠ -1 then some ⟨t.sec - f.zoneOffset, t.nsec⟩
    else some t

/-- Go `time.Parse(layout, value)` for the layouts `RFC1123` and `RFC1123Z`; `none` is an
error. -/
def Parse (layout : Layout) (value : Str) : Option Time :=
  match parseChunks layout {} value with
  | none => none
  | some f => finish f

end time

/-! ## package encoding/base64 -/

namespace base64

/-- The alphabet of `base64.StdEncoding` (`encodeStd`). -/
def encodeStd : Str :=
  str "ABCDEFGHIJKLMNOPQRSTUVWXYZabcdefghijklmnopqrstuvwxyz0123456789+/"

/-- The character for a six-bit value: `enc.encode[n]`. -/
def encode (n : Nat) : Nat := encodeStd.getD n 0

/-- The six-bit value of a character, 255 for a character outside the alphabet:
`enc.decodeMap[c]`. -/
def decodeMap (c : Nat) : Nat :=
  if c ∈ encodeStd then encodeStd.indexOf c else 255

/-- Go `base64.StdEncoding.EncodeToString(src)`: three bytes become four characters, a last
group of one or two bytes is padded with `=`. -/
def EncodeToString : Str → Str
  | [] => []
  | [a] =>
    let val := a * 65536
    [encode (val / 262144 % 64), encode (val / 4096 % 64), 61, 61]
  | [a, b] =>
    let val := a * 65536 + b * 256
    [encode (val / 262144 % 64), encode (val / 4096 % 64), encode (val / 64 % 64), 61]
  | a :: b :: c :: rest =>
    let val := a * 65536 + b * 256 + c
    encode (val / 262144 % 64) :: encode (val / 4096 % 64) :: encode (val / 64 % 64)
      :: encode (val % 64) :: EncodeToString rest

/-- The bytes of a quantum: `dlen` six-bit values, 2 to 4 of them, give `dlen - 1` bytes. -/
def quantumBytes (dbuf : List Nat) : List Nat :=
  let val := dbuf.getD 0 0 * 262144 + dbuf.getD 1 0 * 4096 + dbuf.getD 2 0 * 64 + dbuf.getD 3 0
  ([val / 65536 % 256, val / 256 % 256, val % 256]).take (dbuf.length - 1)

/-- Skips the line ends that may follow a padding character. -/
def skipNewlines : Str → Str
  | 10 :: r => skipNewlines r
  | 13 :: r => skipNewlines r
  | s => s

/-- The loops of `Encoding.Decode` and `decodeQuantum` in one pass over the input: `dbuf`
holds the six-bit values of the quantum read so far. Line ends are skipped, padding is
accepted only as the third and fourth or as the fourth character of the last quantum, and
nothing but line ends may follow it. `none` is a `CorruptInputError`. -/
def decodeFrom : List Nat → Str → Option Str
  | dbuf, [] => if dbuf = [] then some [] else none
  | dbuf, c :: rest =>
    if decodeMap c ≠ 255 then
      if dbuf.length = 3 then
        match decodeFrom [] rest with
        | some out => some (quantumBytes (dbuf ++ [decodeMap c]) ++ out)
        | none => none
      else decodeFrom (dbuf ++ [decodeMap c]) rest
    else if c = 10 ∨ c = 13 then decodeFrom dbuf rest
    else if c ≠ 61 then none
    else if dbuf.length < 2 then none
    else if dbuf.length = 2 then
      match skipNewlines rest with
      | [] => none
      | d :: rest1 =>
        if d ≠ 61 then none
        else if skipNewlines rest1 ≠ [] then none
        else some (quantumBytes dbuf)
    else if skipNewlines rest ≠ [] then none
    else some (quantumBytes dbuf)

/-- Go `base64.StdEncoding.DecodeString(s)`; `none` is an error. -/
def DecodeString (s : Str) : Option Str := decodeFrom [] s

end base64

/-! ## package github.com/zalando/go-keyring -/

/-- The secret store of the operating system: the password stored for each service and user,
the newest entry first, whether the store can be reached, and the record of the calls of
`keyring.Set` that went through, the newest first. -/
structure Keyring where
  entries : List ((Str × Str) × Str) := []
  available : Bool := true
  writes : List ((Str × Str) × Str) := []
deriving DecidableEq, Repr

namespace keyring

/-- Go `keyring.Get(service, user)`: the password, or an error when the store cannot be
reached or has no such entry (`ErrNotFound`). -/
def Get (kr : Keyring) (service user : Str) : Option Str :=
  if kr.available then kr.entries.lookup (service, user) else none

/-- Go `keyring.Set(service, user, password)`: the store after the call and the error. -/
def Set (kr : Keyring) (service user password : Str) : Keyring × Option Error :=
  if kr.available then
    ({ kr with
        entries := ((service, user), password) :: kr.entries.filter (fun e => e.1 ≠ (service, user))
        writes := ((service, user), password) :: kr.writes }, none)
  else (kr, some (.lib (str "keyring.Set")))

end keyring

/-! ## The data model (helicon.go) -/

/-- Go `Cookie`. The pointer fields are options. -/
structure Cookie where
  Raw : Str := []
  Key : Str := []
  Value : Str := []
  MaxAge : Int := 0
  Expires : time.Time := time.Time.zero
  Path : Str := []
  Domain : Str := []
  Secure : Bool := false
  HttpOnly : Option Bool := none
  Partitioned : Option Bool := none
  SameSite : Option Str := none
deriving DecidableEq, Repr

/-- Go `TwitterCredentials`. -/
structure TwitterCredentials where
  Username : Str := []
  Password : Str := []
deriving DecidableEq, Repr

/-- Go `TwitterCookies`. -/
structure TwitterCookies where
  CSRFToken : Cookie := {}
  AuthToken : Cookie := {}
  BearerToken : Str := []
deriving DecidableEq, Repr

/-- Go `Helicon`. -/
structure Helicon where
  Credentials : TwitterCredentials := {}
  UserAgent : Str := []
  Cookies : TwitterCookies := {}
deriving DecidableEq, Repr

/-- The name and the value of a trimmed piece of `Raw` (lines 61 to 70 of helicon.go): the
text before and after the first `=`, the whole piece and nothing without a `=`. -/
def Cookie.keyValue (part : Str) : Str × Str :=
  if strings.Contains part 61 then
    let attrParts := strings.SplitN part 61 2
    (attrParts.getD 0 [], if attrParts.length > 1 then attrParts.getD 1 [] else [])
  else (part, [])

/-- The `switch` of `Cookie.Parse` (lines 71 to 100 of helicon.go) for the trimmed piece
`part` with name `k` and value `v`: the cookie after it and the error, if it returns one. -/
def Cookie.assign (c : Cookie) (part k v : Str) : Cookie × Option Error :=
  if strings.ToLower k = str "expires" then
    match time.Parse time.RFC1123 v with
    | some t => ({ c with Expires := t }, none)
    | none =>
      match time.Parse time.RFC1123Z v with
      | some t => ({ c with Expires := t }, none)
      | none =>
        ({ c with Expires := time.Time.zero },
         some (.wrap (str "cannot parse Expires " ++ v ++ str ": ") (.lib (str "time.Parse"))))
  else if strings.ToLower k = str "path" then ({ c with Path := v }, none)
  else if strings.ToLower k = str "domain" then ({ c with Domain := v }, none)
  else if strings.ToLower k = str "secure" then ({ c with Secure := true }, none)
  else if strings.ToLower k = str "httponly" then ({ c with HttpOnly := some true }, none)
  else if strings.ToLower k = str "partitioned" then ({ c with Partitioned := some true }, none)
  else if strings.ToLower k = str "samesite" then ({ c with SameSite := some v }, none)
  else if strings.ToLower k = str "max-age" then
    match strconv.Atoi v with
    | (n, true) => ({ c with MaxAge := n }, none)
    | (n, false) =>
      ({ c with MaxAge := n },
       some (.wrap (str "cannot parse Max-Age " ++ v ++ str " as int: ") (.lib (str "strconv.Atoi"))))
  else ({ c with Key := (strings.Cut part 61).1, Value := (strings.Cut part 61).2.1 }, none)

/-- The body of the loop of `Cookie.Parse` for one piece of `Raw`: the cookie after it and
the error, if the loop returns one here. -/
def Cookie.parsePart (c : Cookie) (piece : Str) : Cookie × Option Error :=
  Cookie.assign c (strings.TrimSpace piece) (Cookie.keyValue (strings.TrimSpace piece)).1
    (Cookie.keyValue (strings.TrimSpace piece)).2

/-- The loop of `Cookie.Parse` over the pieces still to come. -/
def Cookie.parseLoop : List Str → Cookie → Cookie × Option Error
  | [], c => (c, none)
  | piece :: rest, c =>
    match Cookie.parsePart c piece with
    | (c1, some e) => (c1, some e)
    | (c1, none) => Cookie.parseLoop rest c1

/-- Go `(*Cookie).Parse`: the cookie after the call and the error returned. -/
def Cookie.Parse (c : Cookie) : Cookie × Option Error :=
  Cookie.parseLoop (strings.SplitSeq c.Raw 59) c

/-! ## The network (net/http) and the headless browser (chromedp) -/

/-- A result of a Go call that may also panic. -/
inductive Res (α : Type)
  | ok (a : α)
  | error (e : Error)
  | panic (what : Str)
  /-- The model ran out of fuel: the call has not returned. -/
  | outOfFuel
deriving DecidableEq, Repr

/-- One subtask of a `LoginFlow`: the anonymous struct of the field `Subtasks`. -/
structure Subtask where
  SubtaskId : Str := []
  Url : Str := []
  TimeoutMs : Int := 0
  LinkType : Str := []
  LinkId : Str := []
deriving DecidableEq, Repr

/-- Go `LoginFlow`. -/
structure LoginFlow where
  FlowToken : Str := []
  Status : Str := []
  Subtasks : List Subtask := []
  AnonymousBearerToken : Str := []
  GuestToken : Str := []
  GuestId : Str := []
  UserAgent : Str := []
  Att : Str := []
  CFBM : Str := []
deriving DecidableEq, Repr

/-- An HTTP response as the package reads it: the status code, the body, whether reading the
body succeeds (`io.ReadAll`), the `Set-Cookie` lines in order
(`resp.Header.Values("Set-Cookie")`), and the value `encoding/json` decodes the body to in
the struct of the step that reads the response, starting from the zero value (`none` when
`Decode` fails). The steps that decode into a `flow_token`/`status` struct read the field
`FlowToken` of it. -/
structure Response where
  StatusCode : Nat := 200
  Body : Str := []
  readOK : Bool := true
  SetCookie : List Str := []
  JSON : Option LoginFlow := none
deriving DecidableEq, Repr

/-- The value a request body is the JSON encoding of (`json.NewEncoder(...).Encode`), or its
literal text. -/
inductive Payload
  | none
  | text (body : Str)
  /-- A `SubmitJSChallengeRequest`: flow token, subtask id, response, link. -/
  | jsChallenge (FlowToken SubtaskId Response Link : Str)
  /-- A `SubmitUsernameRequest`: flow token, subtask id, setting key, text result, link. -/
  | username (FlowToken SubtaskID Key Result Link : Str)
  /-- A `SubmitPasswordRequest`: flow token, subtask id, password, link. -/
  | password (FlowToken SubtaskID Password Link : Str)
deriving DecidableEq, Repr

/-- An HTTP request as the package builds it; the headers in the order they are set. -/
structure Request where
  Method : Str
  URL : Str
  Header : List (Str × Str) := []
  Body : Payload := .none
deriving DecidableEq, Repr

/-- The value the headless browser hands back for the awaited script
(`evaluationResult interface{}`): a string, with whether `encoding/json` can decode it, an
object, with its `description` if that is a string, or any other value. -/
inductive JSValue
  | string (s : Str) (isJSON : Bool)
  | object (description : Option Str)
  | other
deriving DecidableEq, Repr

/-- The world outside the process: the responses the servers will give to the next requests
(`none` is a failed round trip), the outcomes of the next script evaluations of the browser
(`none` is an error of `chromedp.Run`), and the requests sent so far, the oldest first. When
the responses are used up every further round trip fails. The answers the requests got are
kept next to them in `received`, in the same order. -/
structure Net where
  responses : List (Option Response) := []
  evals : List (Option JSValue) := []
  sent : List Request := []
  received : List (Option Response) := []
deriving DecidableEq, Repr

/-- Go `client.Do(req)`: the request is sent and answered by the next response. -/
def Net.Do (net : Net) (req : Request) : Net × Option Response :=
  match net.responses with
  | [] => ({ net with sent := net.sent ++ [req], received := net.received ++ [none] }, none)
  | r :: rest =>
    ({ net with responses := rest, sent := net.sent ++ [req], received := net.received ++ [r] }, r)

/-- Go `chromedp.Run(ctx, actions...)` with the evaluation of the wrapped script as its last
action: the value left in `evaluationResult`. -/
def Net.Run (net : Net) : Net × Option JSValue :=
  match net.evals with
  | [] => (net, none)
  | v :: rest => ({ net with evals := rest }, v)

/-! ## package net/url -/

namespace url

/-- Go `stringContainsCTLByte`: a byte below 0x20 or the byte 0x7f. -/
def stringContainsCTLByte (s : Str) : Bool := s.any (fun b => b < 32 || b = 127)

/-- Go `getScheme`: the scheme and what follows its colon, `none` for the error
`missing protocol scheme`. The first argument is the text read so far. -/
def getSchemeFrom : Str → Str → Option (Str × Str)
  | seen, [] => some ([], seen)
  | seen, c :: cs =>
    if (97 ≤ c && c ≤ 122) || (65 ≤ c && c ≤ 90) then getSchemeFrom (seen ++ [c]) cs
    else if (48 ≤ c && c ≤ 57) || c = 43 || c = 45 || c = 46 then
      if seen = [] then some ([], c :: cs) else getSchemeFrom (seen ++ [c]) cs
    else if c = 58 then
      if seen = [] then none else some (seen, cs)
    else some ([], seen ++ c :: cs)

def getScheme (rawURL : Str) : Option (Str × Str) := getSchemeFrom [] rawURL

/-- Go `url.Parse` as `http.NewRequest` asks it: whether the address is accepted. The checks
in front of the authority follow the library: no control byte, the scheme, and no colon in the
first path segment of an address without a scheme. The authority and the path are taken to be
accepted; the addresses this package passes to it have the host `abs.twimg.com` or `x.com`
and no `%` in front of the query. -/
def Parse (rawURL : Str) : Bool :=
  let u := (strings.Cut rawURL 35).1
  if stringContainsCTLByte u then false
  else if u = [42] then true
  else
    match getScheme u with
    | none => false
    | some (scheme, rest) =>
      let rest := (strings.Cut rest 63).1
      if rest.head? ≠ some 47 then
        if scheme ≠ [] then true
        else !(strings.Contains (strings.Cut rest 47).1 58)
      else true

end url

/-! ## package regexp, for the three patterns of twitter.go -/

namespace regexp

/-- The text after the literal `lit` at the front of `s`. -/
def afterLiteral (lit s : Str) : Option Str :=
  if lit.isPrefixOf s then some (s.drop lit.length) else none

/-- The leftmost match: the first suffix of `s` at whose front the pattern matches. -/
def findFirst {α : Type} (matchHere : Str → Option α) : Str → Option α
  | [] => matchHere []
  | c :: cs =>
    match matchHere (c :: cs) with
    | some m => some m
    | none => findFirst matchHere cs

/-- The class `[\w.-]`. -/
def isWordDotDash (c : Nat) : Bool :=
  (48 ≤ c && c ≤ 57) || (65 ≤ c && c ≤ 90) || c = 95 || (97 ≤ c && c ≤ 122) || c = 46 || c = 45

/-- A match of `src=["'](https://abs\.twimg\.com/responsive-web/DIR/main\.[\w.-]+\.js)["']`
at the front of `s`, the whole matched text. The quote is outside the class and `.js` inside
it, so the pattern matches exactly when the longest run of class characters after `main.`
ends in `.js`, has a character before that, and is followed by a quote. -/
def mainJSHere (dir s : Str) : Option Str :=
  match afterLiteral (str "src=") s with
  | some (q :: r1) =>
    if q ≠ 34 ∧ q ≠ 39 then none
    else
      match afterLiteral (str "https://abs.twimg.com/responsive-web/" ++ dir ++ str "/main.") r1 with
      | none => none
      | some r2 =>
        let run := r2.takeWhile isWordDotDash
        match r2.drop run.length with
        | q2 :: _ =>
          if run.length ≥ 4 ∧ run.drop (run.length - 3) = str ".js" ∧ (q2 = 34 ∨ q2 = 39) then
            some (str "src=" ++ [q] ++ str "https://abs.twimg.com/responsive-web/" ++ dir
              ++ str "/main." ++ run ++ [q2])
          else none
        | [] => none
  | _ => none

/-- The lazy `(.*?)("|\z)` after `Bearer`: the text up to and with the first double quote, or
up to the end of the input when no double quote follows; no match across a line feed, which
`.` does not match. Returns the matched text and what follows it. -/
def bearerTail : Str → Option (Str × Str)
  | [] => some ([], [])
  | c :: cs =>
    if c = 34 then some ([34], cs)
    else if c = 10 then none
    else
      match bearerTail cs with
      | some (m, rest) => some (c :: m, rest)
      | none => none

/-- A match of `(Bearer)(.*?)("|\z)` at the front of `s`: the matched text and the rest. -/
def bearerHere (s : Str) : Option (Str × Str) :=
  match afterLiteral (str "Bearer") s with
  | none => none
  | some r =>
    match bearerTail r with
    | some (m, rest) => some (str "Bearer" ++ m, rest)
    | none => none

/-- Go `re.FindAll(body, -1)` for the pattern `(Bearer)(.*?)("|\z)`: the successive matches
from left to right, the search going on after each match. -/
def findAllBearerFrom : Nat → Str → List Str
  | 0, _ => []
  | fuel + 1, s =>
    match bearerHere s with
    | some (m, rest) => m :: findAllBearerFrom fuel rest
    | none =>
      match s with
      | [] => []
      | _ :: cs => findAllBearerFrom fuel cs

def findAllBearer (body : Str) : List Str := findAllBearerFrom (body.length + 1) body

/-- A match of `document\.cookie="gt=([0-9]+)` at the front of `s`: the digits of the group. -/
def guestTokenHere (s : Str) : Option Str :=
  match afterLiteral (str "document.cookie=" ++ [34] ++ str "gt=") s with
  | none => none
  | some r =>
    let digits := r.takeWhile time.isDigitByte
    if digits = [] then none else some digits

end regexp

/-! ## keyring.go -/

/-- Go `(*Helicon).SaveTokensToKeyring`: the store after the call and the error returned. -/
def Helicon.SaveTokensToKeyring (h : Helicon) (kr : Keyring) : Keyring × Option Error :=
  let tokens := [h.Cookies.CSRFToken.Raw, h.Cookies.AuthToken.Raw, h.Cookies.BearerToken]
  let pass := base64.EncodeToString (strings.Join tokens [31])
  match keyring.Set kr (str "helicon") h.Credentials.Username pass with
  | (kr1, some err) =>
    (kr1, some (.wrap (str "failed to save tokens under service helicon with username "
      ++ h.Credentials.Username ++ str ": ") err))
  | (kr1, none) => (kr1, none)

/-- Go `(*Helicon).LoadTokensFromKeyring`: the client after the call and the error returned. -/
def Helicon.LoadTokensFromKeyring (h : Helicon) (kr : Keyring) : Helicon × Option Error :=
  match keyring.Get kr (str "helicon") h.Credentials.Username with
  | none =>
    (h, some (.wrap (str "failed to get tokens under service helicon with username "
      ++ h.Credentials.Username ++ str ": ") (.lib (str "keyring.Get"))))
  | some passEncoded =>
    match base64.DecodeString passEncoded with
    | none => (h, some (.wrap (str "failed to decode tokens: ") (.lib (str "base64"))))
    | some combinedTokens =>
      let parts := strings.Split combinedTokens 31
      if parts.length ≠ 3 then
        (h, some (.msg (str "failed to parse tokens: expected 3 parts, got "
          ++ strconv.Itoa parts.length ++ str ". Raw data: " ++ [39] ++ combinedTokens ++ [39])))
      else
        let csrf := Cookie.Parse { h.Cookies.CSRFToken with Raw := parts.getD 0 [] }
        let h1 : Helicon := { h with Cookies := { h.Cookies with CSRFToken := csrf.1 } }
        match csrf.2 with
        | some err => (h1, some (.wrap (str "failed to parse CSRFToken cookie: ") err))
        | none =>
          let auth := Cookie.Parse { h1.Cookies.AuthToken with Raw := parts.getD 1 [] }
          let h2 : Helicon := { h1 with Cookies := { h1.Cookies with AuthToken := auth.1 } }
          match auth.2 with
          | some err => (h2, some (.wrap (str "failed to parse auth_token cookie: ") err))
          | none => ({ h2 with Cookies := { h2.Cookies with BearerToken := parts.getD 2 [] } }, none)

/-! ## twitter.go -/

/-- The address of the login page. -/
def loginPageURL : Str := str "https://x.com/i/flow/login/"

/-- The address of the onboarding task endpoint. -/
def taskURL : Str := str "https://api.x.com/1.1/onboarding/task.json"

/-- Go `(*Helicon).FindTwitterMainJavascriptUrl`. The status text of a response is printed
by its code. -/
def Helicon.FindTwitterMainJavascriptUrl (h : Helicon) (net : Net) : Net × Res Str :=
  let req : Request :=
    { Method := str "GET", URL := loginPageURL, Header := [(str "User-Agent", h.UserAgent)] }
  match net.Do req with
  | (net1, none) =>
    (net1, .error (.wrap (str "failed to fetch " ++ loginPageURL ++ str ": ") (.lib (str "net/http"))))
  | (net1, some resp) =>
    if resp.StatusCode ≠ 200 then
      (net1, .error (.msg (str "failed to fetch " ++ loginPageURL ++ str ", status: "
        ++ strconv.Itoa resp.StatusCode)))
    else if !resp.readOK then
      (net1, .error (.wrap (str "failed to read response body from " ++ loginPageURL ++ str ": ")
        (.lib (str "io.ReadAll"))))
    else
      let htmlContent := resp.Body
      let legacy := regexp.findFirst (regexp.mainJSHere (str "client-web-legacy")) htmlContent
      let found : Option Str :=
        match legacy with
        | some m => some m
        | none => regexp.findFirst (regexp.mainJSHere (str "client-web")) htmlContent
      match found with
      | none => (net1, .error (.msg (str "failed to locate main script source inside html")))
      | some m =>
        let scriptUri := (strings.CutStr m (str "src=")).2.1
        let scriptUri := strings.TrimPrefix scriptUri [34]
        let scriptUri := strings.TrimSuffix scriptUri [34]
        (net1, .ok scriptUri)

/-- Go `(*Helicon).FindAnonymousBearerToken`. The address of the main script is the one
address of the package that `http.NewRequest` can refuse (lines 82 to 85). -/
def Helicon.FindAnonymousBearerToken (h : Helicon) (net : Net) : Net × Res Str :=
  match h.FindTwitterMainJavascriptUrl net with
  | (net1, .error _) => (net1, .error (.msg (str "failed to find main script url of Twitter")))
  | (net1, .panic p) => (net1, .panic p)
  | (net1, .outOfFuel) => (net1, .outOfFuel)
  | (net1, .ok mainScriptUrl) =>
    if !url.Parse mainScriptUrl then
      (net1, .error (.wrap (str "failed to create request for " ++ mainScriptUrl ++ str ": ")
        (.lib (str "net/url"))))
    else
      let req : Request :=
        { Method := str "GET", URL := mainScriptUrl, Header := [(str "User-Agent", h.UserAgent)] }
      match net1.Do req with
      | (net2, none) =>
        (net2, .error (.wrap (str "failed to fetch " ++ mainScriptUrl ++ str ": ") (.lib (str "net/http"))))
      | (net2, some resp) =>
        if resp.StatusCode ≠ 200 then
          (net2, .error (.msg (str "failed to fetch " ++ mainScriptUrl ++ str ", status: "
            ++ strconv.Itoa resp.StatusCode)))
        else if !resp.readOK then
          (net2, .error (.wrap (str "failed to read response body from " ++ mainScriptUrl ++ str ": ")
            (.lib (str "io.ReadAll"))))
        else
          let found := regexp.findAllBearer resp.Body
          match found.getLast? with
          | none => (net2, .panic (str "index out of range [-1]"))
          | some m =>
            let m := strings.TrimPrefix m [34]
            let m := strings.TrimSuffix m [34]
            (net2, .ok m)

/-- Go `(*Helicon).GenerateGuestToken`. -/
def Helicon.GenerateGuestToken (h : Helicon) (net : Net) : Net × Res Str :=
  let req : Request :=
    { Method := str "GET", URL := loginPageURL, Header := [(str "User-Agent", h.UserAgent)] }
  match net.Do req with
  | (net1, none) =>
    (net1, .error (.wrap (str "failed to fetch " ++ loginPageURL ++ str ": ") (.lib (str "net/http"))))
  | (net1, some resp) =>
    if resp.StatusCode ≠ 200 then
      (net1, .error (.msg (str "failed to fetch " ++ loginPageURL ++ str ", status: "
        ++ strconv.Itoa resp.StatusCode)))
    else if !resp.readOK then
      (net1, .error (.wrap (str "failed to read response body from " ++ loginPageURL ++ str ": ")
        (.lib (str "io.ReadAll"))))
    else
      match regexp.findFirst regexp.guestTokenHere resp.Body with
      | none => (net1, .panic (str "index out of range [1] with length 0"))
      | some digits => (net1, .ok digits)

/-- The body of the start request. -/
def startBody : Str :=
  str ("\x7b\n\t\x22input_flow_data\x22: \x7b\n\t\t\x22flow_context\x22: \x7b\n\t\t\t"
    ++ "\x22debug_overrides\x22: \x7b\x7d,\n\t\t\t\x22start_location\x22: \x7b\n\t\t\t\t"
    ++ "\x22location\x22: \x22manual_link\x22\n\t\t\t\x7d\n\t\t\x7d\n\t\x7d\n\x7d")

/-- The inner loop of the cookie harvest of `StartLoginFlow`, over the pieces of one
`Set-Cookie` line. -/
def harvestPieces : List Str → LoginFlow → LoginFlow
  | [], f => f
  | piece :: rest, f =>
    let cookie := strings.TrimSpace piece
    let cut := strings.Cut cookie 61
    let key := cut.1
    let value := cut.2.1
    let f1 : LoginFlow :=
      if key = str "att" then { f with Att := value }
      else if key = str "guest_id" then { f with GuestId := value }
      else if key = str "__cf_bm" then { f with CFBM := value }
      else f
    harvestPieces rest f1

/-- The outer loop of the cookie harvest of `StartLoginFlow`, over the `Set-Cookie` lines. -/
def harvestLines : List Str → LoginFlow → LoginFlow
  | [], f => f
  | cookieLine :: rest, f => harvestLines rest (harvestPieces (strings.SplitSeq cookieLine 59) f)

/-- Go `(*Helicon).StartLoginFlow`. -/
def Helicon.StartLoginFlow (h : Helicon) (net : Net) : Net × Res LoginFlow :=
  match h.FindAnonymousBearerToken net with
  | (net1, .error err) =>
    (net1, .error (.wrap (str "failed to find anonymous bearer token: ") err))
  | (net1, .panic p) => (net1, .panic p)
  | (net1, .outOfFuel) => (net1, .outOfFuel)
  | (net1, .ok anonymousToken) =>
    match h.GenerateGuestToken net1 with
    | (net2, .error err) => (net2, .error (.wrap (str "failed to generate guest token: ") err))
    | (net2, .panic p) => (net2, .panic p)
    | (net2, .outOfFuel) => (net2, .outOfFuel)
    | (net2, .ok guestId) =>
      let url := taskURL ++ str "?flow_name=login"
      let req : Request :=
        { Method := str "POST", URL := url,
          Header := [(str "Authorization", anonymousToken), (str "x-guest-token", guestId),
            (str "User-Agent", h.UserAgent), (str "Content-Type", str "application/json")],
          Body := .text startBody }
      match net2.Do req with
      | (net3, none) =>
        (net3, .error (.wrap (str "failed to hit " ++ taskURL ++ str ": ") (.lib (str "net/http"))))
      | (net3, some resp) =>
        if !resp.readOK then
          (net3, .error (.wrap (str "failed to read response: ") (.lib (str "io.ReadAll"))))
        else if resp.StatusCode > 200 then
          (net3, .error (.msg (str "unexpected status " ++ strconv.Itoa resp.StatusCode
            ++ str " from " ++ url ++ str ", raw body: " ++ resp.Body)))
        else
          match resp.JSON with
          | none =>
            (net3, .error (.wrap (str "failed to decode response from " ++ url ++ str ", ")
              (.lib (str "encoding/json"))))
          | some decoded =>
            let loginFlow : LoginFlow :=
              { decoded with
                  AnonymousBearerToken := anonymousToken
                  GuestToken := guestId
                  UserAgent := h.UserAgent }
            (net3, .ok (harvestLines resp.SetCookie loginFlow))

/-- Go `(*LoginFlow).solveJSInstrumentationChallenge`. The browser is given the script that
the request fetched; what it hands back is the next evaluation outcome of the world. The
string is returned together with the judgement of `encoding/json` on it, which the caller
asks for. An address that `http.Get` refuses is a failed round trip of the world: the error
returned is the same. -/
def LoginFlow.solveJSInstrumentationChallenge (f : LoginFlow) (_userAgent : Str) (net : Net) :
    Net × Res (Str × Bool) :=
  match f.Subtasks with
  | [] => (net, .panic (str "index out of range [0] with length 0"))
  | first :: _ =>
    let target := first.Url
    match net.Do { Method := str "GET", URL := target } with
    | (net1, none) =>
      (net1, .error (.wrap (str "failed to hit " ++ target ++ str ": ") (.lib (str "net/http"))))
    | (net1, some resp) =>
      if resp.StatusCode > 200 then
        (net1, .error (.msg (str "unexpected status " ++ strconv.Itoa resp.StatusCode
          ++ str " from " ++ target)))
      else if !resp.readOK then
        (net1, .error (.wrap (str "failed to read instrumentation script: ") (.lib (str "io.ReadAll"))))
      else
        match net1.Run with
        | (net2, none) =>
          (net2, .error (.wrap (str "chromedp: script evaluation failed: ") (.lib (str "chromedp"))))
        | (net2, some (.string resultStr isJSON)) =>
          if resultStr = [] then
            (net2, .error (.msg (str ("chromedp: script evaluation returned an empty string, "
              ++ "expected non-empty JSON"))))
          else (net2, .ok (resultStr, isJSON))
        | (net2, some (.object (some desc))) =>
          (net2, .error (.msg (str "chromedp: JS promise rejected: " ++ desc)))
        | (net2, some _) =>
          (net2, .error (.msg (str "chromedp: script evaluation did not return a string")))

/-- Go `(*LoginFlow).SolveAndSubmitJSChallenge`: the flow after the call, when it returns
`nil`. -/
def LoginFlow.SolveAndSubmitJSChallenge (f : LoginFlow) (h : Helicon) (net : Net) :
    Net × Res LoginFlow :=
  match f.solveJSInstrumentationChallenge h.UserAgent net with
  | (net1, .error err) => (net1, .error (.wrap (str "failed to solve js challenge: ") err))
  | (net1, .panic p) => (net1, .panic p)
  | (net1, .outOfFuel) => (net1, .outOfFuel)
  | (net1, .ok (challengeSolution, isJSON)) =>
    if !isJSON then
      (net1, .error (.wrap (str "failed to decode challenge solution, ") (.lib (str "encoding/json"))))
    else
      let cookieHeader := str "gt=" ++ f.GuestToken
      let cookieHeader := cookieHeader ++ str "; att=" ++ f.Att
      let cookieHeader := cookieHeader ++ str "; guest_id_ads=" ++ f.GuestId
        ++ str "; guest_id_marketing=" ++ f.GuestId ++ str "; guest_id=" ++ f.GuestId
      let cookieHeader := cookieHeader ++ str "; __cf_bm=" ++ f.CFBM
      let req : Request :=
        { Method := str "POST", URL := taskURL,
          Header := [(str "Authorization", f.AnonymousBearerToken), (str "User-Agent", f.UserAgent),
            (str "x-twitter-active-user", str "yes"), (str "x-twitter-client-language", str "en"),
            (str "x-guest-token", f.GuestToken), (str "Cookie", cookieHeader),
            (str "Content-Type", str "application/json")],
          Body := .jsChallenge f.FlowToken (str "LoginJsInstrumentationSubtask") challengeSolution
            (str "next_link") }
      match net1.Do req with
      | (net2, none) => (net2, .error (.wrap (str "failed to execute POST: ") (.lib (str "net/http"))))
      | (net2, some resp) =>
        if !resp.readOK then
          (net2, .error (.wrap (str "failed to read request body: ") (.lib (str "io.ReadAll"))))
        else if resp.StatusCode > 200 then
          (net2, .error (.msg (str "unexpected status code " ++ strconv.Itoa resp.StatusCode
            ++ str " from " ++ taskURL ++ str ", raw body: " ++ resp.Body)))
        else
          match resp.JSON with
          | none =>
            (net2, .error (.wrap (str "failed to decode response, ") (.lib (str "encoding/json"))))
          | some challengeResponse => (net2, .ok { f with FlowToken := challengeResponse.FlowToken })

/-- The loop of `SubmitUsernameAndPassword` over the `Set-Cookie` lines of the password
response (lines 593 to 603). -/
def harvestSession : List Str → Helicon → Helicon
  | [], h => h
  | rawCookie :: rest, h =>
    let rawCookieSplit := strings.Split rawCookie 59
    let k := strings.TrimSpace (strings.Cut (rawCookieSplit.getD 0 []) 61).1
    let h1 : Helicon :=
      if k = str "ct0" then
        { h with Cookies := { h.Cookies with CSRFToken := { h.Cookies.CSRFToken with Raw := rawCookie } } }
      else if k = str "auth_token" then
        { h with Cookies := { h.Cookies with AuthToken := { h.Cookies.AuthToken with Raw := rawCookie } } }
      else h
    harvestSession rest h1

/-- The part of `(*LoginFlow).SubmitUsernameAndPassword` in front of the check of the CSRF
cookie (lines 489 to 603): the two requests and the harvest of the session cookies. Returns
the client after it. -/
def LoginFlow.submitCredentials (f : LoginFlow) (h : Helicon) (net : Net) : Net × Res Helicon :=
  let cookieHeader := str "gt=" ++ f.GuestToken
  let cookieHeader := cookieHeader ++ str "; att=" ++ f.Att
  let cookieHeader := cookieHeader ++ str "; guest_id_ads=" ++ f.GuestId
    ++ str "; guest_id_marketing=" ++ f.GuestId ++ str "; guest_id=" ++ f.GuestId
  let header : List (Str × Str) :=
    [(str "Authorization", f.AnonymousBearerToken), (str "User-Agent", f.UserAgent),
      (str "x-twitter-active-user", str "yes"), (str "x-twitter-client-language", str "en"),
      (str "x-guest-token", f.GuestToken), (str "Cookie", cookieHeader),
      (str "Content-Type", str "application/json")]
  let req : Request :=
    { Method := str "POST", URL := taskURL, Header := header,
      Body := .username f.FlowToken (str "LoginEnterUserIdentifierSSO") (str "user_identifier")
        h.Credentials.Username (str "next_link") }
  match net.Do req with
  | (net1, none) => (net1, .error (.wrap (str "failed to execute POST: ") (.lib (str "net/http"))))
  | (net1, some resp) =>
    if !resp.readOK then
      (net1, .error (.wrap (str "failed to read request body: ") (.lib (str "io.ReadAll"))))
    else if resp.StatusCode > 200 then
      (net1, .error (.msg (str "unexpected status code " ++ strconv.Itoa resp.StatusCode
        ++ str " from " ++ taskURL ++ str ", raw body: " ++ resp.Body)))
    else
      match resp.JSON with
      | none =>
        (net1, .error (.wrap (str "failed to decode response, ") (.lib (str "encoding/json"))))
      | some submitUsernameResponse =>
        let req2 : Request :=
          { Method := str "POST", URL := taskURL, Header := header,
            Body := .password submitUsernameResponse.FlowToken (str "LoginEnterPassword")
              h.Credentials.Password (str "next_link") }
        match net1.Do req2 with
        | (net2, none) =>
          (net2, .error (.wrap (str "failed to execute POST: ") (.lib (str "net/http"))))
        | (net2, some resp2) =>
          if !resp2.readOK then
            (net2, .error (.wrap (str "failed to read request body: ") (.lib (str "io.ReadAll"))))
          else if resp2.StatusCode > 200 then
            (net2, .error (.msg (str "unexpected status code " ++ strconv.Itoa resp2.StatusCode
              ++ str " from " ++ taskURL ++ str ", raw body: " ++ resp2.Body)))
          else (net2, .ok (harvestSession resp2.SetCookie h))

/-- What a call on the client leaves behind: the client, the world, the secret store, and
what the call returned. -/
structure Run where
  h : Helicon
  net : Net
  kr : Keyring
  ret : Res Unit
deriving DecidableEq, Repr

/-- Go `(*LoginFlow).SubmitUsernameAndPassword`, with `login` standing for the method
`helicon.Login` that it calls when the CSRF cookie is still empty (lines 604 to 611). On an
error of the requests the client is as it was: the cookies are harvested only after the last
check. -/
def LoginFlow.SubmitUsernameAndPassword (login : Helicon → Net → Keyring → Run)
    (f : LoginFlow) (h : Helicon) (net : Net) (kr : Keyring) : Run :=
  match f.submitCredentials h net with
  | (net1, .error err) => ⟨h, net1, kr, .error err⟩
  | (net1, .panic p) => ⟨h, net1, kr, .panic p⟩
  | (net1, .outOfFuel) => ⟨h, net1, kr, .outOfFuel⟩
  | (net1, .ok h1) =>
    if h1.Cookies.CSRFToken.Raw = [] then
      match login h1 net1 kr with
      | ⟨h2, net2, kr2, .ok _⟩ => ⟨h2, net2, kr2, .ok ()⟩
      | r => r
    else ⟨h1, net1, kr, .ok ()⟩

/-! ## auth.go -/

/-- Go `(*Helicon).Login`, with `fuel` bounding the depth of the calls of `Login` from
`SubmitUsernameAndPassword`. -/
def Helicon.LoginFuel : Nat → Helicon → Net → Keyring → Run
  | 0, h, net, kr => ⟨h, net, kr, .outOfFuel⟩
  | fuel + 1, h, net, kr =>
    match h.StartLoginFlow net with
    | (net1, .error err) => ⟨h, net1, kr, .error (.wrap (str "failed to start login flow: ") err)⟩
    | (net1, .panic p) => ⟨h, net1, kr, .panic p⟩
    | (net1, .outOfFuel) => ⟨h, net1, kr, .outOfFuel⟩
    | (net1, .ok flow) =>
      match flow.SolveAndSubmitJSChallenge h net1 with
      | (net2, .error err) =>
        ⟨h, net2, kr, .error (.wrap (str "failed to submit JS challenge: ") err)⟩
      | (net2, .panic p) => ⟨h, net2, kr, .panic p⟩
      | (net2, .outOfFuel) => ⟨h, net2, kr, .outOfFuel⟩
      | (net2, .ok flow1) =>
        match flow1.SubmitUsernameAndPassword (Helicon.LoginFuel fuel) h net2 kr with
        | ⟨h3, net3, kr3, .error err⟩ =>
          ⟨h3, net3, kr3, .error (.wrap (str "failed to submit username: ") err)⟩
        | ⟨h3, net3, kr3, .panic p⟩ => ⟨h3, net3, kr3, .panic p⟩
        | ⟨h3, net3, kr3, .outOfFuel⟩ => ⟨h3, net3, kr3, .outOfFuel⟩
        | ⟨h3, net3, kr3, .ok _⟩ =>
          match h3.SaveTokensToKeyring kr3 with
          | (kr4, some err) =>
            ⟨h3, net3, kr4, .error (.wrap (str "failed to save the token to keyring: ") err)⟩
          | (kr4, none) => ⟨(h3.LoadTokensFromKeyring kr4).1, net3, kr4, .ok ()⟩

/-- Go `(*Helicon).Login`. Every attempt that reaches a further call of `Login` has used up
responses of the world, so one more unit of fuel than there are responses is never used up
(`Login_returns`). -/
def Helicon.Login (h : Helicon) (net : Net) (kr : Keyring) : Run :=
  Helicon.LoginFuel (net.responses.length + 1) h net kr

/-- Go `(*Helicon).SetLoginCredentials`. -/
def Helicon.SetLoginCredentials (h : Helicon) (username password : Str) : Helicon :=
  { h with Credentials := { h.Credentials with Username := username, Password := password } }

/-- Go `(*Helicon).SetDefaultUserAgent`; `none` is the nil pointer. -/
def Helicon.SetDefaultUserAgent (h : Helicon) (userAgent : Option Str) : Helicon :=
  match userAgent with
  | none =>
    { h with UserAgent := str ("Mozilla/5.0 (Macintosh; Intel Mac OS X 10_15_7) "
        ++ "AppleWebKit/537.36 (KHTML, like Gecko) Chrome/136.0.0.0 Safari/537.36") }
  | some userAgent => { h with UserAgent := userAgent }

/-- Go `(*Helicon).Authenticate`, reading the environment `env`. The warnings of `slog` leave
no trace in the model. -/
def Helicon.Authenticate (h : Helicon) (env : Env) (net : Net) (kr : Keyring) : Run :=
  let username := os.Getenv env (str "HELICON_USERNAME")
  if username = [] then
    ⟨h, net, kr,
      .error (.msg (str "HELICON_USERNAME environment variable not set, cannot proceed"))⟩
  else
    let password := os.Getenv env (str "HELICON_PASSWORD")
    if password = [] then
      ⟨h, net, kr,
        .error (.msg (str "HELICON_PASSWORD environment variable not set, cannot proceed"))⟩
    else
      let h1 := (h.SetLoginCredentials username password).SetDefaultUserAgent none
      let forceLoginString := os.Getenv env (str "HELICON_FORCE_LOGIN")
      let forceLogin : Bool :=
        if forceLoginString ≠ [] then
          match strconv.ParseBool forceLoginString with
          | some b => b
          | none => false
        else false
      let forced : Run := if forceLogin then h1.Login net kr else ⟨h1, net, kr, .ok ()⟩
      match forced with
      | ⟨h2, net2, kr2, .ok _⟩ =>
        match h2.LoadTokensFromKeyring kr2 with
        | (h3, some _) => h3.Login net2 kr2
        | (h3, none) => ⟨h3, net2, kr2, .ok ()⟩
      | r => r

/-! ## Notions used in the statements about Cookie.Parse -/

/-- The name of a piece of a cookie line: the piece without the white space around it, cut
at its first `=`. -/
def segmentName (piece : Str) : Str := (strings.Cut (strings.TrimSpace piece) 61).1

/-- The value of a piece of a cookie line: what follows the first `=` of the trimmed piece,
nothing when it has no `=`. -/
def segmentValue (piece : Str) : Str := (strings.Cut (strings.TrimSpace piece) 61).2.1

/-- The eight attribute names that Parse recognizes, in lower case. -/
def attributeNames : List Str :=
  [str "expires", str "path", str "domain", str "secure", str "httponly", str "partitioned",
   str "samesite", str "max-age"]

/-- The digits of a decimal integer: the text after an optional sign. -/
def unsignedPart (v : Str) : Str :=
  if v.head? = some 43 ∨ v.head? = some 45 then v.drop 1 else v

/-- A decimal integer: an optional sign followed by decimal digits, at least one. -/
def isDecimalInteger (v : Str) : Bool :=
  unsignedPart v ≠ [] && (unsignedPart v).all time.isDigitByte

/-- The integer that a decimal integer denotes. -/
def decimalValue (v : Str) : Int :=
  if v.head? = some 45 then -(time.digitsValue (unsignedPart v) : Int)
  else (time.digitsValue (unsignedPart v) : Int)

/-- A piece named `expires`, letter case apart, whose value parses under neither layout. -/
def badExpires (piece : Str) : Bool :=
  strings.ToLower (segmentName piece) = str "expires" &&
    (time.Parse time.RFC1123 (segmentValue piece)).isNone &&
    (time.Parse time.RFC1123Z (segmentValue piece)).isNone

/-- A piece named `max-age`, letter case apart, whose value is no decimal integer. -/
def badMaxAgeText (piece : Str) : Bool :=
  strings.ToLower (segmentName piece) = str "max-age" && !isDecimalInteger (segmentValue piece)

/-- A piece named `max-age`, letter case apart, whose value is no decimal integer of the
64-bit range of `int`. -/
def badMaxAge (piece : Str) : Bool :=
  strings.ToLower (segmentName piece) = str "max-age" &&
    !(isDecimalInteger (segmentValue piece) && decide (-(2 ^ 63) ≤ decimalValue (segmentValue piece))
      && decide (decimalValue (segmentValue piece) ≤ 2 ^ 63 - 1))

/-- A cookie line: the cookie pair `name=value` followed by the pieces `attrs`, each one after
a semicolon. A piece holds the white space in front of its attribute. -/
def cookieLine (name value : Str) (attrs : List Str) : Str :=
  (name ++ 61 :: value) ++ attrs.foldr (fun q acc => 59 :: q ++ acc) []

/-- The value of the last piece named `n`, letter case apart. -/
def lastValue (n : Str) : List Str → Option Str
  | [] => none
  | p :: ps =>
    match lastValue n ps with
    | some v => some v
    | none => if strings.ToLower (segmentName p) = n then some (segmentValue p) else none

/-- Whether a piece named `n`, letter case apart, is present. -/
def present (n : Str) (pieces : List Str) : Bool :=
  pieces.any (fun p => strings.ToLower (segmentName p) = n)

/-- The instant an `Expires` value denotes: read by the RFC 1123 layout, else by the
RFC 1123Z layout. -/
def expiresOf (v : Str) : time.Time :=
  match time.Parse time.RFC1123 v with
  | some t => t
  | none => (time.Parse time.RFC1123Z v).getD time.Time.zero

/-- An attribute piece with a well-formed value: no semicolon in it, its name one of the eight
attribute names in any letter case, for `Max-Age` a decimal integer of the 64-bit range, for
`Expires` a date that one of the two layouts reads. -/
def IsAttribute (p : Str) : Prop :=
  59 ∉ p ∧ strings.ToLower (segmentName p) ∈ attributeNames ∧ badExpires p = false ∧
    badMaxAge p = false

instance (p : Str) : Decidable (IsAttribute p) := by
  unfold IsAttribute; infer_instance

/-- The cookie line `Path=/; Secure`: a cookie named `Path`. -/
def rawCookieNamedPath : Str := str "Path=/; Secure"

/-- The attribute pieces of `rawDocumented`. -/
def attrsDocumented : List Str :=
  [str " Max-Age=21600", str " Expires=Mon, 19 May 2025 00:42:35 GMT", str " Path=/",
   str " Domain=.x.com", str " Secure"]

/-! ## Notions used in the statement about the two date layouts -/

/-- The wall-clock fields of a date-time as a date line writes them: the index of the day
name written (0 is `Sun`), the day of the month, the month (1 is `Jan`), the year, and the
time of day. -/
structure WallClock where
  weekday : Nat
  day : Nat
  month : Nat
  year : Nat
  hour : Nat
  minute : Nat
  second : Nat
deriving DecidableEq, Repr

/-- The fields are those of a date-time: a day name, a month, a year of four digits, a day of
that month, and a time of day. -/
def WallClock.Valid (w : WallClock) : Prop :=
  w.weekday < 7 ∧ 1 ≤ w.month ∧ w.month ≤ 12 ∧ w.year ≤ 9999 ∧ 1 ≤ w.day ∧
    (w.day : Int) ≤ time.daysIn w.month w.year ∧ w.hour < 24 ∧ w.minute < 60 ∧ w.second < 60

instance (w : WallClock) : Decidable w.Valid := by
  unfold WallClock.Valid; infer_instance

/-- A number below 100 in two decimal digits. -/
def twoDigits (n : Nat) : Str := [48 + n / 10, 48 + n % 10]

/-- A number below 10000 in four decimal digits. -/
def fourDigits (n : Nat) : Str := [48 + n / 1000, 48 + n / 100 % 10, 48 + n / 10 % 10, 48 + n % 10]

/-- The date line of the fields in the form of RFC 1123, `Mon, 02 Jan 2006 15:04:05 ZONE`,
with the given text for the zone: `GMT` for the RFC 1123 form, `+0000` for the RFC 1123Z
form. -/
def WallClock.format (w : WallClock) (zone : Str) : Str :=
  time.shortDayNames.getD w.weekday [] ++ (44 :: 32 ::
  (twoDigits w.day ++ (32 ::
  (time.shortMonthNames.getD (w.month - 1) [] ++ (32 ::
  (fourDigits w.year ++ (32 ::
  (twoDigits w.hour ++ (58 ::
  (twoDigits w.minute ++ (58 ::
  (twoDigits w.second ++ (32 :: zone)))))))))))))

/-- The instant of the fields read as a time in UTC. -/
def WallClock.instant (w : WallClock) : time.Time :=
  time.Date w.year w.month w.day w.hour w.minute w.second 0

/-- The date of the documented cookie line: Monday, 19 May 2025, 00:42:35. -/
def wallClockDocumented : WallClock :=
  { weekday := 1, day := 19, month := 5, year := 2025, hour := 0, minute := 42, second := 35 }

/-! ## Notions used in the statements about Login -/

/-- The request that starts a run of the login flow: the POST of `StartLoginFlow`. -/
def isStartRequest (r : Request) : Bool :=
  r.Method = str "POST" && r.URL = taskURL ++ str "?flow_name=login"

/-- The number of runs of the login flow started so far: the start requests sent. -/
def flowRuns (net : Net) : Nat := (net.sent.filter isStartRequest).length

/-- A call leaves the world `net1` after `net`, having consumed responses and started `n` runs
of the flow. -/
def Net.Moved (net net1 : Net) (n : Nat) : Prop :=
  net1.responses.length ≤ net.responses.length ∧ flowRuns net1 = flowRuns net + n

/-- What `Login` goes on to do after the call of `Login` that `SubmitUsernameAndPassword` makes
when the CSRF cookie is empty (auth.go lines 18 to 27, with the `return err` and `return nil`
of twitter.go lines 606 to 611 in between): an error of the nested call comes back wrapped, and
after a nested call that returned nil the tokens are saved and loaded once more. -/
def afterNestedLogin (r : Run) : Run :=
  match r with
  | ⟨h, net, kr, .error err⟩ => ⟨h, net, kr, .error (.wrap (str "failed to submit username: ") err)⟩
  | ⟨h, net, kr, .panic p⟩ => ⟨h, net, kr, .panic p⟩
  | ⟨h, net, kr, .outOfFuel⟩ => ⟨h, net, kr, .outOfFuel⟩
  | ⟨h, net, kr, .ok _⟩ =>
    match h.SaveTokensToKeyring kr with
    | (kr1, some err) =>
      ⟨h, net, kr1, .error (.wrap (str "failed to save the token to keyring: ") err)⟩
    | (kr1, none) => ⟨(h.LoadTokensFromKeyring kr1).1, net, kr1, .ok ()⟩

/-! ## Concrete clients, stores and worlds used in the examples -/

/-- The client of the happy path of the specification before its first login: user `alice`,
password `pw`, no cookies and no bearer token yet. -/
def alice : Helicon :=
  { Credentials := { Username := str "alice", Password := str "pw" }, UserAgent := str "UA" }

/-- The client `alice` holding the three credentials of the happy path. -/
def aliceLoggedIn : Helicon :=
  { alice with
      Cookies := { CSRFToken := { Raw := str "ct0=C; Path=/" },
                   AuthToken := { Raw := str "auth_token=A; Path=/" },
                   BearerToken := str "Bearer AAAA" } }

/-- A store whose entry for `alice` is the base64 encoding of `only-one-part`. -/
def storeOnePart : Keyring :=
  { entries := [((str "helicon", str "alice"), str "b25seS1vbmUtcGFydA==")] }

/-- The client `alice` holding a CSRF cookie line whose `Max-Age` is no number. -/
def clientBadMaxAge : Helicon :=
  { alice with
      Cookies := { CSRFToken := { Raw := str "Max-Age=x" },
                   AuthToken := { Raw := str "auth_token=A" },
                   BearerToken := str "Bearer AAAA" } }

/-- A cookie line whose `Max-Age` is the decimal integer `2^63`, one more than the largest
`int`. -/
def rawMaxAgeTooLarge : Str := str "ct0=XXX; Max-Age=9223372036854775808"

/-- A cookie line with an attribute that Parse does not know after the cookie pair. -/
def rawWithPriority : Str := str "ct0=XXX; Path=/; Priority=High"

/-- A cookie line that ends in a semicolon. -/
def rawTrailingSemicolon : Str := str "ct0=XXX; Path=/;"

/-- The cookie line of the comment on `Cookie.Raw`. -/
def rawDocumented : Str :=
  str "ct0=XXX; Max-Age=21600; Expires=Mon, 19 May 2025 00:42:35 GMT; Path=/; Domain=.x.com; Secure"

/-- The documented line with its date in the RFC 1123Z form. -/
def rawDocumentedNumeric : Str :=
  str "ct0=XXX; Max-Age=21600; Expires=Mon, 19 May 2025 00:42:35 +0000; Path=/; Domain=.x.com; Secure"

/-- The login page: the address of the main script and the guest token. -/
def pageResponse : Response :=
  { Body := str ("<script src=\x22https://abs.twimg.com/responsive-web/client-web-legacy/"
      ++ "main.175fd69a.js\x22></script><script>document.cookie=\x22gt=1234567; Max-Age=10\x22"
      ++ "</script>") }

/-- The main script, with the bearer token `Bearer AAAA`. -/
def mainScriptResponse : Response := { Body := str "a=\x22Bearer AAAA\x22;" }

/-- The response to the start request: flow token `T1`, the instrumentation subtask, and the
three cookies of the flow. -/
def startResponse : Response :=
  { Body := str "T1",
    JSON := some
      { FlowToken := str "T1",
        Subtasks := [{ SubtaskId := str "LoginJsInstrumentationSubtask",
                       Url := str "https://twitter.com/i/js_inst?c_name=ui_metrics" }] },
    SetCookie := [str "att=1-abc; Path=/", str "guest_id=v1%3A17; Path=/", str "__cf_bm=xyz; HttpOnly"] }

/-- The instrumentation script. -/
def scriptResponse : Response := { Body := str "ui_metrics" }

/-- A task response that carries the flow token `t` and no cookie. -/
def tokenResponse (t : Str) : Response := { Body := t, JSON := some { FlowToken := t } }

/-- The password response of a login that issues the session cookies. -/
def passwordResponse : Response :=
  { Body := str "T4", JSON := some { FlowToken := str "T4" },
    SetCookie := [str "ct0=C; Path=/", str "auth_token=A; Path=/"] }

/-- The password response of a login that was logged out at once: no `ct0` cookie. -/
def passwordResponseNoCSRF : Response :=
  { Body := str "T4", JSON := some { FlowToken := str "T4" },
    SetCookie := [str "auth_token=A; Path=/"] }

/-- The responses of one run of the flow that ends with the given password response. -/
def flowResponses (last : Response) : List (Option Response) :=
  [some pageResponse, some mainScriptResponse, some pageResponse, some startResponse,
   some scriptResponse, some (tokenResponse (str "T2")), some (tokenResponse (str "T3")), some last]

/-- The value the browser hands back for the instrumentation script. -/
def challengeValue : Option JSValue := some (.string (str "\x7b\x22rf\x22:1\x7d") true)

/-- The happy path of the specification: one run of the flow, which issues both cookies. -/
def happyWorld : Net := { responses := flowResponses passwordResponse, evals := [challengeValue] }

/-- A world that logs the client out after the first login and issues the cookies in the
second run. -/
def oneRestartWorld : Net :=
  { responses := flowResponses passwordResponseNoCSRF ++ flowResponses passwordResponse,
    evals := [challengeValue, challengeValue] }

/-- A world whose first two password responses carry no `ct0` and whose third one does. -/
def twoRestartsWorld : Net :=
  { responses := flowResponses passwordResponseNoCSRF ++ flowResponses passwordResponseNoCSRF
      ++ flowResponses passwordResponse,
    evals := [challengeValue, challengeValue, challengeValue] }

/-- The flow of the first run in `oneRestartWorld` after the start step. -/
def startedFlow : LoginFlow :=
  { FlowToken := str "T1",
    Subtasks := [{ SubtaskId := str "LoginJsInstrumentationSubtask",
                   Url := str "https://twitter.com/i/js_inst?c_name=ui_metrics" }],
    AnonymousBearerToken := str "Bearer AAAA", GuestToken := str "1234567",
    GuestId := str "v1%3A17", UserAgent := str "UA", Att := str "1-abc", CFBM := str "xyz" }

/-- The same flow after the challenge step. -/
def challengedFlow : LoginFlow := { startedFlow with FlowToken := str "T2" }

/-- The client `alice` after a password response without `ct0`: only the auth cookie line. -/
def aliceLoggedOut : Helicon :=
  { alice with Cookies := { AuthToken := { Raw := str "auth_token=A; Path=/" } } }

/-! ## Notions used in the statements about the scrapers -/

/-- The request for the login page (twitter.go lines 25 to 29 and 119 to 123). -/
def loginPageRequest (h : Helicon) : Request :=
  { Method := str "GET", URL := loginPageURL, Header := [(str "User-Agent", h.UserAgent)] }

/-- The request for the main script at the address `mainScriptUrl` (twitter.go lines 82 to
86). -/
def mainScriptRequest (h : Helicon) (mainScriptUrl : Str) : Request :=
  { Method := str "GET", URL := mainScriptUrl, Header := [(str "User-Agent", h.UserAgent)] }

/-- A match of the Bearer pattern without the double quote that ends it, when one does. -/
def withoutTerminatingQuote (m : Str) : Str := if m.getLast? = some 34 then m.dropLast else m

/-- A world that serves the login page `page` and then the main script `script`. -/
def scrapeWorld (page script : Str) : Net :=
  { responses := [some { Body := page }, some { Body := script }] }

/-- The address of the main script in the comment on `FindTwitterMainJavascriptUrl`. -/
def mainScriptUrlDocumented : Str :=
  str "https://abs.twimg.com/responsive-web/client-web-legacy/main.175fd69a.js"

/-- A main script with two bearer literals. -/
def scriptTwoBearers : Str := str "x=\x22Bearer one\x22;y=\x22Bearer two\x22;"

/-- A main script whose only string with the word `Bearer` has nothing after the word. -/
def scriptBearerNoSpace : Str := str "a=\x22Bearer\x22;"

/-- A main script without the word `Bearer`. -/
def scriptNoBearer : Str := str "var a=1;"

/-- A login page that names the main script between single quotes. -/
def pageSingleQuoted : Str :=
  str ("<script src=\x27https://abs.twimg.com/responsive-web/client-web-legacy/"
    ++ "main.175fd69a.js\x27></script>")

/-- A login page that sets no guest token. -/
def pageNoGuestToken : Str := str "<html><head></head><body></body></html>"

/-! ## Notions used in the statements about Authenticate -/

/-- The user agent that `SetDefaultUserAgent` installs for a nil pointer: the fixed string of
the Chrome family. -/
def defaultUserAgent : Str :=
  str ("Mozilla/5.0 (Macintosh; Intel Mac OS X 10_15_7) "
    ++ "AppleWebKit/537.36 (KHTML, like Gecko) Chrome/136.0.0.0 Safari/537.36")

/-- The client as `Authenticate` has set it up when both variables are set (auth.go lines 43
and 44): the credentials of the environment and the default user agent. -/
def Helicon.configured (h : Helicon) (env : Env) : Helicon :=
  (h.SetLoginCredentials (os.Getenv env (str "HELICON_USERNAME"))
    (os.Getenv env (str "HELICON_PASSWORD"))).SetDefaultUserAgent none

/-- An environment with the credentials of `alice` and no HELICON_FORCE_LOGIN. -/
def envAlice : Env := [(str "HELICON_USERNAME", str "alice"), (str "HELICON_PASSWORD", str "pw")]

/-- The store after the client `aliceLoggedIn` has saved its tokens. -/
def storeAlice : Keyring := (aliceLoggedIn.SaveTokensToKeyring {}).1

/-! ## Notions used in the statement about the session cookies -/

/-- The cookie name of a `Set-Cookie` line: its first `;`-segment, cut at its first `=`,
trimmed. -/
def cookieNameOf (line : Str) : Str :=
  strings.TrimSpace ((line.takeWhile (fun c => c ≠ 59)).takeWhile (fun c => c ≠ 61))

/-- The last of the lines whose cookie name is `n`. -/
def lastNamed (n : Str) (lines : List Str) : Option Str :=
  (lines.filter (fun line => cookieNameOf line = n)).getLast?

/-- A password response that issues an auth cookie `X` and no `ct0`. -/
def passwordResponseOtherAuth : Response :=
  { Body := str "T4", JSON := some { FlowToken := str "T4" },
    SetCookie := [str "auth_token=X; Path=/"] }

/-- A world for the last step of a first run that is answered without `ct0`, and a second run
that issues both cookies. -/
def restartOtherAuthWorld : Net :=
  { responses := [some (tokenResponse (str "T3")), some passwordResponseOtherAuth]
      ++ flowResponses passwordResponse,
    evals := [challengeValue] }

/-- A world for the last step of a run that issues both cookies. -/
def lastStepWorld : Net :=
  { responses := [some (tokenResponse (str "T3")), some passwordResponse] }

/-! ## Notions used in the statements about the requests of a login -/

/-- Go `err.Error()`: the message of an error. A library error is printed by the name of its
origin. -/
def Error.message : Error → Str
  | .lib origin => origin
  | .msg text => text
  | .wrap text err => text ++ err.message

/-- The error of a result, when it is one. -/
def Res.error? {α : Type} : Res α → Option Error
  | .error err => some err
  | _ => none

/-- Between the states `net` and `net1` of the world exactly the exchanges `es` took place:
the requests sent, in order, each with the answer it got. -/
def Net.Exchanged (net net1 : Net) (es : List (Request × Option Response)) : Prop :=
  net1.sent = net.sent ++ es.map Prod.fst ∧ net1.received = net.received ++ es.map Prod.snd

/-- The exchanges between the states `net` and `net1` of the world. -/
def Net.exchanges (net net1 : Net) : List (Request × Option Response) :=
  (net1.sent.drop net.sent.length).zip (net1.received.drop net.received.length)

/-- An onboarding POST: a POST to the task endpoint, with or without the query of the start
request. -/
def isOnboarding (q : Request) : Bool :=
  q.Method = str "POST" && (q.URL = taskURL || q.URL = taskURL ++ str "?flow_name=login")

/-- The onboarding exchanges among `es`. -/
def posts (es : List (Request × Option Response)) : List (Request × Option Response) :=
  es.filter (fun e => isOnboarding e.1)

/-- The field `flow_token` of a request body. -/
def Payload.flowToken : Payload → Option Str
  | .jsChallenge t _ _ _ => some t
  | .username t _ _ _ _ => some t
  | .password t _ _ _ => some t
  | _ => Option.none

/-- The flow token that an answer carries: the field `flow_token` of the decoded body. -/
def responseFlowToken : Option Response → Option Str
  | some resp => resp.JSON.map (fun j => j.FlowToken)
  | none => none

/-- The step of the flow that a request belongs to: 0 for the start request, 1 for the
challenge, 2 for the username, 3 for the password. -/
def stepOf (q : Request) : Nat :=
  match q.Body with
  | .jsChallenge _ _ _ _ => 1
  | .username _ _ _ _ _ => 2
  | .password _ _ _ _ => 3
  | _ => 0

/-- The onboarding exchange `b` comes rightly after the onboarding exchange `a`: it starts a
new run of the flow, or it is the next step and its request carries the flow token of the
answer of `a`. -/
def Follows (a b : Request × Option Response) : Prop :=
  isStartRequest b.1 = true ∨
    (stepOf b.1 = stepOf a.1 + 1 ∧
      ∃ t, b.1.Body.flowToken = some t ∧ responseFlowToken a.2 = some t)

/-- An onboarding POST answered with a status above 200. -/
def Rejected (e : Request × Option Response) : Prop :=
  isOnboarding e.1 = true ∧ ∃ resp, e.2 = some resp ∧ resp.StatusCode > 200

/-- The error `o` reports the exchange `e`: there is an error, and when the body of the
answer was read, its message ends with the decimal status code, the address and the raw body
of the answer. -/
def Reports (o : Option Error) (e : Request × Option Response) : Prop :=
  ∃ err, o = some err ∧ ∀ resp, e.2 = some resp → resp.readOK = true →
    ∃ text, err.message = text ++ strconv.Itoa resp.StatusCode ++ str " from " ++ e.1.URL
      ++ str ", raw body: " ++ resp.Body

/-- No exchange but the last is rejected, and a rejected last exchange is reported. -/
def StopsAtRejection (es : List (Request × Option Response)) (o : Option Error) : Prop :=
  (∀ e ∈ es.dropLast, ¬ Rejected e) ∧ ∀ e, es.getLast? = some e → Rejected e → Reports o e

/-- The answer 403 with the body `{"errors":1}`. -/
def forbiddenResponse : Response := { StatusCode := 403, Body := str "\x7b\x22errors\x22:1\x7d" }

/-- A world that rejects the username submission with status 403. -/
def usernameRejectedWorld : Net :=
  { responses := [some pageResponse, some mainScriptResponse, some pageResponse,
      some startResponse, some scriptResponse, some (tokenResponse (str "T2")),
      some forbiddenResponse],
    evals := [challengeValue] }

/-- The username submission of the client `alice` in the flow `challengedFlow`. -/
def usernameRequest : Request :=
  { Method := str "POST", URL := taskURL,
    Header := [(str "Authorization", str "Bearer AAAA"), (str "User-Agent", str "UA"),
      (str "x-twitter-active-user", str "yes"), (str "x-twitter-client-language", str "en"),
      (str "x-guest-token", str "1234567"),
      (str "Cookie", str ("gt=1234567; att=1-abc; guest_id_ads=v1%3A17; "
        ++ "guest_id_marketing=v1%3A17; guest_id=v1%3A17")),
      (str "Content-Type", str "application/json")],
    Body := .username (str "T2") (str "LoginEnterUserIdentifierSSO") (str "user_identifier")
      (str "alice") (str "next_link") }

/-! ## api.go -/

namespace http

/-- Go `Header.Set(key, value)` for a key in canonical form: the entry of the key is replaced
by the one value. -/
def Header.Set (hd : List (Str × Str)) (key value : Str) : List (Str × Str) :=
  hd.filter (fun e => e.1 ≠ key) ++ [(key, value)]

/-- Go `Header.Get(key)` for a key in canonical form: the value of the key, empty without
one. -/
def Header.Get (hd : List (Str × Str)) (key : Str) : Str := (hd.lookup key).getD []

end http

/-- Go `(*Helicon).setCommonHeaders`: the request after the call. -/
def Helicon.setCommonHeaders (h : Helicon) (req : Request) : Request :=
  let hd := http.Header.Set req.Header (str "Authorization") h.Cookies.BearerToken
  let hd := http.Header.Set hd (str "X-Csrf-Token") h.Cookies.CSRFToken.Value
  let hd := http.Header.Set hd (str "X-Twitter-Auth-Type") (str "OAuth2Session")
  let hd := http.Header.Set hd (str "X-Twitter-Active-User") (str "yes")
  let hd := http.Header.Set hd (str "X-Twitter-Client-Language") (str "en")
  let hd := http.Header.Set hd (str "Cookie")
    (str "auth_token=" ++ h.Cookies.AuthToken.Value ++ str "; ct0=" ++ h.Cookies.CSRFToken.Value)
  let hd := http.Header.Set hd (str "Accept") (str "*/*")
  let hd := http.Header.Set hd (str "User-Agent") h.UserAgent
  { req with Header := hd }

/-- Go `(*Helicon).hitApi` for the address `uri`. The error of `io.ReadAll` is dropped (line
28): the bytes that were read are the body. -/
def Helicon.hitApi (h : Helicon) (uri : Str) (net : Net) : Net × Res Str :=
  if !url.Parse uri then
    (net, .error (.msg (str "failed to construct GET request for url " ++ uri)))
  else
    let req := h.setCommonHeaders { Method := str "GET", URL := uri }
    match net.Do req with
    | (net1, none) =>
      (net1, .error (.wrap (str "failed to hit " ++ uri ++ str ": ") (.lib (str "net/http"))))
    | (net1, some resp) =>
      let respBody := resp.Body
      if resp.StatusCode > 200 then
        (net1, .error (.msg (str "unexpected status code " ++ strconv.Itoa resp.StatusCode
          ++ str " from with body " ++ respBody)))
      else (net1, .ok respBody)

/-! ## Notions used in the statements about the API -/

/-- The request that `hitApi` sends for the address `uri`. -/
def apiRequest (h : Helicon) (uri : Str) : Request :=
  h.setCommonHeaders { Method := str "GET", URL := uri }

/-- The address of an API call. -/
def apiURL : Str := str "https://x.com/i/api/graphql/1RFzrZSUoVSgHzVK4MHWlg/TweetDetail?variables=1"

/-- A world that gives the one answer `resp`. -/
def apiWorld (resp : Response) : Net := { responses := [some resp] }

/-- The answer 101 with the body `up`. -/
def switchingResponse : Response := { StatusCode := 101, Body := str "up" }

/-! ## Notions used in the statements about the requests of the steps -/

/-- The request of the challenge submission for the payload `challengeSolution` (twitter.go
lines 278 to 308). -/
def challengeRequest (f : LoginFlow) (challengeSolution : Str) : Request :=
  { Method := str "POST", URL := taskURL,
    Header := [(str "Authorization", f.AnonymousBearerToken), (str "User-Agent", f.UserAgent),
      (str "x-twitter-active-user", str "yes"), (str "x-twitter-client-language", str "en"),
      (str "x-guest-token", f.GuestToken),
      (str "Cookie", str "gt=" ++ f.GuestToken ++ str "; att=" ++ f.Att
        ++ str "; guest_id_ads=" ++ f.GuestId ++ str "; guest_id_marketing=" ++ f.GuestId
        ++ str "; guest_id=" ++ f.GuestId ++ str "; __cf_bm=" ++ f.CFBM),
      (str "Content-Type", str "application/json")],
    Body := .jsChallenge f.FlowToken (str "LoginJsInstrumentationSubtask") challengeSolution
      (str "next_link") }

/-- The requests that a call sent: those in the world `net1` after it that were not yet in
the world `net` before it. -/
def Net.sentSince (net net1 : Net) : List Request := net1.sent.drop net.sent.length

/-- The Cookie header that the claims ask of every step after the start. -/
def accumulatedCookies (f : LoginFlow) : Str :=
  str "gt=" ++ f.GuestToken ++ str "; att=" ++ f.Att ++ str "; guest_id_ads=" ++ f.GuestId
    ++ str "; guest_id_marketing=" ++ f.GuestId ++ str "; guest_id=" ++ f.GuestId
    ++ str "; __cf_bm=" ++ f.CFBM

/-- The world of the challenge step of the happy path: the script, its evaluation, and the
answer with the flow token `T2`. -/
def challengeWorld : Net :=
  { responses := [some scriptResponse, some (tokenResponse (str "T2"))],
    evals := [challengeValue] }

/-- The headers of the username and of the password submission (twitter.go lines 515 to 525
and 566 to 575). -/
def credentialsHeader (f : LoginFlow) : List (Str × Str) :=
  [(str "Authorization", f.AnonymousBearerToken), (str "User-Agent", f.UserAgent),
    (str "x-twitter-active-user", str "yes"), (str "x-twitter-client-language", str "en"),
    (str "x-guest-token", f.GuestToken),
    (str "Cookie", str "gt=" ++ f.GuestToken ++ str "; att=" ++ f.Att
      ++ str "; guest_id_ads=" ++ f.GuestId ++ str "; guest_id_marketing=" ++ f.GuestId
      ++ str "; guest_id=" ++ f.GuestId),
    (str "Content-Type", str "application/json")]

/-- The request of the username submission (twitter.go lines 489 to 525). -/
def submitUsernameRequest (f : LoginFlow) (h : Helicon) : Request :=
  { Method := str "POST", URL := taskURL, Header := credentialsHeader f,
    Body := .username f.FlowToken (str "LoginEnterUserIdentifierSSO") (str "user_identifier")
      h.Credentials.Username (str "next_link") }

/-- The request of the password submission with the flow token `flowToken` (twitter.go lines
547 to 575). -/
def submitPasswordRequest (f : LoginFlow) (h : Helicon) (flowToken : Str) : Request :=
  { Method := str "POST", URL := taskURL, Header := credentialsHeader f,
    Body := .password flowToken (str "LoginEnterPassword") h.Credentials.Password
      (str "next_link") }

/-- The instrumentation subtask of the happy path. -/
def instrumentationSubtask : Subtask :=
  { SubtaskId := str "LoginJsInstrumentationSubtask",
    Url := str "https://twitter.com/i/js_inst?c_name=ui_metrics" }

/-- The request for the instrumentation script of the happy path. -/
def scriptRequest : Request := { Method := str "GET", URL := instrumentationSubtask.Url }

/-- A world for the challenge step in which the script hands back `abc`, which is no JSON. -/
def challengeWorldNoJSON : Net :=
  { responses := [some scriptResponse, some (tokenResponse (str "T2"))],
    evals := [some (.string (str "abc") false)] }

/-- A start response with status 200 whose body has no `subtasks`. -/
def startResponseNoSubtasks : Response :=
  { Body := str "\x7b\x22flow_token\x22:\x22T1\x22,\x22status\x22:\x22success\x22\x7d",
    JSON := some { FlowToken := str "T1", Status := str "success" } }

/-- A world whose start response has no subtasks. -/
def noSubtasksWorld : Net :=
  { responses := [some pageResponse, some mainScriptResponse, some pageResponse,
      some startResponseNoSubtasks, some scriptResponse],
    evals := [challengeValue] }

/-- The flow that StartLoginFlow returns in `noSubtasksWorld`. -/
def flowNoSubtasks : LoginFlow :=
  { FlowToken := str "T1", Status := str "success", AnonymousBearerToken := str "Bearer AAAA",
    GuestToken := str "1234567", UserAgent := str "UA" }

/-! ## Concrete inputs for the statements about stale and foreign values -/

/-- A start response whose second line carries, after the cookie `guest_id`, an attribute
named `att`. -/
def startResponseAttAttribute : Response :=
  { Body := str "T1",
    JSON := some { FlowToken := str "T1", Subtasks := [instrumentationSubtask] },
    SetCookie := [str "att=1-abc; Path=/", str "guest_id=v1%3A17; att=zzz"] }

/-- A world whose start response is `startResponseAttAttribute`. -/
def attAttributeWorld : Net :=
  { responses := [some pageResponse, some mainScriptResponse, some pageResponse,
      some startResponseAttAttribute] }

/-- The client `alice` holding the CSRF cookie line `ct0=OLD; Path=/` of an earlier
session. -/
def aliceStale : Helicon :=
  { alice with Cookies := { CSRFToken := { Raw := str "ct0=OLD; Path=/" } } }

/-- A cookie that was parsed from the line `ct0=OLD; Max-Age=21600; Path=/; Secure` and whose
line has then been replaced by `ct0=NEW`, as LoadTokensFromKeyring does. -/
def cookieReplaced : Cookie :=
  { (Cookie.Parse { Raw := str "ct0=OLD; Max-Age=21600; Path=/; Secure" }).1 with
      Raw := str "ct0=NEW" }

/-! ## Notions used in the statement about Authenticate -/

/-- The three steps of the first run of the login flow in a call of Login (auth.go lines 11 to
18, up to the test of twitter.go line 604): the world after them and the client with the
session cookies harvested, or how the first step that failed ended. -/
def Helicon.firstRun (h : Helicon) (net : Net) : Net × Res Helicon :=
  match h.StartLoginFlow net with
  | (net1, .error err) => (net1, .error err)
  | (net1, .panic p) => (net1, .panic p)
  | (net1, .outOfFuel) => (net1, .outOfFuel)
  | (net1, .ok flow) =>
    match flow.SolveAndSubmitJSChallenge h net1 with
    | (net2, .error err) => (net2, .error err)
    | (net2, .panic p) => (net2, .panic p)
    | (net2, .outOfFuel) => (net2, .outOfFuel)
    | (net2, .ok flow1) => flow1.submitCredentials h net2

/-- The first run of the flow ends logged out: its three steps succeed and CSRFToken.Raw is
empty after the password step, the condition of twitter.go line 604 under which
SubmitUsernameAndPassword calls Login again. -/
def Helicon.loggedOutAfterLogin (h : Helicon) (net : Net) : Bool :=
  match (h.firstRun net).2 with
  | .ok h1 => decide (h1.Cookies.CSRFToken.Raw = [])
  | _ => false

/-- The client `alice` holding a CSRF cookie that was parsed from the line
`ct0=OLD; Max-Age=21600; Path=/; Secure` in an earlier session. -/
def aliceReturning : Helicon :=
  { alice with Cookies :=
      { CSRFToken := (Cookie.Parse { Raw := str "ct0=OLD; Max-Age=21600; Path=/; Secure" }).1 } }

/-! ## Lemmas: strings -/

theorem strings.Split_ne_nil (s : Str) (sep : Nat) : strings.Split s sep ≠ [] := by
  induction s with
  | nil => simp [strings.Split]
  | cons c cs ih =>
    unfold strings.Split
    split
    · simp
    · split <;> simp

theorem strings.Split_of_not_mem (s : Str) (sep : Nat) (h : sep ∉ s) :
    strings.Split s sep = [s] := by
  induction s with
  | nil => simp [strings.Split]
  | cons c cs ih =>
    have hc : c ≠ sep := fun e => h (by simp [e])
    have hcs : sep ∉ cs := fun e => h (by simp [e])
    simp [strings.Split, hc, ih hcs]

theorem strings.Split_append_sep (a b : Str) (sep : Nat) (h : sep ∉ a) :
    strings.Split (a ++ sep :: b) sep = a :: strings.Split b sep := by
  induction a with
  | nil => simp [strings.Split]
  | cons c cs ih =>
    have hc : c ≠ sep := fun e => h (by simp [e])
    have hcs : sep ∉ cs := fun e => h (by simp [e])
    simp [strings.Split, hc, ih hcs]

/-! ## Lemmas: base64 -/

theorem base64.decodeMap_encode : ∀ n < 64, base64.decodeMap (base64.encode n) = n := by
  decide

theorem base64.quantum_full (a b c : Nat) (ha : a < 256) (hb : b < 256) (hc : c < 256) :
    base64.quantumBytes
      [(a * 65536 + b * 256 + c) / 262144 % 64, (a * 65536 + b * 256 + c) / 4096 % 64,
       (a * 65536 + b * 256 + c) / 64 % 64, (a * 65536 + b * 256 + c) % 64] = [a, b, c] := by
  simp only [base64.quantumBytes, List.getD_cons_zero, List.getD_cons_succ, List.length_cons,
    List.length_nil]
  simp
  refine ⟨?_, ?_, ?_⟩ <;> omega

theorem base64.quantum_two (a b : Nat) (ha : a < 256) (hb : b < 256) :
    base64.quantumBytes
      [(a * 65536 + b * 256) / 262144 % 64, (a * 65536 + b * 256) / 4096 % 64,
       (a * 65536 + b * 256) / 64 % 64] = [a, b] := by
  simp only [base64.quantumBytes, List.getD_cons_zero, List.getD_cons_succ, List.length_cons,
    List.length_nil, List.getD_nil]
  simp
  refine ⟨?_, ?_⟩ <;> omega

theorem base64.quantum_one (a : Nat) (ha : a < 256) :
    base64.quantumBytes [(a * 65536) / 262144 % 64, (a * 65536) / 4096 % 64] = [a] := by
  simp only [base64.quantumBytes, List.getD_cons_zero, List.getD_cons_succ, List.length_cons,
    List.length_nil, List.getD_nil]
  simp
  omega

theorem base64.decodeMap_encode_ne (n : Nat) (h : n < 64) :
    base64.decodeMap (base64.encode n) ≠ 255 := by
  rw [base64.decodeMap_encode n h]; omega

/-- Reading one alphabet character into a quantum that is not yet full. -/
theorem base64.decodeFrom_push (dbuf : List Nat) (n : Nat) (rest : Str) (h : n < 64)
    (hl : dbuf.length ≠ 3) :
    base64.decodeFrom dbuf (base64.encode n :: rest) = base64.decodeFrom (dbuf ++ [n]) rest := by
  have hn : n ≠ 255 := by omega
  rw [base64.decodeFrom]
  simp [hl, base64.decodeMap_encode n h, hn]

/-- Reading the fourth alphabet character of a quantum. -/
theorem base64.decodeFrom_fourth (dbuf : List Nat) (n : Nat) (rest : Str) (h : n < 64)
    (hl : dbuf.length = 3) :
    base64.decodeFrom dbuf (base64.encode n :: rest) =
      (base64.decodeFrom [] rest).map (fun out => base64.quantumBytes (dbuf ++ [n]) ++ out) := by
  have hn : n ≠ 255 := by omega
  rw [base64.decodeFrom]
  simp only [base64.decodeMap_encode n h, hl, hn, ne_eq, not_false_eq_true, if_true]
  cases base64.decodeFrom [] rest <;> rfl

theorem base64.DecodeString_EncodeToString (s : Str) (hs : IsBytes s) :
    base64.DecodeString (base64.EncodeToString s) = some s := by
  unfold base64.DecodeString
  induction s using base64.EncodeToString.induct with
  | case1 => simp [base64.EncodeToString, base64.decodeFrom]
  | case2 a =>
    have ha : a < 256 := hs a (by simp)
    simp only [base64.EncodeToString]
    rw [base64.decodeFrom_push _ _ _ (Nat.mod_lt _ (by norm_num)) (by simp),
      base64.decodeFrom_push _ _ _ (Nat.mod_lt _ (by norm_num)) (by simp)]
    simp only [List.nil_append, List.cons_append]
    rw [base64.decodeFrom]
    have h61 : base64.decodeMap 61 = 255 := by decide
    simp [h61, base64.skipNewlines, base64.quantum_one a ha]
  | case3 a b =>
    have ha : a < 256 := hs a (by simp)
    have hb : b < 256 := hs b (by simp)
    simp only [base64.EncodeToString]
    rw [base64.decodeFrom_push _ _ _ (Nat.mod_lt _ (by norm_num)) (by simp),
      base64.decodeFrom_push _ _ _ (Nat.mod_lt _ (by norm_num)) (by simp),
      base64.decodeFrom_push _ _ _ (Nat.mod_lt _ (by norm_num)) (by simp)]
    simp only [List.nil_append, List.cons_append]
    rw [base64.decodeFrom]
    have h61 : base64.decodeMap 61 = 255 := by decide
    simp [h61, base64.skipNewlines, base64.quantum_two a b ha hb]
  | case4 a b c rest ih =>
    have ha : a < 256 := hs a (by simp)
    have hb : b < 256 := hs b (by simp)
    have hc : c < 256 := hs c (by simp)
    have hr : IsBytes rest := fun x hx => hs x (by simp [hx])
    simp only [base64.EncodeToString]
    rw [base64.decodeFrom_push _ _ _ (Nat.mod_lt _ (by norm_num)) (by simp),
      base64.decodeFrom_push _ _ _ (Nat.mod_lt _ (by norm_num)) (by simp),
      base64.decodeFrom_push _ _ _ (Nat.mod_lt _ (by norm_num)) (by simp),
      base64.decodeFrom_fourth _ _ _ (Nat.mod_lt _ (by norm_num)) (by simp)]
    simp only [List.nil_append, List.cons_append]
    rw [ih hr, base64.quantum_full a b c ha hb hc]
    simp

/-! ## Lemmas: Cookie.Parse -/

theorem Cookie.assign_Raw (c : Cookie) (part k v : Str) :
    (Cookie.assign c part k v).1.Raw = c.Raw := by
  unfold Cookie.assign
  split_ifs <;> (try split) <;> (try split) <;> rfl

theorem Cookie.assign_err (c d : Cookie) (part k v : Str) :
    (Cookie.assign c part k v).2 = (Cookie.assign d part k v).2 := by
  unfold Cookie.assign
  split_ifs <;> (try split) <;> (try split) <;> rfl

theorem Cookie.parsePart_Raw (c : Cookie) (piece : Str) :
    (Cookie.parsePart c piece).1.Raw = c.Raw := Cookie.assign_Raw _ _ _ _

theorem Cookie.parsePart_err (c d : Cookie) (piece : Str) :
    (Cookie.parsePart c piece).2 = (Cookie.parsePart d piece).2 := Cookie.assign_err _ _ _ _ _

theorem Cookie.parseLoop_Raw (pieces : List Str) (c : Cookie) :
    (Cookie.parseLoop pieces c).1.Raw = c.Raw := by
  induction pieces generalizing c with
  | nil => rfl
  | cons p ps ih =>
    have h := Cookie.parsePart_Raw c p
    unfold Cookie.parseLoop
    split
    · next c1 e he => rw [he] at h; exact h
    · next c1 he => rw [he] at h; rw [ih c1]; exact h

theorem Cookie.parseLoop_err (pieces : List Str) (c d : Cookie) :
    (Cookie.parseLoop pieces c).2 = (Cookie.parseLoop pieces d).2 := by
  induction pieces generalizing c d with
  | nil => rfl
  | cons p ps ih =>
    have h := Cookie.parsePart_err c d p
    rw [Cookie.parseLoop, Cookie.parseLoop]
    rcases hc : Cookie.parsePart c p with ⟨c1, _ | e⟩ <;>
      rcases hd : Cookie.parsePart d p with ⟨d1, _ | e2⟩ <;>
      simp_all
    exact ih c1 d1

/-- Parse never modifies Raw. -/
theorem Cookie.Parse_Raw (c : Cookie) : (Cookie.Parse c).1.Raw = c.Raw :=
  Cookie.parseLoop_Raw _ c

/-- Whether Parse returns an error depends on Raw alone. -/
theorem Cookie.Parse_err (c d : Cookie) (h : c.Raw = d.Raw) :
    (Cookie.Parse c).2 = (Cookie.Parse d).2 := by
  unfold Cookie.Parse
  rw [h]
  exact Cookie.parseLoop_err _ c d

/-! ## Lemmas: the secret store -/

theorem keyring.lookup_filter_ne (entries : List ((Str × Str) × Str)) (k k2 : Str × Str)
    (hne : k2 ≠ k) :
    (entries.filter (fun e => e.1 ≠ k)).lookup k2 = entries.lookup k2 := by
  induction entries with
  | nil => rfl
  | cons e es ih =>
    obtain ⟨ek, ev⟩ := e
    by_cases hk : ek = k
    · subst hk
      have h2 : (k2 == ek) = false := by simpa using hne
      simp [List.filter, List.lookup, h2]
      simpa using ih
    · by_cases hk2 : k2 = ek
      · subst hk2
        simp [List.filter, List.lookup, hk]
      · have h2 : (k2 == ek) = false := by simpa using hk2
        simp [List.filter, List.lookup, hk, h2]
        simpa using ih

theorem keyring.Get_Set_same (kr : Keyring) (service user password : Str)
    (hav : kr.available = true) :
    keyring.Get (keyring.Set kr service user password).1 service user = some password := by
  simp [keyring.Get, keyring.Set, hav, List.lookup]

theorem keyring.Get_Set_other (kr : Keyring) (service user password s2 u2 : Str)
    (hne : (s2, u2) ≠ (service, user)) :
    keyring.Get (keyring.Set kr service user password).1 s2 u2 = keyring.Get kr s2 u2 := by
  unfold keyring.Get keyring.Set
  by_cases hav : kr.available = true
  · have h2 : ((s2, u2) == (service, user)) = false := by simpa using hne
    simp only [hav, if_true, List.lookup, h2]
    exact keyring.lookup_filter_ne _ _ _ hne
  · simp [hav]

/-- What SaveTokensToKeyring does when the store can be reached. -/
theorem C4_save_writes_blob_aux (h : Helicon) (kr : Keyring) (hav : kr.available = true) :
    (h.SaveTokensToKeyring kr).2 = none ∧
    keyring.Get (h.SaveTokensToKeyring kr).1 (str "helicon") h.Credentials.Username =
      some (base64.EncodeToString
        (h.Cookies.CSRFToken.Raw ++ [31] ++ h.Cookies.AuthToken.Raw ++ [31]
          ++ h.Cookies.BearerToken)) ∧
    (h.SaveTokensToKeyring kr).1.writes =
      ((str "helicon", h.Credentials.Username),
        base64.EncodeToString
          (h.Cookies.CSRFToken.Raw ++ [31] ++ h.Cookies.AuthToken.Raw ++ [31]
            ++ h.Cookies.BearerToken)) :: kr.writes ∧
    ∀ service user : Str, (service, user) ≠ (str "helicon", h.Credentials.Username) →
      keyring.Get (h.SaveTokensToKeyring kr).1 service user = keyring.Get kr service user := by
  have hsave : h.SaveTokensToKeyring kr =
      ((keyring.Set kr (str "helicon") h.Credentials.Username
        (base64.EncodeToString
          (h.Cookies.CSRFToken.Raw ++ [31] ++ h.Cookies.AuthToken.Raw ++ [31]
            ++ h.Cookies.BearerToken))).1, none) := by
    simp [Helicon.SaveTokensToKeyring, keyring.Set, hav, strings.Join]
  rw [hsave]
  refine ⟨rfl, keyring.Get_Set_same _ _ _ _ hav, ?_, ?_⟩
  · simp [keyring.Set, hav]
  · intro service user hne
    exact keyring.Get_Set_other _ _ _ _ _ _ hne

/-! ## C4 -/

/-- C4. When the secret store can be reached, SaveTokensToKeyring returns nil and stores, under
service `helicon` and the account `Credentials.Username`, exactly the standard base64 encoding
of `CSRFToken.Raw ++ 0x1F ++ AuthToken.Raw ++ 0x1F ++ BearerToken`; this is the one write it
makes, and no other entry of the store changes. -/
theorem C4_save_writes_blob (h : Helicon) (kr : Keyring) (hav : kr.available = true) :
    (h.SaveTokensToKeyring kr).2 = none ∧
    keyring.Get (h.SaveTokensToKeyring kr).1 (str "helicon") h.Credentials.Username =
      some (base64.EncodeToString
        (h.Cookies.CSRFToken.Raw ++ [31] ++ h.Cookies.AuthToken.Raw ++ [31]
          ++ h.Cookies.BearerToken)) ∧
    (h.SaveTokensToKeyring kr).1.writes =
      ((str "helicon", h.Credentials.Username),
        base64.EncodeToString
          (h.Cookies.CSRFToken.Raw ++ [31] ++ h.Cookies.AuthToken.Raw ++ [31]
            ++ h.Cookies.BearerToken)) :: kr.writes ∧
    ∀ service user : Str, (service, user) ≠ (str "helicon", h.Credentials.Username) →
      keyring.Get (h.SaveTokensToKeyring kr).1 service user = keyring.Get kr service user :=
  C4_save_writes_blob_aux h kr hav

/-- Witness of C4: the client of the happy path and an empty store. -/
theorem C4_save_writes_blob_witness :
    ({} : Keyring).available = true ∧
    (aliceLoggedIn.SaveTokensToKeyring {}).2 = none ∧
    keyring.Get (aliceLoggedIn.SaveTokensToKeyring {}).1 (str "helicon") (str "alice") =
      some (str "Y3QwPUM7IFBhdGg9Lx9hdXRoX3Rva2VuPUE7IFBhdGg9Lx9CZWFyZXIgQUFBQQ==") :=
  ⟨rfl, (C4_save_writes_blob aliceLoggedIn {} rfl).1,
    (C4_save_writes_blob aliceLoggedIn {} rfl).2.1.trans (by decide)⟩

/-! ## C3 -/

/-- C3. LoadTokensFromKeyring returns an error, and leaves the client as it was, when the store
has no entry for the user, when the entry is not valid base64, and when the decoded entry,
split on 0x1F, does not have exactly three parts. -/
theorem C3_load_rejects (h : Helicon) (kr : Keyring)
    (hbad : keyring.Get kr (str "helicon") h.Credentials.Username = none ∨
      (∃ v, keyring.Get kr (str "helicon") h.Credentials.Username = some v ∧
        base64.DecodeString v = none) ∨
      (∃ v d, keyring.Get kr (str "helicon") h.Credentials.Username = some v ∧
        base64.DecodeString v = some d ∧ (strings.Split d 31).length ≠ 3)) :
    (h.LoadTokensFromKeyring kr).2 ≠ none ∧ (h.LoadTokensFromKeyring kr).1 = h := by
  unfold Helicon.LoadTokensFromKeyring
  rcases hbad with hg | ⟨v, hg, hd⟩ | ⟨v, d, hg, hd, hl⟩
  · simp [hg]
  · simp [hg, hd]
  · simp [hg, hd, hl]

/-- Witness of C3: the store holds base64 of `only-one-part`. -/
theorem C3_load_rejects_witness :
    (keyring.Get storeOnePart (str "helicon") alice.Credentials.Username = none ∨
      (∃ v, keyring.Get storeOnePart (str "helicon") alice.Credentials.Username = some v ∧
        base64.DecodeString v = none) ∨
      (∃ v d, keyring.Get storeOnePart (str "helicon") alice.Credentials.Username = some v ∧
        base64.DecodeString v = some d ∧ (strings.Split d 31).length ≠ 3)) ∧
    (alice.LoadTokensFromKeyring storeOnePart).2 ≠ none ∧
    (alice.LoadTokensFromKeyring storeOnePart).1 = alice :=
  have hb : (keyring.Get storeOnePart (str "helicon") alice.Credentials.Username = none ∨
      (∃ v, keyring.Get storeOnePart (str "helicon") alice.Credentials.Username = some v ∧
        base64.DecodeString v = none) ∨
      (∃ v d, keyring.Get storeOnePart (str "helicon") alice.Credentials.Username = some v ∧
        base64.DecodeString v = some d ∧ (strings.Split d 31).length ≠ 3)) :=
    Or.inr (Or.inr ⟨str "b25seS1vbmUtcGFydA==", str "only-one-part", by decide, by decide, by decide⟩)
  ⟨hb, C3_load_rejects alice storeOnePart hb⟩

/-! ## C2 -/

/-- Counterexample to C2 as stated: a triple without the byte 0x1F whose first cookie line
`Max-Age=x` Parse rejects; the blob decodes to the triple, yet loading it after saving it
returns an error, and the bearer token is not loaded. -/
theorem C2_counterexample :
    31 ∉ clientBadMaxAge.Cookies.CSRFToken.Raw ∧ 31 ∉ clientBadMaxAge.Cookies.AuthToken.Raw ∧
    31 ∉ clientBadMaxAge.Cookies.BearerToken ∧
    (clientBadMaxAge.SaveTokensToKeyring {}).2 = none ∧
    (alice.LoadTokensFromKeyring (clientBadMaxAge.SaveTokensToKeyring {}).1).2 ≠ none ∧
    (alice.LoadTokensFromKeyring (clientBadMaxAge.SaveTokensToKeyring {}).1).1.Cookies.BearerToken
      ≠ clientBadMaxAge.Cookies.BearerToken := by
  decide

/-- C2, amended. For every triple of byte strings none of which contains 0x1F and whose two
cookie lines Cookie.Parse accepts, with a store that can be reached: SaveTokensToKeyring
followed by LoadTokensFromKeyring for the same username returns no error and leaves
CSRFToken.Raw, AuthToken.Raw and BearerToken equal to the saved triple. -/
theorem C2_roundtrip (h g : Helicon) (kr : Keyring) (hav : kr.available = true)
    (hu : g.Credentials.Username = h.Credentials.Username)
    (hb1 : IsBytes h.Cookies.CSRFToken.Raw) (hb2 : IsBytes h.Cookies.AuthToken.Raw)
    (hb3 : IsBytes h.Cookies.BearerToken)
    (hs1 : 31 ∉ h.Cookies.CSRFToken.Raw) (hs2 : 31 ∉ h.Cookies.AuthToken.Raw)
    (hs3 : 31 ∉ h.Cookies.BearerToken)
    (hp1 : (Cookie.Parse { Raw := h.Cookies.CSRFToken.Raw }).2 = none)
    (hp2 : (Cookie.Parse { Raw := h.Cookies.AuthToken.Raw }).2 = none) :
    (h.SaveTokensToKeyring kr).2 = none ∧
    (g.LoadTokensFromKeyring (h.SaveTokensToKeyring kr).1).2 = none ∧
    (g.LoadTokensFromKeyring (h.SaveTokensToKeyring kr).1).1.Cookies.CSRFToken.Raw
      = h.Cookies.CSRFToken.Raw ∧
    (g.LoadTokensFromKeyring (h.SaveTokensToKeyring kr).1).1.Cookies.AuthToken.Raw
      = h.Cookies.AuthToken.Raw ∧
    (g.LoadTokensFromKeyring (h.SaveTokensToKeyring kr).1).1.Cookies.BearerToken
      = h.Cookies.BearerToken := by
  obtain ⟨hret, hget, -, -⟩ := C4_save_writes_blob_aux h kr hav
  refine ⟨hret, ?_⟩
  have hbytes : IsBytes (h.Cookies.CSRFToken.Raw ++ [31] ++ h.Cookies.AuthToken.Raw ++ [31]
      ++ h.Cookies.BearerToken) := by
    intro b hb
    simp only [List.mem_append, List.mem_singleton] at hb
    rcases hb with (((hb | hb) | hb) | hb) | hb
    · exact hb1 b hb
    · omega
    · exact hb2 b hb
    · omega
    · exact hb3 b hb
  have hsplit : strings.Split (h.Cookies.CSRFToken.Raw ++ [31] ++ h.Cookies.AuthToken.Raw ++ [31]
      ++ h.Cookies.BearerToken) 31 =
      [h.Cookies.CSRFToken.Raw, h.Cookies.AuthToken.Raw, h.Cookies.BearerToken] := by
    have e : h.Cookies.CSRFToken.Raw ++ [31] ++ h.Cookies.AuthToken.Raw ++ [31]
        ++ h.Cookies.BearerToken =
        h.Cookies.CSRFToken.Raw ++ 31 :: (h.Cookies.AuthToken.Raw ++ 31 :: h.Cookies.BearerToken) := by
      simp
    rw [e, strings.Split_append_sep _ _ _ hs1, strings.Split_append_sep _ _ _ hs2,
      strings.Split_of_not_mem _ _ hs3]
  have e1 : (Cookie.Parse { g.Cookies.CSRFToken with Raw := h.Cookies.CSRFToken.Raw }).2 = none :=
    (Cookie.Parse_err { g.Cookies.CSRFToken with Raw := h.Cookies.CSRFToken.Raw }
      { Raw := h.Cookies.CSRFToken.Raw } rfl).trans hp1
  have e2 : (Cookie.Parse { g.Cookies.AuthToken with Raw := h.Cookies.AuthToken.Raw }).2 = none :=
    (Cookie.Parse_err { g.Cookies.AuthToken with Raw := h.Cookies.AuthToken.Raw }
      { Raw := h.Cookies.AuthToken.Raw } rfl).trans hp2
  have r1 := Cookie.Parse_Raw { g.Cookies.CSRFToken with Raw := h.Cookies.CSRFToken.Raw }
  have r2 := Cookie.Parse_Raw { g.Cookies.AuthToken with Raw := h.Cookies.AuthToken.Raw }
  unfold Helicon.LoadTokensFromKeyring
  rw [hu, hget]
  simp only [base64.DecodeString_EncodeToString _ hbytes, hsplit]
  simp [e1, e2, r1, r2]

/-- Witness of C2, amended: the credentials of the happy path, saved by one client and loaded
by another for the same user. -/
theorem C2_roundtrip_witness :
    (({} : Keyring).available = true ∧
      alice.Credentials.Username = aliceLoggedIn.Credentials.Username ∧
      31 ∉ aliceLoggedIn.Cookies.CSRFToken.Raw) ∧
    (aliceLoggedIn.SaveTokensToKeyring {}).2 = none ∧
    (alice.LoadTokensFromKeyring (aliceLoggedIn.SaveTokensToKeyring {}).1).2 = none ∧
    (alice.LoadTokensFromKeyring (aliceLoggedIn.SaveTokensToKeyring {}).1).1.Cookies.CSRFToken.Raw
      = aliceLoggedIn.Cookies.CSRFToken.Raw ∧
    (alice.LoadTokensFromKeyring (aliceLoggedIn.SaveTokensToKeyring {}).1).1.Cookies.AuthToken.Raw
      = aliceLoggedIn.Cookies.AuthToken.Raw ∧
    (alice.LoadTokensFromKeyring (aliceLoggedIn.SaveTokensToKeyring {}).1).1.Cookies.BearerToken
      = aliceLoggedIn.Cookies.BearerToken :=
  ⟨⟨rfl, rfl, by decide⟩,
    C2_roundtrip aliceLoggedIn alice {} rfl rfl (by decide) (by decide) (by decide) (by decide)
      (by decide) (by decide) (by decide) (by decide)⟩

/-! ## Lemmas: strconv.Atoi -/

theorem time.digitsValue_foldl_ge (ds : Str) (n : Nat) :
    n ≤ ds.foldl (fun n c => n * 10 + (c - 48)) n := by
  induction ds generalizing n with
  | nil => simp
  | cons c cs ih =>
    simp only [List.foldl_cons]
    exact le_trans (by omega) (ih _)

/-- What the loop of ParseUint returns, in terms of the digits read. -/
theorem strconv.parseUintLoop_spec (ds : Str) (n : Nat) (hn : n ≤ 2 ^ 64 - 1) :
    match strconv.parseUintLoop ds n with
    | none => ds.all time.isDigitByte = false
    | some (m, true) =>
      ds.all time.isDigitByte = true ∧ m = ds.foldl (fun n c => n * 10 + (c - 48)) n ∧
        m ≤ 2 ^ 64 - 1
    | some (m, false) =>
      m = 2 ^ 64 - 1 ∧
        (ds.all time.isDigitByte = true → ds.foldl (fun n c => n * 10 + (c - 48)) n > 2 ^ 64 - 1) := by
  induction ds generalizing n with
  | nil => simp [strconv.parseUintLoop]; omega
  | cons c cs ih =>
    rw [strconv.parseUintLoop]
    by_cases hc : c < 48 ∨ 57 < c
    · simp only [hc, if_true]
      simp [time.isDigitByte]
      omega
    · have hd : time.isDigitByte c = true := by simp [time.isDigitByte]; omega
      simp only [hc, if_false]
      by_cases h1 : n ≥ (2 ^ 64 - 1) / 10 + 1
      · simp only [h1, if_true]
        refine ⟨trivial, fun _ => ?_⟩
        simp only [List.foldl_cons]
        have := time.digitsValue_foldl_ge cs (n * 10 + (c - 48))
        omega
      · simp only [h1, if_false]
        by_cases h2 : n * 10 + (c - 48) > 2 ^ 64 - 1
        · simp only [h2, if_true]
          refine ⟨trivial, fun _ => ?_⟩
          simp only [List.foldl_cons]
          have := time.digitsValue_foldl_ge cs (n * 10 + (c - 48))
          omega
        · simp only [h2, if_false]
          have := ih (n * 10 + (c - 48)) (by omega)
          revert this
          rcases strconv.parseUintLoop cs (n * 10 + (c - 48)) with _ | ⟨m, _ | _⟩
          · simp [hd]
          · simp [hd]
          · simp [hd]

/-- Atoi returns no error exactly for a decimal integer of the 64-bit range, and then returns
its value. -/
theorem strconv.Atoi_ok_iff (v : Str) :
    (strconv.Atoi v).2 = true ↔
      isDecimalInteger v = true ∧ -(2 ^ 63) ≤ decimalValue v ∧ decimalValue v ≤ 2 ^ 63 - 1 := by
  unfold strconv.Atoi isDecimalInteger decimalValue
  by_cases hv : v = []
  · subst hv; simp [unsignedPart]
  · simp only [hv, if_false]
    have hu : unsignedPart v = (if v.head? = some 43 ∨ v.head? = some 45 then v.drop 1 else v) := rfl
    rw [← hu]
    by_cases hd : unsignedPart v = []
    · simp [hd]
    · simp only [hd, if_false]
      have hs := strconv.parseUintLoop_spec (unsignedPart v) 0 (by norm_num)
      have hval : time.digitsValue (unsignedPart v) =
          (unsignedPart v).foldl (fun n c => n * 10 + (c - 48)) 0 := rfl
      rw [hval]
      revert hs
      generalize (unsignedPart v).foldl (fun n c => n * 10 + (c - 48)) 0 = val
      rcases strconv.parseUintLoop (unsignedPart v) 0 with _ | ⟨m, _ | _⟩
      · intro hs; simp at hs; simp [hs]
      · rintro ⟨hm, hs⟩
        subst hm
        by_cases hneg : v.head? = some 45
        · simp [hneg]
          intro _ hall
          have := hs (List.all_eq_true.mpr hall)
          omega
        · simp [hneg]
          intro _ hall
          have := hs (List.all_eq_true.mpr hall)
          omega
      · rintro ⟨hall, hm, hle⟩
        subst hm
        by_cases hneg : v.head? = some 45
        · simp [hneg, hall, hd]
          constructor
          · intro h
            split_ifs at h
            simp_all
            omega
          · intro h
            split_ifs <;> simp_all
            omega
        · simp [hneg, hall, hd]
          constructor
          · intro h
            split_ifs at h
            simp_all
            omega
          · intro h
            split_ifs <;> simp_all
            omega

/-! ## Lemmas: the pieces of a cookie line -/

theorem strings.Cut_found (s : Str) (sep : Nat) : (strings.Cut s sep).2.2 = s.contains sep := by
  induction s with
  | nil => simp [strings.Cut]
  | cons c cs ih =>
    by_cases hc : c = sep
    · subst hc; simp [strings.Cut]
    · have : (sep == c) = false := by simpa using fun e => hc e.symm
      simp [strings.Cut, hc, ih, List.contains, List.elem, this]

theorem strings.Cut_not_found (s : Str) (sep : Nat) (h : (strings.Cut s sep).2.2 = false) :
    strings.Cut s sep = (s, [], false) := by
  induction s with
  | nil => simp [strings.Cut]
  | cons c cs ih =>
    by_cases hc : c = sep
    · subst hc; simp [strings.Cut] at h
    · simp only [strings.Cut, hc, if_false] at h ⊢
      rw [ih h]

/-- The name and the value that Parse takes from a trimmed piece are the two sides of its
first `=`. -/
theorem Cookie.keyValue_eq_cut (part : Str) :
    Cookie.keyValue part = ((strings.Cut part 61).1, (strings.Cut part 61).2.1) := by
  unfold Cookie.keyValue strings.Contains
  have hf := strings.Cut_found part 61
  by_cases hc : part.contains 61 = true
  · rw [hc] at hf
    rcases hcut : strings.Cut part 61 with ⟨before, after, found⟩
    rw [hcut] at hf
    simp only at hf
    subst hf
    have hm : 61 ∈ part := by simpa using hc
    simp [hm, strings.SplitN, strings.SplitN.go, hcut]
  · have hc2 : part.contains 61 = false := by simpa using hc
    rw [hc2] at hf
    rw [strings.Cut_not_found part 61 hf]
    have hm : 61 ∉ part := by simpa using hc2
    simp [hm]

/-- When the `switch` of Parse returns an error. -/
theorem Cookie.assign_err_iff (c : Cookie) (part k v : Str) :
    (Cookie.assign c part k v).2 ≠ none ↔
      (strings.ToLower k = str "expires" ∧ time.Parse time.RFC1123 v = none ∧
        time.Parse time.RFC1123Z v = none) ∨
      (strings.ToLower k = str "max-age" ∧ (strconv.Atoi v).2 = false) := by
  have n1 : str "max-age" ≠ str "expires" := by decide
  have n2 : str "path" ≠ str "max-age" := by decide
  have n3 : str "domain" ≠ str "max-age" := by decide
  have n4 : str "secure" ≠ str "max-age" := by decide
  have n5 : str "httponly" ≠ str "max-age" := by decide
  have n6 : str "partitioned" ≠ str "max-age" := by decide
  have n7 : str "samesite" ≠ str "max-age" := by decide
  unfold Cookie.assign
  generalize strings.ToLower k = name
  split_ifs with h1 h2 h3 h4 h5 h6 h7 h8
  · subst h1
    rcases h : time.Parse time.RFC1123 v with _ | t
    · rcases h' : time.Parse time.RFC1123Z v with _ | t'
      · simp [n1.symm]
      · simp [n1.symm]
    · simp [n1.symm]
  · subst h2; simp [h1, n2]
  · subst h3; simp [h1, n3]
  · subst h4; simp [h1, n4]
  · subst h5; simp [h1, n5]
  · subst h6; simp [h1, n6]
  · subst h7; simp [h1, n7]
  · subst h8
    rcases h : strconv.Atoi v with ⟨n, _ | _⟩
    · simp [n1]
    · simp [n1]
  · simp [h1, h8]

/-- Parse returns an error exactly when the body of its loop does for one of the pieces. -/
theorem Cookie.parseLoop_err_iff (pieces : List Str) (c : Cookie) :
    (Cookie.parseLoop pieces c).2 ≠ none ↔
      ∃ piece ∈ pieces, (Cookie.parsePart {} piece).2 ≠ none := by
  induction pieces generalizing c with
  | nil => simp [Cookie.parseLoop]
  | cons p ps ih =>
    have he := Cookie.parsePart_err c {} p
    rw [Cookie.parseLoop]
    rcases hc : Cookie.parsePart c p with ⟨c1, _ | e⟩
    · rw [hc] at he
      simp only [List.mem_cons, exists_eq_or_imp]
      rw [ih c1, ← he]
      simp
    · rw [hc] at he
      simp only [List.mem_cons, exists_eq_or_imp]
      rw [← he]
      simp

/-- When the body of the loop of Parse returns an error for a piece. -/
theorem Cookie.parsePart_err_iff (c : Cookie) (piece : Str) :
    (Cookie.parsePart c piece).2 ≠ none ↔ badExpires piece = true ∨ badMaxAge piece = true := by
  unfold Cookie.parsePart
  rw [Cookie.keyValue_eq_cut, Cookie.assign_err_iff]
  have ha := strconv.Atoi_ok_iff (segmentValue piece)
  have hb : (strconv.Atoi (segmentValue piece)).2 = false ↔
      ¬ (isDecimalInteger (segmentValue piece) = true ∧
        -(2 ^ 63) ≤ decimalValue (segmentValue piece) ∧
        decimalValue (segmentValue piece) ≤ 2 ^ 63 - 1) := by
    rw [← ha]; simp
  show (strings.ToLower (segmentName piece) = str "expires" ∧
      time.Parse time.RFC1123 (segmentValue piece) = none ∧
      time.Parse time.RFC1123Z (segmentValue piece) = none) ∨
    (strings.ToLower (segmentName piece) = str "max-age" ∧
      (strconv.Atoi (segmentValue piece)).2 = false) ↔ _
  rw [hb]
  have e1 : badExpires piece = true ↔
      (strings.ToLower (segmentName piece) = str "expires" ∧
        time.Parse time.RFC1123 (segmentValue piece) = none ∧
        time.Parse time.RFC1123Z (segmentValue piece) = none) := by
    simp [badExpires, and_assoc]
  have e2 : badMaxAge piece = true ↔
      (strings.ToLower (segmentName piece) = str "max-age" ∧
        ¬ (isDecimalInteger (segmentValue piece) = true ∧
          -(2 ^ 63) ≤ decimalValue (segmentValue piece) ∧
          decimalValue (segmentValue piece) ≤ 2 ^ 63 - 1)) := by
    unfold badMaxAge
    generalize decimalValue (segmentValue piece) = d
    by_cases hP : isDecimalInteger (segmentValue piece) = true
    · simp only [hP, Bool.true_and, Bool.and_eq_true, Bool.not_eq_true', decide_eq_true_eq,
        Bool.and_eq_false_iff, decide_eq_false_iff_not, true_and]
      constructor
      · rintro ⟨h1, h2⟩
        exact ⟨h1, by omega⟩
      · rintro ⟨h1, h2⟩
        exact ⟨h1, by omega⟩
    · simp [hP]
  rw [e1, e2]

/-! ## C7 -/

/-- Counterexample to C7 as stated: the value of `Max-Age` is the decimal integer `2^63`, no
piece is named `expires`, and Parse returns an error. -/
theorem C7_counterexample :
    (Cookie.Parse { Raw := rawMaxAgeTooLarge }).2 ≠ none ∧
    ¬ ∃ piece ∈ strings.SplitSeq rawMaxAgeTooLarge 59,
        badExpires piece = true ∨ badMaxAgeText piece = true := by
  decide

/-- C7, amended. Cookie.Parse returns an error if and only if Raw has a piece named `expires`,
letter case apart, whose value parses under neither the RFC 1123 nor the RFC 1123Z layout, or
a piece named `max-age`, letter case apart, whose value is not a decimal integer (an optional
sign, then digits) of the 64-bit range of `int`; in every other case it returns nil. -/
theorem C7_parse_error_iff (c : Cookie) :
    (Cookie.Parse c).2 ≠ none ↔
      ∃ piece ∈ strings.SplitSeq c.Raw 59, badExpires piece = true ∨ badMaxAge piece = true := by
  unfold Cookie.Parse
  rw [Cookie.parseLoop_err_iff]
  constructor
  · rintro ⟨piece, hm, he⟩
    exact ⟨piece, hm, (Cookie.parsePart_err_iff _ piece).mp he⟩
  · rintro ⟨piece, hm, he⟩
    exact ⟨piece, hm, (Cookie.parsePart_err_iff _ piece).mpr he⟩

/-! ## C5 -/

/-- C5, the code at the failing inputs. With an attribute that Parse does not know after the
cookie pair, Parse returns nil and Key and Value are those of the last such piece, not of the
first; with a semicolon at the end of the line, Key and Value end up empty. -/
theorem C5_last_unrecognized_piece_wins :
    (Cookie.Parse { Raw := rawWithPriority }).2 = none ∧
    (Cookie.Parse { Raw := rawWithPriority }).1.Key = str "Priority" ∧
    (Cookie.Parse { Raw := rawWithPriority }).1.Value = str "High" ∧
    (Cookie.Parse { Raw := rawTrailingSemicolon }).2 = none ∧
    (Cookie.Parse { Raw := rawTrailingSemicolon }).1.Key = [] ∧
    (Cookie.Parse { Raw := rawTrailingSemicolon }).1.Value = [] := by
  decide

/-! ## Lemmas: what the switch of Parse assigns -/

theorem str_expires : str "expires" = [101, 120, 112, 105, 114, 101, 115] := by decide
theorem str_path : str "path" = [112, 97, 116, 104] := by decide
theorem str_domain : str "domain" = [100, 111, 109, 97, 105, 110] := by decide
theorem str_secure : str "secure" = [115, 101, 99, 117, 114, 101] := by decide
theorem str_httponly : str "httponly" = [104, 116, 116, 112, 111, 110, 108, 121] := by decide
theorem str_partitioned :
    str "partitioned" = [112, 97, 114, 116, 105, 116, 105, 111, 110, 101, 100] := by decide
theorem str_samesite : str "samesite" = [115, 97, 109, 101, 115, 105, 116, 101] := by decide
theorem str_max_age : str "max-age" = [109, 97, 120, 45, 97, 103, 101] := by decide

theorem Cookie.assign_Path (c : Cookie) (part k v : Str) :
    (Cookie.assign c part k v).1.Path = if strings.ToLower k = str "path" then v else c.Path := by
  unfold Cookie.assign
  generalize strings.ToLower k = name
  simp only [str_expires, str_path, str_domain, str_secure, str_httponly, str_partitioned,
    str_samesite, str_max_age]
  split_ifs <;> (try split) <;> (try split) <;> simp_all

theorem Cookie.assign_Domain (c : Cookie) (part k v : Str) :
    (Cookie.assign c part k v).1.Domain =
      if strings.ToLower k = str "domain" then v else c.Domain := by
  unfold Cookie.assign
  generalize strings.ToLower k = name
  simp only [str_expires, str_path, str_domain, str_secure, str_httponly, str_partitioned,
    str_samesite, str_max_age]
  split_ifs <;> (try split) <;> (try split) <;> simp_all

theorem Cookie.assign_SameSite (c : Cookie) (part k v : Str) :
    (Cookie.assign c part k v).1.SameSite =
      if strings.ToLower k = str "samesite" then some v else c.SameSite := by
  unfold Cookie.assign
  generalize strings.ToLower k = name
  simp only [str_expires, str_path, str_domain, str_secure, str_httponly, str_partitioned,
    str_samesite, str_max_age]
  split_ifs <;> (try split) <;> (try split) <;> simp_all

theorem Cookie.assign_Secure (c : Cookie) (part k v : Str) :
    (Cookie.assign c part k v).1.Secure =
      if strings.ToLower k = str "secure" then true else c.Secure := by
  unfold Cookie.assign
  generalize strings.ToLower k = name
  simp only [str_expires, str_path, str_domain, str_secure, str_httponly, str_partitioned,
    str_samesite, str_max_age]
  split_ifs <;> (try split) <;> (try split) <;> simp_all

theorem Cookie.assign_HttpOnly (c : Cookie) (part k v : Str) :
    (Cookie.assign c part k v).1.HttpOnly =
      if strings.ToLower k = str "httponly" then some true else c.HttpOnly := by
  unfold Cookie.assign
  generalize strings.ToLower k = name
  simp only [str_expires, str_path, str_domain, str_secure, str_httponly, str_partitioned,
    str_samesite, str_max_age]
  split_ifs <;> (try split) <;> (try split) <;> simp_all

theorem Cookie.assign_Partitioned (c : Cookie) (part k v : Str) :
    (Cookie.assign c part k v).1.Partitioned =
      if strings.ToLower k = str "partitioned" then some true else c.Partitioned := by
  unfold Cookie.assign
  generalize strings.ToLower k = name
  simp only [str_expires, str_path, str_domain, str_secure, str_httponly, str_partitioned,
    str_samesite, str_max_age]
  split_ifs <;> (try split) <;> (try split) <;> simp_all

theorem Cookie.assign_MaxAge (c : Cookie) (part k v : Str) :
    (Cookie.assign c part k v).1.MaxAge =
      if strings.ToLower k = str "max-age" then (strconv.Atoi v).1 else c.MaxAge := by
  unfold Cookie.assign
  generalize strings.ToLower k = name
  simp only [str_expires, str_path, str_domain, str_secure, str_httponly, str_partitioned,
    str_samesite, str_max_age]
  split_ifs <;> (try split) <;> (try split) <;> simp_all

theorem Cookie.assign_Expires (c : Cookie) (part k v : Str) :
    (Cookie.assign c part k v).1.Expires =
      if strings.ToLower k = str "expires" then expiresOf v else c.Expires := by
  unfold Cookie.assign expiresOf
  generalize strings.ToLower k = name
  simp only [str_expires, str_path, str_domain, str_secure, str_httponly, str_partitioned,
    str_samesite, str_max_age]
  split_ifs <;> (try split) <;> (try split) <;> simp_all

theorem Cookie.assign_Key (c : Cookie) (part k v : Str)
    (h : strings.ToLower k ∈ attributeNames) :
    (Cookie.assign c part k v).1.Key = c.Key ∧ (Cookie.assign c part k v).1.Value = c.Value := by
  unfold Cookie.assign
  unfold attributeNames at h
  generalize strings.ToLower k = name at h
  simp only [str_expires, str_path, str_domain, str_secure, str_httponly, str_partitioned,
    str_samesite, str_max_age] at h ⊢
  split_ifs <;> (try split) <;> (try split) <;> simp_all

theorem Cookie.assign_default (c : Cookie) (part k v : Str)
    (h : strings.ToLower k ∉ attributeNames) :
    Cookie.assign c part k v =
      ({ c with Key := (strings.Cut part 61).1, Value := (strings.Cut part 61).2.1 }, none) := by
  unfold Cookie.assign
  unfold attributeNames at h
  simp only [List.mem_cons, List.mem_singleton, not_or, List.not_mem_nil, or_false] at h
  simp [h]

/-! ## Lemmas: a cookie line piece by piece -/

theorem strings.Split_cookieLine (first : Str) (attrs : List Str) (hf : 59 ∉ first)
    (ha : ∀ p ∈ attrs, 59 ∉ p) :
    strings.Split (first ++ attrs.foldr (fun q acc => 59 :: q ++ acc) []) 59 = first :: attrs := by
  induction attrs generalizing first with
  | nil => simpa using strings.Split_of_not_mem first 59 hf
  | cons p ps ih =>
    simp only [List.foldr_cons]
    have e : first ++ (59 :: p ++ List.foldr (fun q acc => 59 :: q ++ acc) [] ps) =
        first ++ 59 :: (p ++ List.foldr (fun q acc => 59 :: q ++ acc) [] ps) := by simp
    rw [e, strings.Split_append_sep _ _ _ hf,
      ih p (ha p (by simp)) (fun q hq => ha q (by simp [hq]))]

theorem strings.Cut_append_sep (a b : Str) (sep : Nat) (h : sep ∉ a) :
    strings.Cut (a ++ sep :: b) sep = (a, b, true) := by
  induction a with
  | nil => simp [strings.Cut]
  | cons c cs ih =>
    have hc : c ≠ sep := fun e => h (by simp [e])
    have hcs : sep ∉ cs := fun e => h (by simp [e])
    simp [strings.Cut, hc, ih hcs]

/-- The body of the loop of Parse in terms of the name and the value of the piece. -/
theorem Cookie.parsePart_eq (c : Cookie) (piece : Str) :
    Cookie.parsePart c piece =
      Cookie.assign c (strings.TrimSpace piece) (segmentName piece) (segmentValue piece) := by
  unfold Cookie.parsePart
  rw [Cookie.keyValue_eq_cut]
  rfl

/-- What Parse has assigned after a run of well-formed attribute pieces. -/
theorem Cookie.parseLoop_attributes (attrs : List Str) (c : Cookie)
    (ha : ∀ p ∈ attrs, IsAttribute p) :
    (Cookie.parseLoop attrs c).2 = none ∧
    (Cookie.parseLoop attrs c).1.Key = c.Key ∧
    (Cookie.parseLoop attrs c).1.Value = c.Value ∧
    (Cookie.parseLoop attrs c).1.MaxAge =
      ((lastValue (str "max-age") attrs).map (fun v => (strconv.Atoi v).1)).getD c.MaxAge ∧
    (Cookie.parseLoop attrs c).1.Expires =
      ((lastValue (str "expires") attrs).map expiresOf).getD c.Expires ∧
    (Cookie.parseLoop attrs c).1.Path = (lastValue (str "path") attrs).getD c.Path ∧
    (Cookie.parseLoop attrs c).1.Domain = (lastValue (str "domain") attrs).getD c.Domain ∧
    (Cookie.parseLoop attrs c).1.SameSite =
      (match lastValue (str "samesite") attrs with
        | some v => some v
        | none => c.SameSite) ∧
    (Cookie.parseLoop attrs c).1.Secure = (present (str "secure") attrs || c.Secure) ∧
    (Cookie.parseLoop attrs c).1.HttpOnly =
      (if present (str "httponly") attrs then some true else c.HttpOnly) ∧
    (Cookie.parseLoop attrs c).1.Partitioned =
      (if present (str "partitioned") attrs then some true else c.Partitioned) := by
  induction attrs generalizing c with
  | nil => simp [Cookie.parseLoop, lastValue, present]
  | cons p ps ih =>
    obtain ⟨-, hname, hbe, hbm⟩ := ha p (by simp)
    have herr : (Cookie.parsePart c p).2 = none := by
      by_contra hne
      rcases (Cookie.parsePart_err_iff c p).mp hne with h | h
      · rw [hbe] at h; exact Bool.false_ne_true h
      · rw [hbm] at h; exact Bool.false_ne_true h
    have hk := Cookie.assign_Key c (strings.TrimSpace p) (segmentName p) (segmentValue p) hname
    have h1 := Cookie.assign_MaxAge c (strings.TrimSpace p) (segmentName p) (segmentValue p)
    have h2 := Cookie.assign_Expires c (strings.TrimSpace p) (segmentName p) (segmentValue p)
    have h3 := Cookie.assign_Path c (strings.TrimSpace p) (segmentName p) (segmentValue p)
    have h4 := Cookie.assign_Domain c (strings.TrimSpace p) (segmentName p) (segmentValue p)
    have h5 := Cookie.assign_SameSite c (strings.TrimSpace p) (segmentName p) (segmentValue p)
    have h6 := Cookie.assign_Secure c (strings.TrimSpace p) (segmentName p) (segmentValue p)
    have h7 := Cookie.assign_HttpOnly c (strings.TrimSpace p) (segmentName p) (segmentValue p)
    have h8 := Cookie.assign_Partitioned c (strings.TrimSpace p) (segmentName p) (segmentValue p)
    rw [← Cookie.parsePart_eq] at hk h1 h2 h3 h4 h5 h6 h7 h8
    rw [Cookie.parseLoop]
    rcases hp : Cookie.parsePart c p with ⟨c1, e⟩
    rw [hp] at herr hk h1 h2 h3 h4 h5 h6 h7 h8
    simp only at herr hk h1 h2 h3 h4 h5 h6 h7 h8
    subst herr
    obtain ⟨i0, i1, i2, i3, i4, i5, i6, i7, i8, i9, i10⟩ :=
      ih c1 (fun q hq => ha q (by simp [hq]))
    simp only
    refine ⟨i0, i1.trans hk.1, i2.trans hk.2, ?_, ?_, ?_, ?_, ?_, ?_, ?_, ?_⟩
    · rw [i3, h1]; simp only [lastValue]
      rcases lastValue (str "max-age") ps with _ | w
      · simp only [Option.map_none', Option.getD_none]
        split_ifs <;> simp
      · simp
    · rw [i4, h2]; simp only [lastValue]
      rcases lastValue (str "expires") ps with _ | w
      · simp only [Option.map_none', Option.getD_none]
        split_ifs <;> simp
      · simp
    · rw [i5, h3]; simp only [lastValue]
      rcases lastValue (str "path") ps with _ | w
      · simp only [Option.map_none', Option.getD_none]
        split_ifs <;> simp
      · simp
    · rw [i6, h4]; simp only [lastValue]
      rcases lastValue (str "domain") ps with _ | w
      · simp only [Option.map_none', Option.getD_none]
        split_ifs <;> simp
      · simp
    · rw [i7, h5]; simp only [lastValue]
      rcases lastValue (str "samesite") ps with _ | w
      · simp only [Option.map_none', Option.getD_none]
        split_ifs <;> simp
      · simp
    · rw [i8, h6]; simp only [present, List.any_cons]
      by_cases hs : strings.ToLower (segmentName p) = str "secure" <;> simp [hs, Bool.or_comm]
    · rw [i9, h7]; simp only [present, List.any_cons]
      by_cases hs : strings.ToLower (segmentName p) = str "httponly" <;> simp [hs]
    · rw [i10, h8]; simp only [present, List.any_cons]
      by_cases hs : strings.ToLower (segmentName p) = str "partitioned" <;> simp [hs]

/-- The value Atoi returns with a nil error is the integer the text denotes. -/
theorem strconv.Atoi_value (v : Str) (h : (strconv.Atoi v).2 = true) :
    (strconv.Atoi v).1 = decimalValue v := by
  unfold strconv.Atoi decimalValue at *
  by_cases hv : v = []
  · subst hv; simp at h
  · simp only [hv, if_false] at h ⊢
    have hu : unsignedPart v = (if v.head? = some 43 ∨ v.head? = some 45 then v.drop 1 else v) := rfl
    rw [← hu] at h ⊢
    by_cases hd : unsignedPart v = []
    · simp [hd] at h
    · simp only [hd, if_false] at h ⊢
      have hs := strconv.parseUintLoop_spec (unsignedPart v) 0 (by norm_num)
      have hval : time.digitsValue (unsignedPart v) =
          (unsignedPart v).foldl (fun n c => n * 10 + (c - 48)) 0 := rfl
      rw [hval]
      revert hs h
      generalize (unsignedPart v).foldl (fun n c => n * 10 + (c - 48)) 0 = val
      rcases strconv.parseUintLoop (unsignedPart v) 0 with _ | ⟨m, _ | _⟩
      · intro h; simp at h
      · intro h _
        exfalso
        revert h
        simp only []
        split_ifs <;> simp
      · intro h ⟨_, hm, _⟩
        subst hm
        by_cases hneg : v.head? = some 45
        · simp only [hneg, decide_True, Bool.not_true, Bool.false_eq_true, false_and, if_false,
            true_and, if_true] at h ⊢
          split_ifs at h ⊢
          simp_all
        · simp only [hneg, decide_False, Bool.not_false, true_and, false_and, if_false] at h ⊢
          split_ifs at h ⊢ <;> simp_all

theorem lastValue_mem (n : Str) (attrs : List Str) (v : Str) (h : lastValue n attrs = some v) :
    ∃ p ∈ attrs, strings.ToLower (segmentName p) = n ∧ segmentValue p = v := by
  induction attrs with
  | nil => simp [lastValue] at h
  | cons p ps ih =>
    simp only [lastValue] at h
    rcases hl : lastValue n ps with _ | w
    · rw [hl] at h
      simp only at h
      split_ifs at h with hn
      · exact ⟨p, by simp, hn, by simpa using h⟩
    · rw [hl] at h
      simp only [Option.some.injEq] at h
      subst h
      obtain ⟨q, hq, h1, h2⟩ := ih hl
      exact ⟨q, by simp [hq], h1, h2⟩

/-- The value that a well-formed piece named `max-age` gives to MaxAge. -/
theorem IsAttribute.maxAge (p : Str) (hp : IsAttribute p)
    (hn : strings.ToLower (segmentName p) = str "max-age") :
    (strconv.Atoi (segmentValue p)).1 = decimalValue (segmentValue p) := by
  apply strconv.Atoi_value
  rw [strconv.Atoi_ok_iff]
  have hb := hp.2.2.2
  unfold badMaxAge at hb
  rw [hn] at hb
  simp only [decide_True, Bool.true_and, Bool.not_eq_false', Bool.and_eq_true,
    decide_eq_true_eq] at hb
  exact ⟨hb.1.1, hb.1.2, hb.2⟩

/-- What Parse makes of a cookie pair followed by well-formed attribute pieces: no error, Key
and Value from the pair, every other field from the last piece of its name. -/
theorem Cookie.Parse_cookieLine (name value : Str) (attrs : List Str)
    (hn : 61 ∉ name) (hs : 59 ∉ name ++ 61 :: value)
    (ht : strings.TrimSpace (name ++ 61 :: value) = name ++ 61 :: value)
    (hname : strings.ToLower name ∉ attributeNames)
    (ha : ∀ p ∈ attrs, IsAttribute p) :
    (Cookie.Parse { Raw := cookieLine name value attrs }).2 = none ∧
    (Cookie.Parse { Raw := cookieLine name value attrs }).1.Raw = cookieLine name value attrs ∧
    (Cookie.Parse { Raw := cookieLine name value attrs }).1.Key = name ∧
    (Cookie.Parse { Raw := cookieLine name value attrs }).1.Value = value ∧
    (Cookie.Parse { Raw := cookieLine name value attrs }).1.MaxAge =
      ((lastValue (str "max-age") attrs).map decimalValue).getD 0 ∧
    (Cookie.Parse { Raw := cookieLine name value attrs }).1.Expires =
      ((lastValue (str "expires") attrs).map expiresOf).getD time.Time.zero ∧
    (Cookie.Parse { Raw := cookieLine name value attrs }).1.Path =
      (lastValue (str "path") attrs).getD [] ∧
    (Cookie.Parse { Raw := cookieLine name value attrs }).1.Domain =
      (lastValue (str "domain") attrs).getD [] ∧
    (Cookie.Parse { Raw := cookieLine name value attrs }).1.SameSite =
      lastValue (str "samesite") attrs ∧
    (Cookie.Parse { Raw := cookieLine name value attrs }).1.Secure =
      present (str "secure") attrs ∧
    (Cookie.Parse { Raw := cookieLine name value attrs }).1.HttpOnly =
      (if present (str "httponly") attrs then some true else none) ∧
    (Cookie.Parse { Raw := cookieLine name value attrs }).1.Partitioned =
      (if present (str "partitioned") attrs then some true else none) := by
  have hraw := Cookie.Parse_Raw { Raw := cookieLine name value attrs }
  have hsplit : strings.SplitSeq (cookieLine name value attrs) 59 = (name ++ 61 :: value) :: attrs :=
    strings.Split_cookieLine _ attrs hs (fun p hp => (ha p hp).1)
  have hcut : strings.Cut (name ++ 61 :: value) 61 = (name, value, true) :=
    strings.Cut_append_sep name value 61 hn
  have hsn : segmentName (name ++ 61 :: value) = name := by
    unfold segmentName; rw [ht, hcut]
  have hfirst : ∀ c : Cookie, Cookie.parsePart c (name ++ 61 :: value) =
      ({ c with Key := name, Value := value }, none) := by
    intro c
    rw [Cookie.parsePart_eq, hsn, Cookie.assign_default _ _ _ _ hname, ht, hcut]
  unfold Cookie.Parse at hraw ⊢
  simp only [hsplit] at hraw ⊢
  rw [Cookie.parseLoop, hfirst] at hraw ⊢
  simp only at hraw ⊢
  obtain ⟨i0, i1, i2, i3, i4, i5, i6, i7, i8, i9, i10⟩ := Cookie.parseLoop_attributes attrs
    { Raw := cookieLine name value attrs, Key := name, Value := value } ha
  refine ⟨i0, hraw, i1, i2, ?_, i4, i5, i6, ?_, ?_, i9, i10⟩
  · rw [i3]
    rcases hl : lastValue (str "max-age") attrs with _ | v
    · rfl
    · obtain ⟨p, hp, h1, h2⟩ := lastValue_mem _ _ _ hl
      simp only [Option.map_some', Option.getD_some]
      rw [← h2]
      exact IsAttribute.maxAge p (ha p hp) h1
  · rw [i7]; cases lastValue (str "samesite") attrs <;> rfl
  · rw [i8]; simp

/-! ## C6 -/

/-- Counterexample to C6 as stated: the line `Path=/; Secure` is a cookie pair with the name
`Path` and the value `/`, followed by the attribute `Secure`; Parse returns nil, but Key and
Value stay empty, and the pair is taken for the attribute Path. -/
theorem C6_counterexample :
    cookieLine (str "Path") (str "/") [str " Secure"] = rawCookieNamedPath ∧
    IsAttribute (str " Secure") ∧
    (Cookie.Parse { Raw := rawCookieNamedPath }).2 = none ∧
    (Cookie.Parse { Raw := rawCookieNamedPath }).1.Key ≠ str "Path" ∧
    (Cookie.Parse { Raw := rawCookieNamedPath }).1.Value ≠ str "/" ∧
    (Cookie.Parse { Raw := rawCookieNamedPath }).1.Path = str "/" := by
  decide

/-- C6, amended. For every line `name=value` followed by attribute pieces, each after a
semicolon, where the pair has no semicolon and no white space around it, `name` has no `=`
and is not, letter case apart, one of the eight attribute names, and every attribute piece is
named, in any letter case, Max-Age, Expires, Path, Domain, Secure, HttpOnly, Partitioned or
SameSite and has a well-formed value: Parse on a zero Cookie returns nil, leaves Raw as it
is, sets Key to `name` and Value to `value`, sets MaxAge, Expires, Path, Domain and SameSite
to the value of the last piece of that name (and leaves them zero without one), and sets
Secure, HttpOnly and Partitioned to true exactly for the flags present, whatever follows the
flag name. -/
theorem C6_parse_cookie_line (name value : Str) (attrs : List Str)
    (hn : 61 ∉ name) (hs : 59 ∉ name ++ 61 :: value)
    (ht : strings.TrimSpace (name ++ 61 :: value) = name ++ 61 :: value)
    (hname : strings.ToLower name ∉ attributeNames)
    (ha : ∀ p ∈ attrs, IsAttribute p) :
    (Cookie.Parse { Raw := cookieLine name value attrs }).2 = none ∧
    (Cookie.Parse { Raw := cookieLine name value attrs }).1.Raw = cookieLine name value attrs ∧
    (Cookie.Parse { Raw := cookieLine name value attrs }).1.Key = name ∧
    (Cookie.Parse { Raw := cookieLine name value attrs }).1.Value = value ∧
    (Cookie.Parse { Raw := cookieLine name value attrs }).1.MaxAge =
      ((lastValue (str "max-age") attrs).map decimalValue).getD 0 ∧
    (Cookie.Parse { Raw := cookieLine name value attrs }).1.Expires =
      ((lastValue (str "expires") attrs).map expiresOf).getD time.Time.zero ∧
    (Cookie.Parse { Raw := cookieLine name value attrs }).1.Path =
      (lastValue (str "path") attrs).getD [] ∧
    (Cookie.Parse { Raw := cookieLine name value attrs }).1.Domain =
      (lastValue (str "domain") attrs).getD [] ∧
    (Cookie.Parse { Raw := cookieLine name value attrs }).1.SameSite =
      lastValue (str "samesite") attrs ∧
    (Cookie.Parse { Raw := cookieLine name value attrs }).1.Secure =
      present (str "secure") attrs ∧
    (Cookie.Parse { Raw := cookieLine name value attrs }).1.HttpOnly =
      (if present (str "httponly") attrs then some true else none) ∧
    (Cookie.Parse { Raw := cookieLine name value attrs }).1.Partitioned =
      (if present (str "partitioned") attrs then some true else none) :=
  Cookie.Parse_cookieLine name value attrs hn hs ht hname ha

/-- Witness of C6, amended: the documented line, the cookie `ct0=XXX` with Max-Age, Expires,
Path, Domain and Secure. -/
theorem C6_parse_cookie_line_witness :
    (cookieLine (str "ct0") (str "XXX") attrsDocumented = rawDocumented ∧
      strings.ToLower (str "ct0") ∉ attributeNames ∧ ∀ p ∈ attrsDocumented, IsAttribute p) ∧
    (Cookie.Parse { Raw := cookieLine (str "ct0") (str "XXX") attrsDocumented }).2 = none ∧
    (Cookie.Parse { Raw := cookieLine (str "ct0") (str "XXX") attrsDocumented }).1.Key = str "ct0" ∧
    (Cookie.Parse { Raw := cookieLine (str "ct0") (str "XXX") attrsDocumented }).1.Value = str "XXX" ∧
    (Cookie.Parse { Raw := cookieLine (str "ct0") (str "XXX") attrsDocumented }).1.MaxAge = 21600 ∧
    (Cookie.Parse { Raw := cookieLine (str "ct0") (str "XXX") attrsDocumented }).1.Expires
      = ⟨1747615355, 0⟩ ∧
    (Cookie.Parse { Raw := cookieLine (str "ct0") (str "XXX") attrsDocumented }).1.Path = str "/" ∧
    (Cookie.Parse { Raw := cookieLine (str "ct0") (str "XXX") attrsDocumented }).1.Domain
      = str ".x.com" ∧
    (Cookie.Parse { Raw := cookieLine (str "ct0") (str "XXX") attrsDocumented }).1.Secure = true ∧
    (Cookie.Parse { Raw := cookieLine (str "ct0") (str "XXX") attrsDocumented }).1.HttpOnly = none :=
  have h := C6_parse_cookie_line (str "ct0") (str "XXX") attrsDocumented (by decide) (by decide)
    (by decide) (by decide) (by decide)
  ⟨⟨by decide, by decide, by decide⟩, h.1, h.2.2.1, h.2.2.2.1,
    h.2.2.2.2.1.trans (by decide), h.2.2.2.2.2.1.trans (by decide),
    h.2.2.2.2.2.2.1.trans (by decide), h.2.2.2.2.2.2.2.1.trans (by decide),
    h.2.2.2.2.2.2.2.2.2.1.trans (by decide), h.2.2.2.2.2.2.2.2.2.2.1.trans (by decide)⟩

/-! ## Lemmas: time.Parse on a date line -/

theorem time.cutspace_cons (c : Nat) (r : Str) (h : c ≠ 32) : time.cutspace (c :: r) = c :: r := by
  unfold time.cutspace
  split
  · next heq => simp at heq; omega
  · rfl

theorem time.cutspace_space (c : Nat) (r : Str) (h : c ≠ 32) :
    time.cutspace (32 :: c :: r) = c :: r := by
  rw [time.cutspace, time.cutspace_cons c r h]

theorem time.skip_nil (value : Str) : time.skip value [] = some value := by
  cases value <;> rfl

theorem time.skip_space (c : Nat) (r : Str) (h : c ≠ 32) :
    time.skip (32 :: c :: r) (str " ") = some (c :: r) := by
  have e : str " " = [32] := by decide
  rw [e]
  simp [time.skip, time.skipFrom, time.cutspace_space c r h]

theorem time.skip_comma_space (c : Nat) (r : Str) (h : c ≠ 32) :
    time.skip (44 :: 32 :: c :: r) (str ", ") = some (c :: r) := by
  have e : str ", " = [44, 32] := by decide
  rw [e]
  simp [time.skip, time.skipFrom, time.cutspace_space c r h]

theorem time.skip_colon (r : Str) : time.skip (58 :: r) (str ":") = some r := by
  have e : str ":" = [58] := by decide
  rw [e]
  cases r <;> simp [time.skip, time.skipFrom]

theorem time.getnum_twoDigits (n : Nat) (hn : n < 100) (rest : Str) (fixed : Bool) :
    time.getnum (twoDigits n ++ rest) fixed = some ((n : Int), rest) := by
  have h1 : 48 + n / 10 ≤ 57 := by omega
  have h2 : ¬ (57 < 48 + n % 10) := by omega
  have e : ((n : Int) / 10 * 10 + (n : Int) % 10) = n := by omega
  simp [time.getnum, time.isDigit, time.isDigitByte, twoDigits, h1, h2, e]

theorem twoDigits_head (n : Nat) (rest : Str) :
    ∃ c r, twoDigits n ++ rest = c :: r ∧ c ≠ 32 :=
  ⟨48 + n / 10, (48 + n % 10) :: rest, rfl, by omega⟩

theorem fourDigits_head (n : Nat) (rest : Str) :
    ∃ c r, fourDigits n ++ rest = c :: r ∧ c ≠ 32 :=
  ⟨48 + n / 1000, _, rfl, by omega⟩

/-- Reading the day name. -/
theorem time.parseStd_weekday (i : Nat) (hi : i < 7) (f : time.Fields) (rest : Str) :
    time.parseStd .stdWeekDay f (time.shortDayNames.getD i [] ++ rest) = some (f, rest) := by
  have e : time.shortDayNames = [[83, 117, 110], [77, 111, 110], [84, 117, 101], [87, 101, 100],
      [84, 104, 117], [70, 114, 105], [83, 97, 116]] := by decide
  unfold time.parseStd
  simp only [e]
  interval_cases i <;>
    simp [time.lookup, time.matchFold, time.orLower]

/-- Reading the month name. -/
theorem time.parseStd_month (m : Nat) (h1 : 1 ≤ m) (h2 : m ≤ 12) (f : time.Fields) (rest : Str) :
    time.parseStd .stdMonth f (time.shortMonthNames.getD (m - 1) [] ++ rest) =
      some ({ f with month := (m : Int) }, rest) := by
  have e : time.shortMonthNames = [[74, 97, 110], [70, 101, 98], [77, 97, 114], [65, 112, 114],
      [77, 97, 121], [74, 117, 110], [74, 117, 108], [65, 117, 103], [83, 101, 112],
      [79, 99, 116], [78, 111, 118], [68, 101, 99]] := by decide
  unfold time.parseStd
  simp only [e]
  interval_cases m <;>
    simp [time.lookup, time.matchFold, time.orLower]

theorem time.monthName_head (m : Nat) (h1 : 1 ≤ m) (h2 : m ≤ 12) (rest : Str) :
    ∃ c r, time.shortMonthNames.getD (m - 1) [] ++ rest = c :: r ∧ c ≠ 32 := by
  have e : time.shortMonthNames = [[74, 97, 110], [70, 101, 98], [77, 97, 114], [65, 112, 114],
      [77, 97, 121], [74, 117, 110], [74, 117, 108], [65, 117, 103], [83, 101, 112],
      [79, 99, 116], [78, 111, 118], [68, 101, 99]] := by decide
  simp only [e]
  interval_cases m <;> simp

/-- Reading the year. -/
theorem time.parseStd_year (y : Nat) (hy : y ≤ 9999) (f : time.Fields) (rest : Str) :
    time.parseStd .stdLongYear f (fourDigits y ++ rest) = some ({ f with year := (y : Int) }, rest) := by
  have h0 : 48 + y / 1000 ≤ 57 := by omega
  have e : (((48 + y / 1000 - 48) * 10 + (48 + y / 100 % 10 - 48)) * 10 + (48 + y / 10 % 10 - 48)) * 10
      + (48 + y % 10 - 48) = y := by omega
  have b1 : ¬ (57 < 48 + y / 1000) := by omega
  have b2 : ¬ (57 < 48 + y / 100 % 10) := by omega
  have b3 : ¬ (57 < 48 + y / 10 % 10) := by omega
  have b4 : ¬ (57 < 48 + y % 10) := by omega
  have c1 : ¬ (48 + y / 1000 - 48 > 2 ^ 63 / 10) := by omega
  have c2 : ¬ ((48 + y / 1000 - 48) * 10 + (48 + y / 100 % 10 - 48) > 2 ^ 63 / 10) := by omega
  have c3 : ¬ (((48 + y / 1000 - 48) * 10 + (48 + y / 100 % 10 - 48)) * 10
      + (48 + y / 10 % 10 - 48) > 2 ^ 63 / 10) := by omega
  have d1 : ¬ (48 + y / 1000 - 48 > 2 ^ 63) := by omega
  have d2 : ¬ ((48 + y / 1000 - 48) * 10 + (48 + y / 100 % 10 - 48) > 2 ^ 63) := by omega
  have d3 : ¬ (((48 + y / 1000 - 48) * 10 + (48 + y / 100 % 10 - 48)) * 10
      + (48 + y / 10 % 10 - 48) > 2 ^ 63) := by omega
  have d4 : ¬ ((((48 + y / 1000 - 48) * 10 + (48 + y / 100 % 10 - 48)) * 10
      + (48 + y / 10 % 10 - 48)) * 10 + (48 + y % 10 - 48) > 2 ^ 63) := by omega
  have hl : time.leadingInt [48 + y / 1000, 48 + y / 100 % 10, 48 + y / 10 % 10, 48 + y % 10] 0
      = some (y, []) := by
    simp only [time.leadingInt, Nat.zero_mul, Nat.zero_add]
    simp only [b1, b2, b3, b4, c1, c2, c3, d1, d2, d3, d4, Nat.not_lt_zero, or_false, false_or,
      if_false, Nat.lt_irrefl]
    simp
    omega
  unfold time.parseStd
  simp only [fourDigits, List.cons_append, List.nil_append, List.length_cons, List.take_succ_cons,
    List.take_zero, List.drop_succ_cons, List.drop_zero]
  rw [hl]
  simp [time.isDigit, time.isDigitByte, h0]

theorem time.parseStd_day (d : Nat) (hd : d < 100) (f : time.Fields) (rest : Str) :
    time.parseStd .stdZeroDay f (twoDigits d ++ rest) = some ({ f with day := (d : Int) }, rest) := by
  unfold time.parseStd
  rw [time.getnum_twoDigits d hd rest true]

theorem time.parseStd_hour (h : Nat) (hh : h < 24) (f : time.Fields) (rest : Str) :
    time.parseStd .stdHour f (twoDigits h ++ rest) = some ({ f with hour := (h : Int) }, rest) := by
  unfold time.parseStd
  rw [time.getnum_twoDigits h (by omega) rest false]
  have : ¬ ((h : Int) < 0 ∨ 24 ≤ (h : Int)) := by omega
  simp only [this, if_false]

theorem time.parseStd_minute (m : Nat) (hm : m < 60) (f : time.Fields) (rest : Str) :
    time.parseStd .stdZeroMinute f (twoDigits m ++ rest) = some ({ f with min := (m : Int) }, rest) := by
  unfold time.parseStd
  rw [time.getnum_twoDigits m (by omega) rest true]
  have : ¬ ((m : Int) < 0 ∨ 60 ≤ (m : Int)) := by omega
  simp only [this, if_false]

/-- Reading the seconds when a space follows them. -/
theorem time.parseStd_second (s : Nat) (hs : s < 60) (f : time.Fields) (rest : Str) :
    time.parseStd .stdZeroSecond f (twoDigits s ++ (32 :: rest)) =
      some ({ f with sec := (s : Int) }, 32 :: rest) := by
  unfold time.parseStd
  rw [time.getnum_twoDigits s (by omega) (32 :: rest) true]
  have : ¬ ((s : Int) < 0 ∨ 60 ≤ (s : Int)) := by omega
  simp only [this, if_false]
  simp

/-- Reading the zone `GMT` at the end of the value. -/
theorem time.parseStd_GMT (f : time.Fields) :
    time.parseStd .stdTZ f (str "GMT") = some ({ f with zoneName := str "GMT" }, []) := by
  rfl

/-- Reading the zone `+0000` at the end of the value by the layout element `MST`: a signed
number of at most 23 passes for a zone abbreviation. -/
theorem time.parseStd_plus0000 (f : time.Fields) :
    time.parseStd .stdTZ f (str "+0000") = some ({ f with zoneName := str "+0000" }, []) := by
  rfl

/-- Reading the zone `+0000` at the end of the value by the layout element `-0700`. -/
theorem time.parseStd_num0000 (f : time.Fields) :
    time.parseStd .stdNumTZ f (str "+0000") = some ({ f with zoneOffset := 0 }, []) := by
  rfl

/-- The loop of Parse on a date line, up to the zone. -/
theorem time.parseChunks_format (w : WallClock) (hw : w.Valid) (zone : Str) (c : Nat) (r : Str)
    (hz : zone = c :: r) (hc : c ≠ 32) (std : time.Std) :
    time.parseChunks
      [([], .stdWeekDay), (str ", ", .stdZeroDay), (str " ", .stdMonth), (str " ", .stdLongYear),
       (str " ", .stdHour), (str ":", .stdZeroMinute), (str ":", .stdZeroSecond), (str " ", std)]
      {} (w.format zone) =
    match time.parseStd std
        { year := w.year, month := w.month, day := w.day, hour := w.hour, min := w.minute,
          sec := w.second } zone with
    | none => none
    | some (f, rest) => if rest = [] then some f else none := by
  obtain ⟨h1, h2, h3, h4, h5, h6, h7, h8, h9⟩ := hw
  have hd : w.day < 100 := by
    have : time.daysIn w.month w.year ≤ 31 := by
      unfold time.daysIn; split_ifs <;> omega
    omega
  unfold WallClock.format
  obtain ⟨c1, r1, e1, n1⟩ := twoDigits_head w.day (32 ::
    (time.shortMonthNames.getD (w.month - 1) [] ++ (32 ::
    (fourDigits w.year ++ (32 ::
    (twoDigits w.hour ++ (58 ::
    (twoDigits w.minute ++ (58 ::
    (twoDigits w.second ++ (32 :: zone)))))))))))
  obtain ⟨c2, r2, e2, n2⟩ := time.monthName_head w.month h2 h3 (32 ::
    (fourDigits w.year ++ (32 ::
    (twoDigits w.hour ++ (58 ::
    (twoDigits w.minute ++ (58 ::
    (twoDigits w.second ++ (32 :: zone)))))))))
  obtain ⟨c3, r3, e3, n3⟩ := fourDigits_head w.year (32 ::
    (twoDigits w.hour ++ (58 ::
    (twoDigits w.minute ++ (58 ::
    (twoDigits w.second ++ (32 :: zone)))))))
  obtain ⟨c4, r4, e4, n4⟩ := twoDigits_head w.hour (58 ::
    (twoDigits w.minute ++ (58 ::
    (twoDigits w.second ++ (32 :: zone)))))
  rw [time.parseChunks, time.skip_nil]
  simp only
  rw [time.parseStd_weekday _ h1]
  simp only
  rw [time.parseChunks, e1, time.skip_comma_space c1 r1 n1, ← e1]
  simp only
  rw [time.parseStd_day _ hd]
  simp only
  rw [time.parseChunks, e2, time.skip_space c2 r2 n2, ← e2]
  simp only
  rw [time.parseStd_month _ h2 h3]
  simp only
  rw [time.parseChunks, e3, time.skip_space c3 r3 n3, ← e3]
  simp only
  rw [time.parseStd_year _ h4]
  simp only
  rw [time.parseChunks, e4, time.skip_space c4 r4 n4, ← e4]
  simp only
  rw [time.parseStd_hour _ h7]
  simp only
  rw [time.parseChunks, time.skip_colon]
  simp only
  rw [time.parseStd_minute _ h8]
  simp only
  rw [time.parseChunks, time.skip_colon]
  simp only
  rw [time.parseStd_second _ h9]
  simp only
  rw [time.parseChunks, hz, time.skip_space c r hc, ← hz]
  simp only
  rcases time.parseStd std _ zone with _ | ⟨f, rest⟩
  · rfl
  · simp [time.parseChunks]

/-- A date line with the zone `GMT` is read by the RFC 1123 layout as the instant of its
fields in UTC. -/
theorem time.Parse_format_GMT (w : WallClock) (hw : w.Valid) :
    time.Parse time.RFC1123 (w.format (str "GMT")) = some w.instant := by
  unfold time.Parse time.RFC1123
  rw [time.parseChunks_format w hw (str "GMT") 71 [77, 84] (by decide) (by decide) .stdTZ,
    time.parseStd_GMT]
  obtain ⟨h1, h2, h3, h4, h5, h6, h7, h8, h9⟩ := hw
  have a1 : ¬ ((w.month : Int) < 0) := by omega
  have a2 : ¬ ((w.day : Int) < 0) := by omega
  have a3 : ¬ ((w.day : Int) < 1 ∨ (w.day : Int) > time.daysIn w.month w.year) := by omega
  simp [time.finish, a1, a2, a3, WallClock.instant]
  exact ⟨by omega, h6⟩

/-- A date line with the zone `+0000` is read by the RFC 1123 layout too, the signed number
passing for a zone abbreviation, as the instant of its fields in UTC. -/
theorem time.Parse_format_plus0000 (w : WallClock) (hw : w.Valid) :
    time.Parse time.RFC1123 (w.format (str "+0000")) = some w.instant := by
  unfold time.Parse time.RFC1123
  rw [time.parseChunks_format w hw (str "+0000") 43 [48, 48, 48, 48] (by decide) (by decide) .stdTZ,
    time.parseStd_plus0000]
  obtain ⟨h1, h2, h3, h4, h5, h6, h7, h8, h9⟩ := hw
  have a1 : ¬ ((w.month : Int) < 0) := by omega
  have a2 : ¬ ((w.day : Int) < 0) := by omega
  have a3 : ¬ ((w.day : Int) < 1 ∨ (w.day : Int) > time.daysIn w.month w.year) := by omega
  simp [time.finish, a1, a2, a3, WallClock.instant]
  exact ⟨by omega, h6⟩

/-- A date line with the zone `+0000` is read by the RFC 1123Z layout as the instant of its
fields in UTC. -/
theorem time.Parse_format_numeric (w : WallClock) (hw : w.Valid) :
    time.Parse time.RFC1123Z (w.format (str "+0000")) = some w.instant := by
  unfold time.Parse time.RFC1123Z
  rw [time.parseChunks_format w hw (str "+0000") 43 [48, 48, 48, 48] (by decide) (by decide)
    .stdNumTZ, time.parseStd_num0000]
  obtain ⟨h1, h2, h3, h4, h5, h6, h7, h8, h9⟩ := hw
  have a1 : ¬ ((w.month : Int) < 0) := by omega
  have a2 : ¬ ((w.day : Int) < 0) := by omega
  have a3 : ¬ ((w.day : Int) < 1 ∨ (w.day : Int) > time.daysIn w.month w.year) := by omega
  simp [time.finish, a1, a2, a3, WallClock.instant]
  exact ⟨by omega, h6⟩

/-- What the loop of Parse makes of Expires when it accepts every piece: no error, and the
instant of the last piece named `expires`, the earlier value without one. -/
theorem Cookie.parseLoop_Expires (pieces : List Str) (c : Cookie)
    (hok : ∀ p ∈ pieces, badExpires p = false ∧ badMaxAge p = false) :
    (Cookie.parseLoop pieces c).2 = none ∧
    (Cookie.parseLoop pieces c).1.Expires =
      ((lastValue (str "expires") pieces).map expiresOf).getD c.Expires := by
  induction pieces generalizing c with
  | nil => simp [Cookie.parseLoop, lastValue]
  | cons p ps ih =>
    obtain ⟨hbe, hbm⟩ := hok p (by simp)
    have herr : (Cookie.parsePart c p).2 = none := by
      by_contra hne
      rcases (Cookie.parsePart_err_iff c p).mp hne with h | h
      · rw [hbe] at h; exact Bool.false_ne_true h
      · rw [hbm] at h; exact Bool.false_ne_true h
    have h2 := Cookie.assign_Expires c (strings.TrimSpace p) (segmentName p) (segmentValue p)
    rw [← Cookie.parsePart_eq] at h2
    rw [Cookie.parseLoop]
    rcases hp : Cookie.parsePart c p with ⟨c1, e⟩
    rw [hp] at herr h2
    simp only at herr h2
    subst herr
    obtain ⟨i0, i4⟩ := ih c1 (fun q hq => hok q (by simp [hq]))
    simp only
    refine ⟨i0, ?_⟩
    rw [i4, h2]; simp only [lastValue]
    rcases lastValue (str "expires") ps with _ | w
    · simp only [Option.map_none', Option.getD_none]
      split_ifs <;> simp
    · simp

/-- A piece named `expires` whose value is a date line of valid fields in one of the two
forms is a piece that Parse accepts, and its value denotes the instant of the fields. -/
theorem expires_piece_accepted (w : WallClock) (hw : w.Valid) (zone p : Str)
    (hzone : zone = str "GMT" ∨ zone = str "+0000")
    (h2 : strings.ToLower (segmentName p) = str "expires")
    (h3 : segmentValue p = w.format zone) :
    badExpires p = false ∧ badMaxAge p = false := by
  have hp : time.Parse time.RFC1123 (segmentValue p) = some w.instant := by
    rw [h3]
    rcases hzone with hz | hz
    · rw [hz]; exact time.Parse_format_GMT w hw
    · rw [hz]; exact time.Parse_format_plus0000 w hw
  have ne : str "expires" ≠ str "max-age" := by decide
  exact ⟨by simp [badExpires, hp], by simp [badMaxAge, h2, ne]⟩

/-- Parse on a line whose last piece named `expires` holds a date line of valid fields in one
of the two forms, every other piece being one that Parse accepts: no error, and Expires is
the instant of the fields. -/
theorem Cookie.Parse_expires (w : WallClock) (hw : w.Valid) (zone : Str) (c : Cookie)
    (hzone : zone = str "GMT" ∨ zone = str "+0000")
    (hlast : lastValue (str "expires") (strings.SplitSeq c.Raw 59) = some (w.format zone))
    (hrest : ∀ p ∈ strings.SplitSeq c.Raw 59,
      (strings.ToLower (segmentName p) = str "expires" ∧ segmentValue p = w.format zone) ∨
      (badExpires p = false ∧ badMaxAge p = false)) :
    (Cookie.Parse c).2 = none ∧ (Cookie.Parse c).1.Expires = w.instant := by
  have hok : ∀ p ∈ strings.SplitSeq c.Raw 59, badExpires p = false ∧ badMaxAge p = false := by
    intro p hp
    rcases hrest p hp with ⟨h2, h3⟩ | h
    · exact expires_piece_accepted w hw zone p hzone h2 h3
    · exact h
  obtain ⟨e0, e1⟩ := Cookie.parseLoop_Expires (strings.SplitSeq c.Raw 59) c hok
  unfold Cookie.Parse
  refine ⟨e0, ?_⟩
  rw [e1, hlast]
  simp only [Option.map_some', Option.getD_some]
  have hp : time.Parse time.RFC1123 (w.format zone) = some w.instant := by
    rcases hzone with hz | hz
    · rw [hz]; exact time.Parse_format_GMT w hw
    · rw [hz]; exact time.Parse_format_plus0000 w hw
  simp [expiresOf, hp]

/-! ## C8 -/

/-- C8. For every date-time (a day name, a day of the month, a month, a year of four digits
and a time of day) and every two cookies: when the Expires attribute of the first line, its
last piece named `expires` in any letter case, wherever in the line it stands, holds the date
written in the RFC 1123 form (zone `GMT`), and the Expires attribute of the second line holds
the date of the same fields written in the RFC 1123Z form (offset `+0000`), every other piece
of the two lines being one that Parse accepts, then Parse returns nil for both and puts the
same instant in Cookie.Expires of both: that of the fields read in UTC. -/
theorem C8_expires_same_instant (w : WallClock) (hw : w.Valid) (cG cZ : Cookie)
    (hG : lastValue (str "expires") (strings.SplitSeq cG.Raw 59) = some (w.format (str "GMT")))
    (hGrest : ∀ p ∈ strings.SplitSeq cG.Raw 59,
      (strings.ToLower (segmentName p) = str "expires" ∧
        segmentValue p = w.format (str "GMT")) ∨
      (badExpires p = false ∧ badMaxAge p = false))
    (hZ : lastValue (str "expires") (strings.SplitSeq cZ.Raw 59) = some (w.format (str "+0000")))
    (hZrest : ∀ p ∈ strings.SplitSeq cZ.Raw 59,
      (strings.ToLower (segmentName p) = str "expires" ∧
        segmentValue p = w.format (str "+0000")) ∨
      (badExpires p = false ∧ badMaxAge p = false)) :
    (Cookie.Parse cG).2 = none ∧ (Cookie.Parse cZ).2 = none ∧
    (Cookie.Parse cG).1.Expires = w.instant ∧ (Cookie.Parse cZ).1.Expires = w.instant ∧
    (Cookie.Parse cG).1.Expires = (Cookie.Parse cZ).1.Expires := by
  obtain ⟨g0, g1⟩ := Cookie.Parse_expires w hw (str "GMT") cG (Or.inl rfl) hG hGrest
  obtain ⟨z0, z1⟩ := Cookie.Parse_expires w hw (str "+0000") cZ (Or.inr rfl) hZ hZrest
  exact ⟨g0, z0, g1, z1, g1.trans z1.symm⟩

set_option maxRecDepth 1000000 in
/-- Witness of C8: the documented line, `ct0=XXX` with Max-Age, Expires, Path, Domain and
Secure, where Path, Domain and Secure follow the date Monday 19 May 2025 00:42:35, and the
same line with the date in the form `+0000`. -/
theorem C8_expires_same_instant_witness :
    (wallClockDocumented.Valid ∧
      lastValue (str "expires") (strings.SplitSeq rawDocumented 59) =
        some (wallClockDocumented.format (str "GMT")) ∧
      lastValue (str "expires") (strings.SplitSeq rawDocumentedNumeric 59) =
        some (wallClockDocumented.format (str "+0000"))) ∧
    (Cookie.Parse { Raw := rawDocumented }).2 = none ∧
    (Cookie.Parse { Raw := rawDocumentedNumeric }).2 = none ∧
    (Cookie.Parse { Raw := rawDocumented }).1.Expires = ⟨1747615355, 0⟩ ∧
    (Cookie.Parse { Raw := rawDocumentedNumeric }).1.Expires = ⟨1747615355, 0⟩ :=
  have h := C8_expires_same_instant wallClockDocumented (by decide) { Raw := rawDocumented }
    { Raw := rawDocumentedNumeric } (by decide) (by decide) (by decide) (by decide)
  ⟨⟨by decide, by decide, by decide⟩, h.1, h.2.1, h.2.2.1.trans (by decide),
    h.2.2.2.1.trans (by decide)⟩

/-! ## C1 -/

set_option maxRecDepth 1000000 in
/-- C1, the code at the failing input. On the happy path Login returns nil, every onboarding
request carried the scraped token `Bearer AAAA` as Authorization, and yet BearerToken of the
client is still empty afterwards and the third field of the stored blob is empty: the blob is
the base64 encoding of `ct0=C; Path=/`, 0x1F, `auth_token=A; Path=/`, 0x1F and nothing. -/
theorem C1_login_leaves_bearer_empty :
    (alice.Login happyWorld {}).ret = .ok () ∧
    ((alice.Login happyWorld {}).net.sent.filter (fun r => r.Method = str "POST")).map
      (fun r => r.Header.lookup (str "Authorization")) =
      [some (str "Bearer AAAA"), some (str "Bearer AAAA"), some (str "Bearer AAAA"),
       some (str "Bearer AAAA")] ∧
    (alice.Login happyWorld {}).h.Cookies.BearerToken = [] ∧
    ((keyring.Get (alice.Login happyWorld {}).kr (str "helicon") (str "alice")).bind
        base64.DecodeString).map (fun blob => strings.Split blob 31) =
      some [str "ct0=C; Path=/", str "auth_token=A; Path=/", []] := by
  decide

/-! ## C9 -/

set_option maxRecDepth 1000000 in
/-- Counterexample to C9 as stated: the first two password responses carry no `ct0`, and
Login does not return an error after the second one but runs the flow a third time, and
returns nil when the third password response carries `ct0`. -/
theorem C9_counterexample :
    (alice.Login twoRestartsWorld {}).ret = .ok () ∧
    flowRuns (alice.Login twoRestartsWorld {}).net = 3 := by
  decide

/-! ## C10 -/

set_option maxRecDepth 1000000 in
/-- Counterexample to C10 as stated: on the logged-out-after-login path with one restart
Login returns nil and the write to the secret store has been executed twice. -/
theorem C10_counterexample :
    (alice.Login oneRestartWorld {}).ret = .ok () ∧
    (alice.Login oneRestartWorld {}).kr.writes.length = 2 := by
  decide

/-! ## Lemmas: what the steps of the flow do to the world -/

theorem Net.Moved.refl (net : Net) : Net.Moved net net 0 := ⟨le_refl _, rfl⟩

theorem Net.Moved.trans {a b c : Net} {m n : Nat} (h1 : Net.Moved a b m) (h2 : Net.Moved b c n) :
    Net.Moved a c (m + n) :=
  ⟨le_trans h2.1 h1.1, by rw [h2.2, h1.2]; omega⟩

theorem Net.Do_moved {net net1 : Net} {req : Request} {r : Option Response}
    (h : net.Do req = (net1, r)) :
    Net.Moved net net1 (if isStartRequest req then 1 else 0) ∧
      (r.isSome → net1.responses.length < net.responses.length) := by
  unfold Net.Do at h
  unfold Net.Moved flowRuns
  rcases hr : net.responses with _ | ⟨x, rest⟩
  · rw [hr] at h
    simp only [Prod.mk.injEq] at h
    obtain ⟨h1, h2⟩ := h
    subst h1 h2
    simp [hr, List.filter_append]
    split_ifs <;> simp [List.filter, *]
  · rw [hr] at h
    simp only [Prod.mk.injEq] at h
    obtain ⟨h1, h2⟩ := h
    subst h1 h2
    simp [List.filter_append]
    split_ifs <;> simp [List.filter, *]

theorem Net.Run_moved {net net1 : Net} {r : Option JSValue} (h : net.Run = (net1, r)) :
    Net.Moved net net1 0 := by
  unfold Net.Run at h
  unfold Net.Moved flowRuns
  rcases hr : net.evals with _ | ⟨x, rest⟩
  · rw [hr] at h
    simp only [Prod.mk.injEq] at h
    obtain ⟨h1, h2⟩ := h
    subst h1
    simp
  · rw [hr] at h
    simp only [Prod.mk.injEq] at h
    obtain ⟨h1, h2⟩ := h
    subst h1
    simp

theorem isStartRequest_get (url : Str) (hd : List (Str × Str)) (b : Payload) :
    isStartRequest { Method := str "GET", URL := url, Header := hd, Body := b } = false := by
  have : str "GET" ≠ str "POST" := by decide
  simp [isStartRequest, this]

theorem isStartRequest_task (hd : List (Str × Str)) (b : Payload) :
    isStartRequest { Method := str "POST", URL := taskURL, Header := hd, Body := b } = false := by
  have : taskURL ≠ taskURL ++ str "?flow_name=login" := by decide
  simp [isStartRequest, this]

theorem isStartRequest_start (hd : List (Str × Str)) (b : Payload) :
    isStartRequest
      { Method := str "POST", URL := taskURL ++ str "?flow_name=login", Header := hd, Body := b }
      = true := by
  simp [isStartRequest]

theorem Helicon.FindTwitterMainJavascriptUrl_moved (h : Helicon) (net : Net) :
    Net.Moved net (h.FindTwitterMainJavascriptUrl net).1 0 := by
  unfold Helicon.FindTwitterMainJavascriptUrl
  dsimp only []
  split
  · next net1 hd =>
    have := (Net.Do_moved hd).1
    rw [isStartRequest_get] at this
    simpa using this
  · next net1 resp hd =>
    have := (Net.Do_moved hd).1
    rw [isStartRequest_get] at this
    split_ifs <;> (try split) <;> simpa using this

theorem Helicon.GenerateGuestToken_moved (h : Helicon) (net : Net) :
    Net.Moved net (h.GenerateGuestToken net).1 0 := by
  unfold Helicon.GenerateGuestToken
  dsimp only []
  split
  · next net1 hd =>
    have := (Net.Do_moved hd).1
    rw [isStartRequest_get] at this
    simpa using this
  · next net1 resp hd =>
    have := (Net.Do_moved hd).1
    rw [isStartRequest_get] at this
    split_ifs <;> (try split) <;> simpa using this

theorem Helicon.FindAnonymousBearerToken_moved (h : Helicon) (net : Net) :
    Net.Moved net (h.FindAnonymousBearerToken net).1 0 := by
  have m := Helicon.FindTwitterMainJavascriptUrl_moved h net
  unfold Helicon.FindAnonymousBearerToken
  split
  · next net1 e he => rw [he] at m; exact m
  · next net1 p he => rw [he] at m; exact m
  · next net1 he => rw [he] at m; exact m
  · next net1 url he =>
    rw [he] at m
    split_ifs
    · exact m
    · dsimp only []
      split
      · next net2 hd =>
        have := (Net.Do_moved hd).1
        rw [isStartRequest_get] at this
        exact m.trans this
      · next net2 resp hd =>
        have := (Net.Do_moved hd).1
        rw [isStartRequest_get] at this
        split_ifs <;> (try split) <;> exact m.trans this

/-- StartLoginFlow starts at most one run of the flow; when it returns a flow it has started
exactly one and has consumed a response. -/
theorem Helicon.StartLoginFlow_moved (h : Helicon) (net : Net) :
    ∃ n, n ≤ 1 ∧ Net.Moved net (h.StartLoginFlow net).1 n ∧
      ∀ flow, (h.StartLoginFlow net).2 = .ok flow →
        n = 1 ∧ (h.StartLoginFlow net).1.responses.length < net.responses.length := by
  have m := Helicon.FindAnonymousBearerToken_moved h net
  unfold Helicon.StartLoginFlow
  split
  · next net1 e he => rw [he] at m; exact ⟨0, by omega, m, by simp⟩
  · next net1 p he => rw [he] at m; exact ⟨0, by omega, m, by simp⟩
  · next net1 he => rw [he] at m; exact ⟨0, by omega, m, by simp⟩
  · next net1 tok he =>
    rw [he] at m
    have m2 := Helicon.GenerateGuestToken_moved h net1
    split
    · next net2 e hg => rw [hg] at m2; exact ⟨0, by omega, m.trans m2, by simp⟩
    · next net2 p hg => rw [hg] at m2; exact ⟨0, by omega, m.trans m2, by simp⟩
    · next net2 hg => rw [hg] at m2; exact ⟨0, by omega, m.trans m2, by simp⟩
    · next net2 guest hg =>
      rw [hg] at m2
      dsimp only []
      split
      · next net3 hd =>
        have := (Net.Do_moved hd).1
        rw [isStartRequest_start] at this
        exact ⟨1, le_refl _, by simpa using (m.trans m2).trans this, by simp⟩
      · next net3 resp hd =>
        have hm := Net.Do_moved hd
        rw [isStartRequest_start] at hm
        have hlt : net3.responses.length < net.responses.length :=
          lt_of_lt_of_le (hm.2 rfl) (m.trans m2).1
        have hmv : Net.Moved net net3 1 := by simpa using (m.trans m2).trans hm.1
        refine ⟨1, le_refl _, ?_, ?_⟩
        · split_ifs <;> (try split) <;> exact hmv
        · intro flow hf
          refine ⟨rfl, ?_⟩
          split_ifs <;> (try split) <;> exact hlt

theorem LoginFlow.solveJSInstrumentationChallenge_moved (f : LoginFlow) (ua : Str) (net : Net) :
    Net.Moved net (f.solveJSInstrumentationChallenge ua net).1 0 := by
  unfold LoginFlow.solveJSInstrumentationChallenge
  split
  · exact Net.Moved.refl net
  · dsimp only []
    split
    · next net1 hd =>
      have := (Net.Do_moved hd).1
      rw [isStartRequest_get] at this
      simpa using this
    · next net1 resp hd =>
      have := (Net.Do_moved hd).1
      rw [isStartRequest_get] at this
      have m1 : Net.Moved net net1 0 := by simpa using this
      split_ifs
      · exact m1
      · exact m1
      · split
        · next net2 hr => exact m1.trans (Net.Run_moved hr)
        · next net2 s j hr =>
          have := m1.trans (Net.Run_moved hr)
          split_ifs <;> exact this
        · next net2 d hr => exact m1.trans (Net.Run_moved hr)
        · next net2 v hr => exact m1.trans (Net.Run_moved hr)

theorem LoginFlow.SolveAndSubmitJSChallenge_moved (f : LoginFlow) (h : Helicon) (net : Net) :
    Net.Moved net (f.SolveAndSubmitJSChallenge h net).1 0 := by
  have m := LoginFlow.solveJSInstrumentationChallenge_moved f h.UserAgent net
  unfold LoginFlow.SolveAndSubmitJSChallenge
  split
  · next net1 e he => rw [he] at m; exact m
  · next net1 p he => rw [he] at m; exact m
  · next net1 he => rw [he] at m; exact m
  · next net1 sol j he =>
    rw [he] at m
    split_ifs
    · exact m
    · dsimp only []
      split
      · next net2 hd =>
        have := (Net.Do_moved hd).1
        rw [isStartRequest_task] at this
        exact m.trans this
      · next net2 resp hd =>
        have := (Net.Do_moved hd).1
        rw [isStartRequest_task] at this
        split_ifs <;> (try split) <;> exact m.trans this

theorem LoginFlow.submitCredentials_moved (f : LoginFlow) (h : Helicon) (net : Net) :
    Net.Moved net (f.submitCredentials h net).1 0 := by
  unfold LoginFlow.submitCredentials
  dsimp only []
  split
  · next net1 hd =>
    have := (Net.Do_moved hd).1
    rw [isStartRequest_task] at this
    simpa using this
  · next net1 resp hd =>
    have := (Net.Do_moved hd).1
    rw [isStartRequest_task] at this
    have m1 : Net.Moved net net1 0 := by simpa using this
    split_ifs
    · exact m1
    · exact m1
    · split
      · exact m1
      · split
        · next net2 hd2 =>
          have := (Net.Do_moved hd2).1
          rw [isStartRequest_task] at this
          exact m1.trans this
        · next net2 resp2 hd2 =>
          have := (Net.Do_moved hd2).1
          rw [isStartRequest_task] at this
          split_ifs <;> exact m1.trans this

/-! ## Lemmas: Login -/

/-- One call of Login, step by step: the three steps of the flow, then either the tokens are
saved, or, when the CSRF cookie is still empty, Login is called again and the outer call goes
on from its result. -/
theorem Helicon.LoginFuel_succ (fuel : Nat) (h : Helicon) (net : Net) (kr : Keyring) :
    Helicon.LoginFuel (fuel + 1) h net kr =
      match h.StartLoginFlow net with
      | (net1, .error err) => ⟨h, net1, kr, .error (.wrap (str "failed to start login flow: ") err)⟩
      | (net1, .panic p) => ⟨h, net1, kr, .panic p⟩
      | (net1, .outOfFuel) => ⟨h, net1, kr, .outOfFuel⟩
      | (net1, .ok flow) =>
        match flow.SolveAndSubmitJSChallenge h net1 with
        | (net2, .error err) =>
          ⟨h, net2, kr, .error (.wrap (str "failed to submit JS challenge: ") err)⟩
        | (net2, .panic p) => ⟨h, net2, kr, .panic p⟩
        | (net2, .outOfFuel) => ⟨h, net2, kr, .outOfFuel⟩
        | (net2, .ok flow1) =>
          match flow1.submitCredentials h net2 with
          | (net3, .error err) =>
            ⟨h, net3, kr, .error (.wrap (str "failed to submit username: ") err)⟩
          | (net3, .panic p) => ⟨h, net3, kr, .panic p⟩
          | (net3, .outOfFuel) => ⟨h, net3, kr, .outOfFuel⟩
          | (net3, .ok h1) =>
            if h1.Cookies.CSRFToken.Raw = [] then
              afterNestedLogin (Helicon.LoginFuel fuel h1 net3 kr)
            else afterNestedLogin ⟨h1, net3, kr, .ok ()⟩ := by
  rw [Helicon.LoginFuel]
  rcases h.StartLoginFlow net with ⟨net1, flow | e | p | _⟩ <;> try rfl
  simp only
  rcases flow.SolveAndSubmitJSChallenge h net1 with ⟨net2, flow1 | e | p | _⟩ <;> try rfl
  simp only
  unfold LoginFlow.SubmitUsernameAndPassword
  rcases flow1.submitCredentials h net2 with ⟨net3, h1 | e | p | _⟩ <;> try rfl
  simp only
  by_cases he : h1.Cookies.CSRFToken.Raw = []
  · simp only [he, if_true]
    rcases Helicon.LoginFuel fuel h1 net3 kr with ⟨h2, net4, kr2, u | e | p | _⟩ <;> rfl
  · simp only [he, if_false]
    rfl

theorem Helicon.FindTwitterMainJavascriptUrl_returns (h : Helicon) (net : Net) :
    (h.FindTwitterMainJavascriptUrl net).2 ≠ .outOfFuel := by
  unfold Helicon.FindTwitterMainJavascriptUrl
  dsimp only []
  split
  · simp
  · split_ifs <;> (try split) <;> simp

theorem Helicon.GenerateGuestToken_returns (h : Helicon) (net : Net) :
    (h.GenerateGuestToken net).2 ≠ .outOfFuel := by
  unfold Helicon.GenerateGuestToken
  dsimp only []
  split
  · simp
  · split_ifs <;> (try split) <;> simp

theorem Helicon.FindAnonymousBearerToken_returns (h : Helicon) (net : Net) :
    (h.FindAnonymousBearerToken net).2 ≠ .outOfFuel := by
  have m := Helicon.FindTwitterMainJavascriptUrl_returns h net
  unfold Helicon.FindAnonymousBearerToken
  split
  · simp
  · simp
  · next net1 he => rw [he] at m; exact absurd rfl m
  · split_ifs
    · simp
    · dsimp only []
      split
      · simp
      · split_ifs <;> (try split) <;> simp

theorem Helicon.StartLoginFlow_returns (h : Helicon) (net : Net) :
    (h.StartLoginFlow net).2 ≠ .outOfFuel := by
  have m := Helicon.FindAnonymousBearerToken_returns h net
  unfold Helicon.StartLoginFlow
  split
  · simp
  · simp
  · next net1 he => rw [he] at m; exact absurd rfl m
  · next net1 tok he =>
    have m2 := Helicon.GenerateGuestToken_returns h net1
    split
    · simp
    · simp
    · next net2 hg => rw [hg] at m2; exact absurd rfl m2
    · dsimp only []
      split
      · simp
      · split_ifs <;> (try split) <;> simp

theorem LoginFlow.solveJSInstrumentationChallenge_returns (f : LoginFlow) (ua : Str) (net : Net) :
    (f.solveJSInstrumentationChallenge ua net).2 ≠ .outOfFuel := by
  unfold LoginFlow.solveJSInstrumentationChallenge
  split
  · simp
  · dsimp only []
    split
    · simp
    · split_ifs
      · simp
      · simp
      · split
        · simp
        · split_ifs <;> simp
        · simp
        · simp

theorem LoginFlow.SolveAndSubmitJSChallenge_returns (f : LoginFlow) (h : Helicon) (net : Net) :
    (f.SolveAndSubmitJSChallenge h net).2 ≠ .outOfFuel := by
  have m := LoginFlow.solveJSInstrumentationChallenge_returns f h.UserAgent net
  unfold LoginFlow.SolveAndSubmitJSChallenge
  split
  · simp
  · simp
  · next net1 he => rw [he] at m; exact absurd rfl m
  · split_ifs
    · simp
    · dsimp only []
      split
      · simp
      · split_ifs <;> (try split) <;> simp

theorem LoginFlow.submitCredentials_returns (f : LoginFlow) (h : Helicon) (net : Net) :
    (f.submitCredentials h net).2 ≠ .outOfFuel := by
  unfold LoginFlow.submitCredentials
  dsimp only []
  split
  · simp
  · split_ifs
    · simp
    · simp
    · split
      · simp
      · split
        · simp
        · split_ifs <;> simp

theorem afterNestedLogin_ret (r : Run) (hr : r.ret ≠ .outOfFuel) :
    (afterNestedLogin r).ret ≠ .outOfFuel := by
  rcases r with ⟨h, net, kr, u | e | p | _⟩
  · unfold afterNestedLogin
    simp only
    split <;> simp
  · simp [afterNestedLogin]
  · simp [afterNestedLogin]
  · exact absurd rfl hr

/-- With more fuel than the world has responses, Login returns: it does not run out of fuel. -/
theorem Helicon.LoginFuel_returns (fuel : Nat) (h : Helicon) (net : Net) (kr : Keyring)
    (hf : net.responses.length < fuel) :
    (Helicon.LoginFuel fuel h net kr).ret ≠ .outOfFuel := by
  induction fuel generalizing h net kr with
  | zero => omega
  | succ n ih =>
    rw [Helicon.LoginFuel_succ]
    obtain ⟨k, -, ms, hs⟩ := Helicon.StartLoginFlow_moved h net
    have rs := Helicon.StartLoginFlow_returns h net
    rcases hS : h.StartLoginFlow net with ⟨net1, flow | e | p | _⟩
    · rw [hS] at ms hs rs
      have hlt := (hs flow rfl).2
      simp only at hlt ⊢
      have mc := LoginFlow.SolveAndSubmitJSChallenge_moved flow h net1
      have rc := LoginFlow.SolveAndSubmitJSChallenge_returns flow h net1
      rcases hC : flow.SolveAndSubmitJSChallenge h net1 with ⟨net2, flow1 | e | p | _⟩
      · rw [hC] at mc rc
        simp only at mc ⊢
        have mp := LoginFlow.submitCredentials_moved flow1 h net2
        have rp := LoginFlow.submitCredentials_returns flow1 h net2
        rcases hP : flow1.submitCredentials h net2 with ⟨net3, h1 | e | p | _⟩
        · rw [hP] at mp rp
          simp only at mp ⊢
          split_ifs
          · apply afterNestedLogin_ret
            apply ih
            have := mp.1
            have := mc.1
            omega
          · apply afterNestedLogin_ret
            simp
        · simp
        · simp
        · rw [hP] at rp; exact absurd rfl rp
      · simp
      · simp
      · rw [hC] at rc; exact absurd rfl rc
    · simp
    · simp
    · rw [hS] at rs; exact absurd rfl rs

/-- Login returns, for every client, world and store. -/
theorem Helicon.Login_returns (h : Helicon) (net : Net) (kr : Keyring) :
    (h.Login net kr).ret ≠ .outOfFuel :=
  Helicon.LoginFuel_returns _ h net kr (Nat.lt_succ_self _)

/-- The result of Login does not depend on the fuel, once there is more of it than the world
has responses. -/
theorem Helicon.LoginFuel_stable (fuel1 fuel2 : Nat) (h : Helicon) (net : Net) (kr : Keyring)
    (h1 : net.responses.length < fuel1) (h2 : net.responses.length < fuel2) :
    Helicon.LoginFuel fuel1 h net kr = Helicon.LoginFuel fuel2 h net kr := by
  induction fuel1 generalizing fuel2 h net kr with
  | zero => omega
  | succ n ih =>
    rcases fuel2 with _ | m
    · omega
    · rw [Helicon.LoginFuel_succ, Helicon.LoginFuel_succ]
      obtain ⟨k, -, ms, hs⟩ := Helicon.StartLoginFlow_moved h net
      rcases hS : h.StartLoginFlow net with ⟨net1, flow | e | p | _⟩ <;> try rfl
      rw [hS] at ms hs
      have hlt := (hs flow rfl).2
      simp only at hlt ⊢
      have mc := LoginFlow.SolveAndSubmitJSChallenge_moved flow h net1
      rcases hC : flow.SolveAndSubmitJSChallenge h net1 with ⟨net2, flow1 | e | p | _⟩ <;> try rfl
      rw [hC] at mc
      simp only at mc ⊢
      have mp := LoginFlow.submitCredentials_moved flow1 h net2
      rcases hP : flow1.submitCredentials h net2 with ⟨net3, h3 | e | p | _⟩ <;> try rfl
      rw [hP] at mp
      simp only at mp ⊢
      have := mp.1
      have := mc.1
      rw [ih m h3 net3 kr (by omega) (by omega)]

/-- The continuation of Login after a nested call that returned nil, with a store that can be
reached: one more write, and nil. -/
theorem afterNestedLogin_ok (r : Run) (hr : r.ret = .ok ()) (hav : r.kr.available = true) :
    (afterNestedLogin r).ret = .ok () ∧
      (afterNestedLogin r).kr.writes.length = r.kr.writes.length + 1 ∧
      (afterNestedLogin r).kr.available = true ∧ (afterNestedLogin r).net = r.net := by
  rcases r with ⟨h, net, kr, u | e | p | _⟩
  · simp only at hav
    simp [afterNestedLogin, Helicon.SaveTokensToKeyring, keyring.Set, hav]
  · simp at hr
  · simp at hr
  · simp at hr

/-- The continuation of Login after a nested call that returned nil, with a store that cannot
be reached: an error, the store as it was. -/
theorem afterNestedLogin_unavailable (r : Run) (hav : r.kr.available = false) :
    (afterNestedLogin r).ret ≠ .ok () ∧ (afterNestedLogin r).kr = r.kr := by
  rcases r with ⟨h, net, kr, u | e | p | _⟩
  · simp only at hav
    simp [afterNestedLogin, Helicon.SaveTokensToKeyring, keyring.Set, hav]
  · simp [afterNestedLogin]
  · simp [afterNestedLogin]
  · simp [afterNestedLogin]

/-- The continuation of Login after a nested call that did not return nil: no write. -/
theorem afterNestedLogin_failed (r : Run) (hr : r.ret ≠ .ok ()) :
    (afterNestedLogin r).ret ≠ .ok () ∧ (afterNestedLogin r).kr = r.kr := by
  rcases r with ⟨h, net, kr, u | e | p | _⟩
  · exact absurd rfl hr
  · simp [afterNestedLogin]
  · simp [afterNestedLogin]
  · simp [afterNestedLogin]

/-- The writes to the secret store in a call of Login: one for every run of the flow when it
returns nil, none otherwise. -/
theorem Helicon.LoginFuel_writes (fuel : Nat) (h : Helicon) (net : Net) (kr : Keyring) :
    ((Helicon.LoginFuel fuel h net kr).ret = .ok () →
      flowRuns net < flowRuns (Helicon.LoginFuel fuel h net kr).net ∧
      (Helicon.LoginFuel fuel h net kr).kr.writes.length =
        kr.writes.length + (flowRuns (Helicon.LoginFuel fuel h net kr).net - flowRuns net) ∧
      (Helicon.LoginFuel fuel h net kr).kr.available = true) ∧
    ((Helicon.LoginFuel fuel h net kr).ret ≠ .ok () →
      (Helicon.LoginFuel fuel h net kr).kr = kr) := by
  induction fuel generalizing h net kr with
  | zero => simp [Helicon.LoginFuel]
  | succ n ih =>
    rw [Helicon.LoginFuel_succ]
    obtain ⟨k, -, ms, hs⟩ := Helicon.StartLoginFlow_moved h net
    rcases hS : h.StartLoginFlow net with ⟨net1, flow | e | p | _⟩
    · rw [hS] at ms hs
      have hk := (hs flow rfl).1
      subst hk
      simp only at ms ⊢
      have mc := LoginFlow.SolveAndSubmitJSChallenge_moved flow h net1
      rcases hC : flow.SolveAndSubmitJSChallenge h net1 with ⟨net2, flow1 | e | p | _⟩
      · rw [hC] at mc
        simp only at mc ⊢
        have mp := LoginFlow.submitCredentials_moved flow1 h net2
        rcases hP : flow1.submitCredentials h net2 with ⟨net3, h1 | e | p | _⟩
        · rw [hP] at mp
          simp only at mp ⊢
          have hruns : flowRuns net3 = flowRuns net + 1 := by
            have := ms.2
            have := mc.2
            have := mp.2
            omega
          by_cases he : h1.Cookies.CSRFToken.Raw = []
          · simp only [he, if_true]
            obtain ⟨iok, ierr⟩ := ih h1 net3 kr
            by_cases hr : (Helicon.LoginFuel n h1 net3 kr).ret = .ok ()
            · obtain ⟨i1, i2, i3⟩ := iok hr
              obtain ⟨a1, a2, a3, a4⟩ := afterNestedLogin_ok _ hr i3
              refine ⟨fun _ => ⟨?_, ?_, a3⟩, fun hne => absurd a1 hne⟩
              · rw [a4]; omega
              · rw [a2, a4, i2]; omega
            · obtain ⟨b1, b2⟩ := afterNestedLogin_failed _ hr
              exact ⟨fun hok => absurd hok b1, fun _ => b2.trans (ierr hr)⟩
          · simp only [he, if_false]
            by_cases hav : kr.available = true
            · obtain ⟨a1, a2, a3, a4⟩ :=
                afterNestedLogin_ok ⟨h1, net3, kr, .ok ()⟩ rfl hav
              refine ⟨fun _ => ⟨?_, ?_, a3⟩, fun hne => absurd a1 hne⟩
              · rw [a4]; simp only; omega
              · rw [a2, a4]; simp only; omega
            · obtain ⟨b1, b2⟩ :=
                afterNestedLogin_unavailable ⟨h1, net3, kr, .ok ()⟩ (by simpa using hav)
              exact ⟨fun hok => absurd hok b1, fun _ => b2⟩
        · simp
        · simp
        · simp
      · simp
      · simp
      · simp
    · simp
    · simp
    · simp

/-! ## C9, amended -/

/-- C9, amended. There is no bound of one restart: whenever the three steps of a run of the
flow succeed and the password step leaves CSRFToken.Raw empty (no `ct0` line in the password
response and none held from before), Login goes on as a complete new call of Login on the
remaining responses, at whatever depth this happens: after the first run, again after a
second password response without `ct0`, and so on. The outer call returns the error of the
nested one, wrapped, and after a nested call that returned nil it saves and loads the tokens
once more. Login still returns for every finite sequence of responses. -/
theorem C9_login_restarts_every_time (h h3 : Helicon) (net : Net) (kr : Keyring)
    (flow flow1 : LoginFlow)
    (hs : (h.StartLoginFlow net).2 = .ok flow)
    (hc : (flow.SolveAndSubmitJSChallenge h (h.StartLoginFlow net).1).2 = .ok flow1)
    (hp : (flow1.submitCredentials h
      (flow.SolveAndSubmitJSChallenge h (h.StartLoginFlow net).1).1).2 = .ok h3)
    (he : h3.Cookies.CSRFToken.Raw = []) :
    h.Login net kr =
      afterNestedLogin (h3.Login (flow1.submitCredentials h
        (flow.SolveAndSubmitJSChallenge h (h.StartLoginFlow net).1).1).1 kr) ∧
    (h.Login net kr).ret ≠ .outOfFuel := by
  refine ⟨?_, Helicon.Login_returns h net kr⟩
  unfold Helicon.Login
  rw [Helicon.LoginFuel_succ]
  obtain ⟨k, -, ms, hlt⟩ := Helicon.StartLoginFlow_moved h net
  have mc := LoginFlow.SolveAndSubmitJSChallenge_moved flow h (h.StartLoginFlow net).1
  have mp := LoginFlow.submitCredentials_moved flow1 h
    (flow.SolveAndSubmitJSChallenge h (h.StartLoginFlow net).1).1
  have h1 := (hlt flow hs).2
  have h2 := mc.1
  have h3' := mp.1
  rcases hS : h.StartLoginFlow net with ⟨net1, r1⟩
  rw [hS] at hs hc hp h1 h2 h3'
  dsimp only at hs hc hp h1 h2 h3' ⊢
  subst hs
  rcases hC : flow.SolveAndSubmitJSChallenge h net1 with ⟨net2, r2⟩
  rw [hC] at hc hp h2 h3'
  dsimp only at hc hp h2 h3' ⊢
  subst hc
  rcases hP : flow1.submitCredentials h net2 with ⟨net3, r3⟩
  rw [hP] at hp h3'
  dsimp only at hp h3' ⊢
  subst hp
  rw [hC]
  dsimp only
  rw [hP]
  dsimp only
  rw [if_pos he]
  rw [Helicon.LoginFuel_stable net.responses.length (net3.responses.length + 1) h3 net3 kr
    (by omega) (by omega)]

/-- Witness of C9, amended: the first run in a world without `ct0` in the first password
response; Login goes on as a new call of Login for the client with the auth cookie only. -/
theorem C9_login_restarts_every_time_witness :
    ((alice.StartLoginFlow oneRestartWorld).2 = .ok startedFlow ∧
      (startedFlow.SolveAndSubmitJSChallenge alice (alice.StartLoginFlow oneRestartWorld).1).2
        = .ok challengedFlow ∧
      (challengedFlow.submitCredentials alice
        (startedFlow.SolveAndSubmitJSChallenge alice (alice.StartLoginFlow oneRestartWorld).1).1).2
        = .ok aliceLoggedOut ∧
      aliceLoggedOut.Cookies.CSRFToken.Raw = []) ∧
    alice.Login oneRestartWorld {} =
      afterNestedLogin (aliceLoggedOut.Login (challengedFlow.submitCredentials alice
        (startedFlow.SolveAndSubmitJSChallenge alice (alice.StartLoginFlow oneRestartWorld).1).1).1
        {}) :=
  ⟨⟨by decide, by decide, by decide, rfl⟩,
    (C9_login_restarts_every_time alice aliceLoggedOut oneRestartWorld {} startedFlow
      challengedFlow (by decide) (by decide) (by decide) rfl).1⟩

/-! ## C10, amended -/

/-- C10, amended. In every Login run the write to the secret store is executed once for every
run of the flow when Login returns nil: exactly once when the flow is run once, and once more
for every restart on the logged-out-after-login path, where the nested Login writes and the
outer one writes again. When Login does not return nil, as when a step of the flow fails, no
write is executed and the store is as it was. -/
theorem C10_one_write_per_flow_run (h : Helicon) (net : Net) (kr : Keyring) :
    if (h.Login net kr).ret = .ok () then
      flowRuns net < flowRuns (h.Login net kr).net ∧
      (h.Login net kr).kr.writes.length =
        kr.writes.length + (flowRuns (h.Login net kr).net - flowRuns net)
    else (h.Login net kr).kr = kr := by
  obtain ⟨hok, herr⟩ := Helicon.LoginFuel_writes (net.responses.length + 1) h net kr
  unfold Helicon.Login
  split_ifs with hr
  · exact ⟨(hok hr).1, (hok hr).2.1⟩
  · exact herr hr

/-- Witness of C10, amended: on the happy path the flow is run once, Login returns nil and the
write is executed exactly once. -/
theorem C10_one_write_per_flow_run_witness :
    (alice.Login happyWorld {}).ret = .ok () ∧
    flowRuns (alice.Login happyWorld {}).net = 1 ∧
    (alice.Login happyWorld {}).kr.writes.length = 1 := by
  have hok : (alice.Login happyWorld {}).ret = .ok () := by decide
  have hruns : flowRuns (alice.Login happyWorld {}).net = 1 := by decide
  have h := C10_one_write_per_flow_run alice happyWorld {}
  rw [if_pos hok, hruns] at h
  exact ⟨hok, hruns, h.2⟩

/-! ## Lemmas: the matches of the Bearer pattern -/

theorem str_Bearer : str "Bearer" = [66, 101, 97, 114, 101, 114] := by decide

theorem regexp.bearerHere_prefix {s m rest : Str} (h : regexp.bearerHere s = some (m, rest)) :
    ∃ t, m = str "Bearer" ++ t := by
  unfold regexp.bearerHere at h
  split at h
  · simp at h
  · split at h
    · next t r _ =>
      simp only [Option.some.injEq, Prod.mk.injEq] at h
      exact ⟨t, h.1.symm⟩
    · simp at h

theorem regexp.findAllBearerFrom_succ (fuel : Nat) (s : Str) :
    regexp.findAllBearerFrom (fuel + 1) s =
      match regexp.bearerHere s with
      | some (m, rest) => m :: regexp.findAllBearerFrom fuel rest
      | none =>
        match s with
        | [] => []
        | _ :: cs => regexp.findAllBearerFrom fuel cs := by
  rfl

theorem regexp.findAllBearerFrom_prefix (fuel : Nat) :
    ∀ s : Str, ∀ m ∈ regexp.findAllBearerFrom fuel s, ∃ t, m = str "Bearer" ++ t := by
  induction fuel with
  | zero => intro s m hm; simp [regexp.findAllBearerFrom] at hm
  | succ n ih =>
    intro s m hm
    rw [regexp.findAllBearerFrom_succ] at hm
    split at hm
    · next m1 rest hb =>
      rcases List.mem_cons.1 hm with h1 | h1
      · subst h1; exact regexp.bearerHere_prefix hb
      · exact ih rest m h1
    · split at hm
      · simp at hm
      · exact ih _ m hm

theorem strings.TrimPrefix_quote_Bearer (t : Str) :
    strings.TrimPrefix (str "Bearer" ++ t) [34] = str "Bearer" ++ t := by
  rw [str_Bearer]
  simp [strings.TrimPrefix, List.isPrefixOf]

theorem strings.TrimSuffix_quote (m : Str) :
    strings.TrimSuffix m [34] = withoutTerminatingQuote m := by
  unfold strings.TrimSuffix withoutTerminatingQuote
  have e : ([34] : Str).isSuffixOf m = true ↔ m.getLast? = some 34 := by
    rw [List.isSuffixOf_iff_suffix, List.getLast?_eq_head?_reverse]
    constructor
    · rintro ⟨t, rfl⟩; simp
    · intro h
      rcases hm : m.reverse with _ | ⟨c, r⟩
      · rw [hm] at h; simp at h
      · rw [hm] at h
        simp at h
        subst h
        refine ⟨r.reverse, ?_⟩
        have := congrArg List.reverse hm
        simpa using this.symm
  by_cases h : m.getLast? = some 34
  · rw [if_pos (e.2 h), if_pos h, List.dropLast_eq_take]; simp
  · have : ¬ ([34] : Str).isSuffixOf m = true := fun c => h (e.1 c)
    rw [if_neg this, if_neg h]


theorem regexp.findAllBearer_prefix (body m : Str)
    (h : (regexp.findAllBearer body).getLast? = some m) : ∃ t, m = str "Bearer" ++ t :=
  regexp.findAllBearerFrom_prefix _ body m (List.mem_of_getLast?_eq_some h)

/-! ## C15 -/

/-- C15. When the main script has been fetched, with status 200 and a body that can be read,
and the body has at least one match of the pattern `(Bearer)(.*?)("|\z)`, with `m` the last
of the successive matches that `FindAll` finds from left to right, FindAnonymousBearerToken
returns `m` without the double quote that ends it. -/
theorem C15_returns_last_match (h : Helicon) (net net1 net2 : Net) (mainScriptUrl m : Str)
    (resp : Response)
    (hurl : h.FindTwitterMainJavascriptUrl net = (net1, .ok mainScriptUrl))
    (hreq : url.Parse mainScriptUrl = true)
    (hdo : net1.Do (mainScriptRequest h mainScriptUrl) = (net2, some resp))
    (hstatus : resp.StatusCode = 200) (hread : resp.readOK = true)
    (hm : (regexp.findAllBearer resp.Body).getLast? = some m) :
    (h.FindAnonymousBearerToken net).2 = .ok (withoutTerminatingQuote m) := by
  obtain ⟨t, ht⟩ := regexp.findAllBearer_prefix _ _ hm
  unfold mainScriptRequest at hdo
  unfold Helicon.FindAnonymousBearerToken
  rw [hurl]
  simp only [hreq, hdo, hstatus, hread, hm]
  simp [ht, strings.TrimPrefix_quote_Bearer, strings.TrimSuffix_quote]

set_option maxRecDepth 100000 in
/-- Witness of C15: a main script with the two literals `Bearer one` and `Bearer two`. -/
theorem C15_returns_last_match_witness :
    (regexp.findAllBearer scriptTwoBearers).getLast? = some (str "Bearer two\x22") ∧
    (alice.FindAnonymousBearerToken (scrapeWorld pageResponse.Body scriptTwoBearers)).2 =
      .ok (str "Bearer two") :=
  ⟨by decide,
    C15_returns_last_match alice (scrapeWorld pageResponse.Body scriptTwoBearers)
      (alice.FindTwitterMainJavascriptUrl (scrapeWorld pageResponse.Body scriptTwoBearers)).1
      ((alice.FindTwitterMainJavascriptUrl (scrapeWorld pageResponse.Body scriptTwoBearers)).1.Do
        (mainScriptRequest alice mainScriptUrlDocumented)).1
      mainScriptUrlDocumented (str "Bearer two\x22")
      { Body := scriptTwoBearers } (by decide) (by decide) (by decide) rfl rfl (by decide)⟩

/-! ## C16 -/

set_option maxRecDepth 100000 in
/-- C16, the code at the failing input. The main script `a="Bearer";` has one match of the
pattern, `Bearer"`, and FindAnonymousBearerToken returns the six characters `Bearer` for it:
a value that does not start with the seven characters of the word and a space. -/
theorem C16_token_without_space :
    regexp.findAllBearer scriptBearerNoSpace = [str "Bearer\x22"] ∧
    (alice.FindAnonymousBearerToken (scrapeWorld pageResponse.Body scriptBearerNoSpace)).2 =
      .ok (str "Bearer") ∧
    (str "Bearer ").isPrefixOf (str "Bearer") = false := by
  decide

/-! ## C17 -/

/-- C17, the code where the pattern has no match. When the main script has been fetched, with
status 200 and a body that can be read, and the body has no match of the Bearer pattern,
FindAnonymousBearerToken does not return an error: the index `len(matches)-1` is out of
range and the call panics. -/
theorem C17_no_match_panics (h : Helicon) (net net1 net2 : Net) (mainScriptUrl : Str)
    (resp : Response)
    (hurl : h.FindTwitterMainJavascriptUrl net = (net1, .ok mainScriptUrl))
    (hreq : url.Parse mainScriptUrl = true)
    (hdo : net1.Do (mainScriptRequest h mainScriptUrl) = (net2, some resp))
    (hstatus : resp.StatusCode = 200) (hread : resp.readOK = true)
    (hm : regexp.findAllBearer resp.Body = []) :
    (h.FindAnonymousBearerToken net).2 = .panic (str "index out of range [-1]") := by
  unfold mainScriptRequest at hdo
  unfold Helicon.FindAnonymousBearerToken
  rw [hurl]
  simp only [hreq, hdo, hstatus, hread, hm]
  simp

set_option maxRecDepth 100000 in
/-- Witness of C17: the main script `var a=1;`. -/
theorem C17_no_match_panics_witness :
    regexp.findAllBearer scriptNoBearer = [] ∧
    (alice.FindAnonymousBearerToken (scrapeWorld pageResponse.Body scriptNoBearer)).2 =
      .panic (str "index out of range [-1]") :=
  ⟨by decide,
    C17_no_match_panics alice (scrapeWorld pageResponse.Body scriptNoBearer)
      (alice.FindTwitterMainJavascriptUrl (scrapeWorld pageResponse.Body scriptNoBearer)).1
      ((alice.FindTwitterMainJavascriptUrl (scrapeWorld pageResponse.Body scriptNoBearer)).1.Do
        (mainScriptRequest alice mainScriptUrlDocumented)).1
      mainScriptUrlDocumented { Body := scriptNoBearer }
      (by decide) (by decide) (by decide) rfl rfl (by decide)⟩

/-! ## C18 -/

set_option maxRecDepth 100000 in
/-- C18, the code at the failing input. The login page names the main script between single
quotes, which the pattern accepts; FindTwitterMainJavascriptUrl returns the address with both
single quotes still around it, since only a double quote is trimmed. The value does not begin
with `https://`, and FindAnonymousBearerToken cannot make a request for it. -/
theorem C18_single_quotes_kept :
    (alice.FindTwitterMainJavascriptUrl (scrapeWorld pageSingleQuoted [])).2 =
      .ok ([39] ++ mainScriptUrlDocumented ++ [39]) ∧
    (str "https://abs.twimg.com/responsive-web/").isPrefixOf
      ([39] ++ mainScriptUrlDocumented ++ [39]) = false ∧
    (alice.FindAnonymousBearerToken (scrapeWorld pageSingleQuoted [])).2 =
      .error (.wrap (str "failed to create request for " ++ [39] ++ mainScriptUrlDocumented
        ++ [39] ++ str ": ") (.lib (str "net/url"))) := by
  decide

/-! ## C19 -/

theorem regexp.findFirst_some {α : Type} (f : Str → Option α) :
    ∀ (s : Str) (d : α), regexp.findFirst f s = some d → ∃ t, t <:+ s ∧ f t = some d := by
  intro s
  induction s with
  | nil => intro d h; exact ⟨[], List.suffix_refl _, h⟩
  | cons c cs ih =>
    intro d h
    unfold regexp.findFirst at h
    split at h
    · next m hm =>
      simp only [Option.some.injEq] at h
      subst h
      exact ⟨c :: cs, List.suffix_refl _, hm⟩
    · obtain ⟨t, ht, hf⟩ := ih d h
      exact ⟨t, ht.trans (List.suffix_cons c cs), hf⟩

theorem regexp.guestTokenHere_digits {t d : Str} (h : regexp.guestTokenHere t = some d) :
    d ≠ [] ∧ ∀ c ∈ d, 48 ≤ c ∧ c ≤ 57 := by
  unfold regexp.guestTokenHere at h
  split at h
  · simp at h
  · next r _ =>
    dsimp only [] at h
    split_ifs at h with he
    simp only [Option.some.injEq] at h
    subst h
    refine ⟨he, ?_⟩
    intro c hc
    have := List.mem_takeWhile_imp hc
    simpa [time.isDigitByte] using this

/-- C19, the code on both sides of the claim. When the login page has been fetched, with
status 200 and a body that can be read: if the body has a match of the pattern,
GenerateGuestToken returns the digits of the first match, a non-empty run of decimal digits;
if the body has no match it does not return an error: the index 1 is out of range for the
empty result of the search and the call panics. -/
theorem C19_guest_token_or_panic (h : Helicon) (net net1 : Net) (resp : Response)
    (hdo : net.Do (loginPageRequest h) = (net1, some resp))
    (hstatus : resp.StatusCode = 200) (hread : resp.readOK = true) :
    (∀ digits, regexp.findFirst regexp.guestTokenHere resp.Body = some digits →
      (h.GenerateGuestToken net).2 = .ok digits ∧ digits ≠ [] ∧ ∀ c ∈ digits, 48 ≤ c ∧ c ≤ 57) ∧
    (regexp.findFirst regexp.guestTokenHere resp.Body = none →
      (h.GenerateGuestToken net).2 = .panic (str "index out of range [1] with length 0")) := by
  unfold loginPageRequest at hdo
  constructor
  · intro digits hd
    obtain ⟨t, _, ht⟩ := regexp.findFirst_some _ _ _ hd
    refine ⟨?_, regexp.guestTokenHere_digits ht⟩
    unfold Helicon.GenerateGuestToken
    simp only [hdo, hstatus, hread, hd]
    simp
  · intro hn
    unfold Helicon.GenerateGuestToken
    simp only [hdo, hstatus, hread, hn]
    simp

set_option maxRecDepth 100000 in
/-- Witness of C19: a login page that sets no guest token. -/
theorem C19_guest_token_or_panic_witness :
    regexp.findFirst regexp.guestTokenHere pageNoGuestToken = none ∧
    (alice.GenerateGuestToken (scrapeWorld pageNoGuestToken [])).2 =
      .panic (str "index out of range [1] with length 0") :=
  ⟨by decide,
    (C19_guest_token_or_panic alice (scrapeWorld pageNoGuestToken [])
      ((scrapeWorld pageNoGuestToken []).Do (loginPageRequest alice)).1
      { Body := pageNoGuestToken } (by decide) rfl rfl).2 (by decide)⟩

/-! ## Lemmas: what Login leaves of the client -/

theorem harvestSession_frame (lines : List Str) (h : Helicon) :
    (harvestSession lines h).UserAgent = h.UserAgent ∧
    (harvestSession lines h).Credentials = h.Credentials := by
  induction lines generalizing h with
  | nil => exact ⟨rfl, rfl⟩
  | cons l rest ih =>
    unfold harvestSession
    dsimp only []
    split_ifs
    · exact ih _
    · exact ih _
    · exact ih _

theorem LoginFlow.submitCredentials_frame (f : LoginFlow) (h h1 : Helicon) (net net1 : Net)
    (hs : f.submitCredentials h net = (net1, .ok h1)) :
    h1.UserAgent = h.UserAgent ∧ h1.Credentials = h.Credentials := by
  unfold LoginFlow.submitCredentials at hs
  dsimp only [] at hs
  split at hs
  · simp at hs
  · split_ifs at hs
    · simp at hs
    · simp at hs
    · split at hs
      · simp at hs
      · split at hs
        · simp at hs
        · split_ifs at hs
          · simp at hs
          · simp at hs
          · simp only [Prod.mk.injEq, Res.ok.injEq] at hs
            rw [← hs.2]
            exact harvestSession_frame _ _

theorem Helicon.LoadTokensFromKeyring_frame (h : Helicon) (kr : Keyring) :
    (h.LoadTokensFromKeyring kr).1.UserAgent = h.UserAgent ∧
    (h.LoadTokensFromKeyring kr).1.Credentials = h.Credentials := by
  unfold Helicon.LoadTokensFromKeyring
  split
  · exact ⟨rfl, rfl⟩
  · split
    · exact ⟨rfl, rfl⟩
    · dsimp only []
      split_ifs
      · exact ⟨rfl, rfl⟩
      · split
        · exact ⟨rfl, rfl⟩
        · split <;> exact ⟨rfl, rfl⟩

theorem afterNestedLogin_frame (r : Run) :
    (afterNestedLogin r).h.UserAgent = r.h.UserAgent ∧
    (afterNestedLogin r).h.Credentials = r.h.Credentials := by
  rcases r with ⟨h, net, kr, u | e | p | _⟩
  · unfold afterNestedLogin
    simp only
    split
    · exact ⟨rfl, rfl⟩
    · exact Helicon.LoadTokensFromKeyring_frame h _
  · exact ⟨rfl, rfl⟩
  · exact ⟨rfl, rfl⟩
  · exact ⟨rfl, rfl⟩

/-- Login changes nothing of the client but its cookies. -/
theorem Helicon.LoginFuel_frame (fuel : Nat) (h : Helicon) (net : Net) (kr : Keyring) :
    (Helicon.LoginFuel fuel h net kr).h.UserAgent = h.UserAgent ∧
    (Helicon.LoginFuel fuel h net kr).h.Credentials = h.Credentials := by
  induction fuel generalizing h net kr with
  | zero => exact ⟨rfl, rfl⟩
  | succ n ih =>
    rw [Helicon.LoginFuel_succ]
    rcases h.StartLoginFlow net with ⟨net1, flow | e | p | _⟩
    · simp only
      rcases flow.SolveAndSubmitJSChallenge h net1 with ⟨net2, flow1 | e | p | _⟩
      · simp only
        rcases hP : flow1.submitCredentials h net2 with ⟨net3, h1 | e | p | _⟩
        · have f1 := LoginFlow.submitCredentials_frame flow1 h h1 net2 net3 hP
          simp only
          split_ifs
          · have f2 := afterNestedLogin_frame (Helicon.LoginFuel n h1 net3 kr)
            have f3 := ih h1 net3 kr
            exact ⟨f2.1.trans (f3.1.trans f1.1), f2.2.trans (f3.2.trans f1.2)⟩
          · have f2 := afterNestedLogin_frame ⟨h1, net3, kr, .ok ()⟩
            exact ⟨f2.1.trans f1.1, f2.2.trans f1.2⟩
        · exact ⟨rfl, rfl⟩
        · exact ⟨rfl, rfl⟩
        · exact ⟨rfl, rfl⟩
      · exact ⟨rfl, rfl⟩
      · exact ⟨rfl, rfl⟩
      · exact ⟨rfl, rfl⟩
    · exact ⟨rfl, rfl⟩
    · exact ⟨rfl, rfl⟩
    · exact ⟨rfl, rfl⟩

theorem Helicon.Login_frame (h : Helicon) (net : Net) (kr : Keyring) :
    (h.Login net kr).h.UserAgent = h.UserAgent ∧ (h.Login net kr).h.Credentials = h.Credentials :=
  Helicon.LoginFuel_frame _ h net kr

theorem Helicon.configured_UserAgent (h : Helicon) (env : Env) :
    (h.configured env).UserAgent = defaultUserAgent := rfl

/-- What Authenticate does once both variables are set: the forced login, when asked for,
then the load, and a login when the load fails. -/
theorem Helicon.Authenticate_configured (h : Helicon) (env : Env) (net : Net) (kr : Keyring)
    (hu : os.Getenv env (str "HELICON_USERNAME") ≠ [])
    (hp : os.Getenv env (str "HELICON_PASSWORD") ≠ []) :
    (h.Authenticate env net kr).h.UserAgent = defaultUserAgent := by
  unfold Helicon.Authenticate
  simp only [hu, hp, if_false]
  have key : ∀ r : Run, r.h.UserAgent = defaultUserAgent →
      (match r with
        | ⟨h2, net2, kr2, .ok _⟩ =>
          match h2.LoadTokensFromKeyring kr2 with
          | (h3, some _) => h3.Login net2 kr2
          | (h3, none) => ⟨h3, net2, kr2, .ok ()⟩
        | r => r).h.UserAgent = defaultUserAgent := by
    intro r hr
    rcases r with ⟨h2, net2, kr2, u | e | p | _⟩
    · simp only
      have fl := (Helicon.LoadTokensFromKeyring_frame h2 kr2).1
      rcases hL : h2.LoadTokensFromKeyring kr2 with ⟨h3, _ | e⟩
      · rw [hL] at fl
        simp only
        exact fl.trans hr
      · rw [hL] at fl
        simp only
        exact ((Helicon.Login_frame h3 net2 kr2).1.trans fl).trans hr
    · exact hr
    · exact hr
    · exact hr
  apply key
  split_ifs <;> first | rfl | exact (Helicon.Login_frame _ net kr).1.trans rfl

/-! ## C14 -/

set_option maxRecDepth 1000000 in
/-- Counterexample to C14 as stated: the client `alice` has the non-empty user agent `UA`;
with both variables set and the tokens in the store, Authenticate returns nil and the user
agent of the client is no longer `UA`. -/
theorem C14_counterexample :
    alice.UserAgent = str "UA" ∧
    (alice.Authenticate envAlice {} storeAlice).ret = .ok () ∧
    (alice.Authenticate envAlice {} storeAlice).h.UserAgent ≠ str "UA" := by
  decide

/-- C14, amended. Authenticate installs the fixed default user agent whenever both
HELICON_USERNAME and HELICON_PASSWORD are set, whatever user agent the client had before; it
leaves the user agent as it was only when one of the two variables is not set and it returns
at once. -/
theorem C14_authenticate_sets_default_agent (h : Helicon) (env : Env) (net : Net) (kr : Keyring) :
    (h.Authenticate env net kr).h.UserAgent =
      if os.Getenv env (str "HELICON_USERNAME") = [] ∨ os.Getenv env (str "HELICON_PASSWORD") = []
      then h.UserAgent else defaultUserAgent := by
  by_cases hu : os.Getenv env (str "HELICON_USERNAME") = []
  · rw [if_pos (Or.inl hu)]
    unfold Helicon.Authenticate
    simp only [hu, if_true]
  · by_cases hp : os.Getenv env (str "HELICON_PASSWORD") = []
    · rw [if_pos (Or.inr hp)]
      unfold Helicon.Authenticate
      simp only [hu, hp, if_true, if_false]
    · rw [if_neg (by tauto)]
      exact Helicon.Authenticate_configured h env net kr hu hp

/-! ## Lemmas: loading a well-formed entry -/

/-- LoadTokensFromKeyring on an entry that is the base64 encoding of three fields without the
byte 0x1F, joined by it, whose two cookie lines Parse accepts: no error, and the cookies of
the client are the two lines parsed and the third field. -/
theorem Helicon.LoadTokensFromKeyring_blob (g : Helicon) (kr : Keyring) (csrf auth bearer : Str)
    (hget : keyring.Get kr (str "helicon") g.Credentials.Username =
      some (base64.EncodeToString (csrf ++ [31] ++ auth ++ [31] ++ bearer)))
    (hb1 : IsBytes csrf) (hb2 : IsBytes auth) (hb3 : IsBytes bearer)
    (hs1 : 31 ∉ csrf) (hs2 : 31 ∉ auth) (hs3 : 31 ∉ bearer)
    (hp1 : (Cookie.Parse { Raw := csrf }).2 = none)
    (hp2 : (Cookie.Parse { Raw := auth }).2 = none) :
    g.LoadTokensFromKeyring kr =
      ({ g with Cookies :=
          { CSRFToken := (Cookie.Parse { g.Cookies.CSRFToken with Raw := csrf }).1,
            AuthToken := (Cookie.Parse { g.Cookies.AuthToken with Raw := auth }).1,
            BearerToken := bearer } }, none) := by
  have hbytes : IsBytes (csrf ++ [31] ++ auth ++ [31] ++ bearer) := by
    intro b hb
    simp only [List.mem_append, List.mem_singleton] at hb
    rcases hb with (((hb | hb) | hb) | hb) | hb
    · exact hb1 b hb
    · omega
    · exact hb2 b hb
    · omega
    · exact hb3 b hb
  have hsplit : strings.Split (csrf ++ [31] ++ auth ++ [31] ++ bearer) 31 = [csrf, auth, bearer] := by
    have e : csrf ++ [31] ++ auth ++ [31] ++ bearer = csrf ++ 31 :: (auth ++ 31 :: bearer) := by
      simp
    rw [e, strings.Split_append_sep _ _ _ hs1, strings.Split_append_sep _ _ _ hs2,
      strings.Split_of_not_mem _ _ hs3]
  have e1 : (Cookie.Parse { g.Cookies.CSRFToken with Raw := csrf }).2 = none :=
    (Cookie.Parse_err { g.Cookies.CSRFToken with Raw := csrf } { Raw := csrf } rfl).trans hp1
  have e2 : (Cookie.Parse { g.Cookies.AuthToken with Raw := auth }).2 = none :=
    (Cookie.Parse_err { g.Cookies.AuthToken with Raw := auth } { Raw := auth } rfl).trans hp2
  unfold Helicon.LoadTokensFromKeyring
  rw [hget]
  simp only [base64.DecodeString_EncodeToString _ hbytes, hsplit]
  simp [e1, e2]

/-- Authenticate with both variables set and no forced login: the load, and one call of
Login when the load fails. -/
theorem Helicon.Authenticate_unforced (h : Helicon) (env : Env) (net : Net) (kr : Keyring)
    (hu : os.Getenv env (str "HELICON_USERNAME") ≠ [])
    (hp : os.Getenv env (str "HELICON_PASSWORD") ≠ [])
    (hf : os.Getenv env (str "HELICON_FORCE_LOGIN") = []) :
    h.Authenticate env net kr =
      match (h.configured env).LoadTokensFromKeyring kr with
      | (h3, some _) => h3.Login net kr
      | (h3, none) => ⟨h3, net, kr, .ok ()⟩ := by
  unfold Helicon.Authenticate Helicon.configured
  simp only [hu, hp, hf, if_false, ne_eq, not_true_eq_false]
  rfl

/-! ## Lemmas: the runs of the flow in one call of Login -/

/-- The runs of the flow in one call of Login. When the first run does not end logged out,
no request is sent after it: the world after Login is the world after the first run, at most
one run was started, and exactly one when Login returns nil. When the first run ends logged
out and Login returns nil, at least two runs were started. -/
theorem Helicon.Login_runs (h : Helicon) (net : Net) (kr : Keyring) :
    (h.loggedOutAfterLogin net = false →
      (h.Login net kr).net = (h.firstRun net).1 ∧
      flowRuns (h.Login net kr).net ≤ flowRuns net + 1 ∧
      ((h.Login net kr).ret = .ok () → flowRuns (h.Login net kr).net = flowRuns net + 1)) ∧
    (h.loggedOutAfterLogin net = true → (h.Login net kr).ret = .ok () →
      flowRuns net + 2 ≤ flowRuns (h.Login net kr).net) := by
  unfold Helicon.loggedOutAfterLogin Helicon.firstRun
  unfold Helicon.Login
  rw [Helicon.LoginFuel_succ]
  obtain ⟨k, hk1, ms, hs⟩ := Helicon.StartLoginFlow_moved h net
  rcases hS : h.StartLoginFlow net with ⟨net1, flow | e | p | _⟩
  · rw [hS] at ms hs
    have hk := (hs flow rfl).1
    subst hk
    simp only at ms ⊢
    have mc := LoginFlow.SolveAndSubmitJSChallenge_moved flow h net1
    rcases hC : flow.SolveAndSubmitJSChallenge h net1 with ⟨net2, flow1 | e | p | _⟩
    · rw [hC] at mc
      simp only at mc ⊢
      have mp := LoginFlow.submitCredentials_moved flow1 h net2
      rcases hP : flow1.submitCredentials h net2 with ⟨net3, h1 | e | p | _⟩
      · rw [hP] at mp
        simp only at mp ⊢
        have hruns : flowRuns net3 = flowRuns net + 1 := by
          have := ms.2
          have := mc.2
          have := mp.2
          omega
        by_cases he : h1.Cookies.CSRFToken.Raw = []
        · simp only [he, if_true, decide_True]
          refine ⟨fun hc => absurd hc (by simp), fun _ hr => ?_⟩
          have hr2 : (Helicon.LoginFuel net.responses.length h1 net3 kr).ret = .ok () := by
            by_contra hne
            exact (afterNestedLogin_failed _ hne).1 hr
          obtain ⟨i1, -, i3⟩ :=
            (Helicon.LoginFuel_writes net.responses.length h1 net3 kr).1 hr2
          rw [(afterNestedLogin_ok _ hr2 i3).2.2.2]
          omega
        · simp only [he, if_false, decide_False]
          have hn : (afterNestedLogin ⟨h1, net3, kr, .ok ()⟩).net = net3 := by
            unfold afterNestedLogin
            simp only
            split <;> rfl
          refine ⟨fun _ => ⟨hn, ?_, fun _ => ?_⟩, fun hc => absurd hc (by simp)⟩
          · rw [hn]; omega
          · rw [hn]; exact hruns
      · have := ms.2; have := mc.2; have := mp.2
        rw [hP] at mp
        simp only at mp ⊢
        have := mp.2
        simp
        omega
      · have := ms.2; have := mc.2
        rw [hP] at mp
        simp only at mp ⊢
        have := mp.2
        simp
        omega
      · have := ms.2; have := mc.2
        rw [hP] at mp
        simp only at mp ⊢
        have := mp.2
        simp
        omega
    · rw [hC] at mc
      simp only at mc
      have := ms.2; have := mc.2
      simp
      omega
    · rw [hC] at mc
      simp only at mc
      have := ms.2; have := mc.2
      simp
      omega
    · rw [hC] at mc
      simp only at mc
      have := ms.2; have := mc.2
      simp
      omega
  · rw [hS] at ms
    simp only at ms
    have := ms.2
    simp
    omega
  · rw [hS] at ms
    simp only at ms
    have := ms.2
    simp
    omega
  · rw [hS] at ms
    simp only at ms
    have := ms.2
    simp
    omega

/-! ## C13 -/

set_option maxRecDepth 1000000 in
/-- Counterexample to C13 as stated. The variables are set, HELICON_FORCE_LOGIN is not, and the
store has no entry for `alice`: in a world whose first password response carries no `ct0`,
Authenticate returns nil after two runs of the login flow and two writes to the store, not
one. And with the well-formed entry of `storeAlice`, a client that holds a CSRF cookie parsed
from `ct0=OLD; Max-Age=21600; Path=/; Secure` has afterwards the stored line `ct0=C; Path=/`
as Raw, but MaxAge 21600 and Secure of the earlier line, which the stored line parsed from
its raw form does not have. -/
theorem C13_counterexample :
    (os.Getenv envAlice (str "HELICON_USERNAME") ≠ [] ∧
      os.Getenv envAlice (str "HELICON_PASSWORD") ≠ [] ∧
      os.Getenv envAlice (str "HELICON_FORCE_LOGIN") = [] ∧
      keyring.Get {} (str "helicon") (os.Getenv envAlice (str "HELICON_USERNAME")) = none) ∧
    ((alice.Authenticate envAlice oneRestartWorld {}).ret = .ok () ∧
      flowRuns oneRestartWorld = 0 ∧
      flowRuns (alice.Authenticate envAlice oneRestartWorld {}).net = 2 ∧
      (alice.Authenticate envAlice oneRestartWorld {}).kr.writes.length = 2) ∧
    ((aliceReturning.Authenticate envAlice {} storeAlice).ret = .ok () ∧
      (aliceReturning.Authenticate envAlice {} storeAlice).h.Cookies.CSRFToken.Raw
        = str "ct0=C; Path=/" ∧
      (aliceReturning.Authenticate envAlice {} storeAlice).h.Cookies.CSRFToken.MaxAge = 21600 ∧
      (aliceReturning.Authenticate envAlice {} storeAlice).h.Cookies.CSRFToken.Secure = true ∧
      (Cookie.Parse { Raw := str "ct0=C; Path=/" }).1.MaxAge = 0 ∧
      (Cookie.Parse { Raw := str "ct0=C; Path=/" }).1.Secure = false) := by
  decide

/-- C13, amended. With HELICON_USERNAME and HELICON_PASSWORD set and HELICON_FORCE_LOGIN not
set. When the store holds a well-formed entry for the user, the base64 encoding of three
fields without the byte 0x1F, joined by it, whose two cookie lines Parse accepts,
Authenticate returns nil, sends no request and writes nothing to the store, the bearer token
is the third field, and each cookie has the stored line as Raw and is what Parse makes of
the cookie of the client with Raw set to the stored line: the stored line parsed from its raw
form when the cookie of the client held nothing but Raw before. When the load fails,
Authenticate is one call of Login on the client the load left, with the world and the store
as they were, and returns what that call returns; in it the login flow is run at most once,
and exactly once when Authenticate returns nil, if the first run does not end logged out,
and at least twice when it ends logged out and Authenticate returns nil. When the entry is
missing, is no base64 or has not three parts, the load fails and leaves the client as it was
set up. -/
theorem C13_authenticate_loads_or_logs_in (h : Helicon) (env : Env) (net : Net) (kr : Keyring)
    (hu : os.Getenv env (str "HELICON_USERNAME") ≠ [])
    (hp : os.Getenv env (str "HELICON_PASSWORD") ≠ [])
    (hf : os.Getenv env (str "HELICON_FORCE_LOGIN") = []) :
    (∀ csrf auth bearer : Str,
      keyring.Get kr (str "helicon") (os.Getenv env (str "HELICON_USERNAME")) =
        some (base64.EncodeToString (csrf ++ [31] ++ auth ++ [31] ++ bearer)) →
      IsBytes csrf → IsBytes auth → IsBytes bearer → 31 ∉ csrf → 31 ∉ auth → 31 ∉ bearer →
      (Cookie.Parse { Raw := csrf }).2 = none → (Cookie.Parse { Raw := auth }).2 = none →
      h.Authenticate env net kr =
        ⟨{ h.configured env with Cookies :=
            { CSRFToken := (Cookie.Parse { h.Cookies.CSRFToken with Raw := csrf }).1,
              AuthToken := (Cookie.Parse { h.Cookies.AuthToken with Raw := auth }).1,
              BearerToken := bearer } }, net, kr, .ok ()⟩ ∧
      (h.Authenticate env net kr).h.Cookies.CSRFToken.Raw = csrf ∧
      (h.Authenticate env net kr).h.Cookies.AuthToken.Raw = auth ∧
      (h.Cookies.CSRFToken = { Raw := h.Cookies.CSRFToken.Raw } →
        (h.Authenticate env net kr).h.Cookies.CSRFToken = (Cookie.Parse { Raw := csrf }).1) ∧
      (h.Cookies.AuthToken = { Raw := h.Cookies.AuthToken.Raw } →
        (h.Authenticate env net kr).h.Cookies.AuthToken = (Cookie.Parse { Raw := auth }).1)) ∧
    (((h.configured env).LoadTokensFromKeyring kr).2 ≠ none →
      h.Authenticate env net kr = ((h.configured env).LoadTokensFromKeyring kr).1.Login net kr ∧
      (h.Authenticate env net kr).ret ≠ .outOfFuel ∧
      (((h.configured env).LoadTokensFromKeyring kr).1.loggedOutAfterLogin net = false →
        flowRuns (h.Authenticate env net kr).net ≤ flowRuns net + 1 ∧
        ((h.Authenticate env net kr).ret = .ok () →
          flowRuns (h.Authenticate env net kr).net = flowRuns net + 1)) ∧
      (((h.configured env).LoadTokensFromKeyring kr).1.loggedOutAfterLogin net = true →
        (h.Authenticate env net kr).ret = .ok () →
        flowRuns net + 2 ≤ flowRuns (h.Authenticate env net kr).net)) ∧
    ((keyring.Get kr (str "helicon") (os.Getenv env (str "HELICON_USERNAME")) = none ∨
      (∃ v, keyring.Get kr (str "helicon") (os.Getenv env (str "HELICON_USERNAME")) = some v ∧
        base64.DecodeString v = none) ∨
      (∃ v d, keyring.Get kr (str "helicon") (os.Getenv env (str "HELICON_USERNAME")) = some v ∧
        base64.DecodeString v = some d ∧ (strings.Split d 31).length ≠ 3)) →
      ((h.configured env).LoadTokensFromKeyring kr).2 ≠ none ∧
      ((h.configured env).LoadTokensFromKeyring kr).1 = h.configured env ∧
      h.Authenticate env net kr = (h.configured env).Login net kr) := by
  have hA := Helicon.Authenticate_unforced h env net kr hu hp hf
  refine ⟨?_, ?_, ?_⟩
  · intro csrf auth bearer hget hb1 hb2 hb3 hs1 hs2 hs3 hp1 hp2
    have hE : h.Authenticate env net kr =
        ⟨{ h.configured env with Cookies :=
            { CSRFToken := (Cookie.Parse { h.Cookies.CSRFToken with Raw := csrf }).1,
              AuthToken := (Cookie.Parse { h.Cookies.AuthToken with Raw := auth }).1,
              BearerToken := bearer } }, net, kr, .ok ()⟩ := by
      rw [hA, Helicon.LoadTokensFromKeyring_blob (h.configured env) kr csrf auth bearer hget
        hb1 hb2 hb3 hs1 hs2 hs3 hp1 hp2]
      rfl
    refine ⟨hE, ?_, ?_, ?_, ?_⟩
    · rw [hE]
      exact Cookie.Parse_Raw { h.Cookies.CSRFToken with Raw := csrf }
    · rw [hE]
      exact Cookie.Parse_Raw { h.Cookies.AuthToken with Raw := auth }
    · intro hz
      rw [hE]
      exact congrArg (fun c : Cookie => (Cookie.Parse { c with Raw := csrf }).1) hz
    · intro hz
      rw [hE]
      exact congrArg (fun c : Cookie => (Cookie.Parse { c with Raw := auth }).1) hz
  · intro hne
    have hL : h.Authenticate env net kr =
        ((h.configured env).LoadTokensFromKeyring kr).1.Login net kr := by
      rw [hA]
      rcases hL : (h.configured env).LoadTokensFromKeyring kr with ⟨h3, _ | e⟩
      · rw [hL] at hne; exact absurd rfl hne
      · rfl
    rw [hL]
    exact ⟨rfl, Helicon.Login_returns _ net kr,
      fun hc => ((Helicon.Login_runs _ net kr).1 hc).2, (Helicon.Login_runs _ net kr).2⟩
  · intro hbad
    have hu' : (h.configured env).Credentials.Username = os.Getenv env (str "HELICON_USERNAME") :=
      rfl
    have hload : ((h.configured env).LoadTokensFromKeyring kr).2 ≠ none ∧
        ((h.configured env).LoadTokensFromKeyring kr).1 = h.configured env := by
      unfold Helicon.LoadTokensFromKeyring
      rw [hu']
      rcases hbad with hg | ⟨v, hg, hd⟩ | ⟨v, d, hg, hd, hl⟩
      · simp [hg]
      · simp [hg, hd]
      · simp [hg, hd, hl]
    refine ⟨hload.1, hload.2, ?_⟩
    rw [hA]
    rcases hL : (h.configured env).LoadTokensFromKeyring kr with ⟨h3, _ | e⟩
    · rw [hL] at hload; exact absurd rfl hload.1
    · rw [hL] at hload
      simp only at hload ⊢
      rw [hload.2]

set_option maxRecDepth 1000000 in
/-- Witness of C13, amended: the client `alice` authenticates from the store alone when the
store holds the entry of the happy path, and with an empty store, on the happy path, through
one run of the login flow. -/
theorem C13_authenticate_loads_or_logs_in_witness :
    (os.Getenv envAlice (str "HELICON_USERNAME") ≠ [] ∧
      os.Getenv envAlice (str "HELICON_PASSWORD") ≠ [] ∧
      os.Getenv envAlice (str "HELICON_FORCE_LOGIN") = []) ∧
    alice.Authenticate envAlice {} storeAlice =
      ⟨{ alice.configured envAlice with Cookies :=
          { CSRFToken := (Cookie.Parse { Raw := str "ct0=C; Path=/" }).1,
            AuthToken := (Cookie.Parse { Raw := str "auth_token=A; Path=/" }).1,
            BearerToken := str "Bearer AAAA" } }, {}, storeAlice, .ok ()⟩ ∧
    ((alice.Authenticate envAlice happyWorld {}).ret = .ok () ∧
      flowRuns (alice.Authenticate envAlice happyWorld {}).net = flowRuns happyWorld + 1) :=
  ⟨⟨by decide, by decide, by decide⟩,
    ((C13_authenticate_loads_or_logs_in alice envAlice {} storeAlice (by decide) (by decide)
      (by decide)).1 (str "ct0=C; Path=/") (str "auth_token=A; Path=/") (str "Bearer AAAA")
      (by decide) (by decide) (by decide) (by decide) (by decide) (by decide) (by decide)
      (by decide) (by decide)).1,
    by decide,
    (((C13_authenticate_loads_or_logs_in alice envAlice happyWorld {} (by decide) (by decide)
      (by decide)).2.1 (by decide)).2.2.1 (by decide)).2 (by decide)⟩

/-! ## Lemmas: the harvest of the session cookies -/

theorem strings.Split_head (s : Str) (sep : Nat) :
    (strings.Split s sep).getD 0 [] = s.takeWhile (fun c => c ≠ sep) := by
  induction s with
  | nil => rfl
  | cons c cs ih =>
    unfold strings.Split
    by_cases h : c = sep
    · simp [h]
    · simp only [h, if_false]
      rcases hs : strings.Split cs sep with _ | ⟨p, ps⟩
      · exact absurd hs (strings.Split_ne_nil cs sep)
      · rw [hs] at ih
        simp at ih
        simp [List.takeWhile, h, ih]

theorem strings.Cut_before (s : Str) (sep : Nat) :
    (strings.Cut s sep).1 = s.takeWhile (fun c => c ≠ sep) := by
  induction s with
  | nil => rfl
  | cons c cs ih =>
    unfold strings.Cut
    by_cases h : c = sep
    · simp [h]
    · simp [h, ih, List.takeWhile]

theorem cookieNameOf_eq (rawCookie : Str) :
    strings.TrimSpace (strings.Cut ((strings.Split rawCookie 59).getD 0 []) 61).1 =
      cookieNameOf rawCookie := by
  rw [strings.Split_head, strings.Cut_before]
  rfl

theorem lastNamed_cons (n line : Str) (rest : List Str) :
    lastNamed n (line :: rest) =
      match lastNamed n rest with
      | some l => some l
      | none => if cookieNameOf line = n then some line else none := by
  unfold lastNamed
  by_cases h : cookieNameOf line = n
  · have e : (line :: rest).filter (fun line => decide (cookieNameOf line = n)) =
        line :: rest.filter (fun line => decide (cookieNameOf line = n)) := by
      simp [List.filter_cons, h]
    rw [e, if_pos h]
    rcases rest.filter (fun line => decide (cookieNameOf line = n)) with _ | ⟨a, as⟩
    · rfl
    · rw [List.getLast?_cons_cons, List.getLast?_eq_getLast _ (List.cons_ne_nil a as)]
  · have e : (line :: rest).filter (fun line => decide (cookieNameOf line = n)) =
        rest.filter (fun line => decide (cookieNameOf line = n)) := by
      simp [List.filter_cons, h]
    rw [e, if_neg h]
    generalize (rest.filter (fun line => decide (cookieNameOf line = n))).getLast? = o
    cases o <;> rfl

/-- The harvest in closed form: each of the two raw fields is the last line of its name, and
stays as it was without such a line. -/
theorem harvestSession_eq (lines : List Str) (h : Helicon) :
    harvestSession lines h =
      { h with Cookies := { h.Cookies with
          CSRFToken := { h.Cookies.CSRFToken with
            Raw := (lastNamed (str "ct0") lines).getD h.Cookies.CSRFToken.Raw },
          AuthToken := { h.Cookies.AuthToken with
            Raw := (lastNamed (str "auth_token") lines).getD h.Cookies.AuthToken.Raw } } } := by
  induction lines generalizing h with
  | nil => rfl
  | cons line rest ih =>
    unfold harvestSession
    dsimp only []
    rw [cookieNameOf_eq, lastNamed_cons, lastNamed_cons]
    have hne : str "ct0" ≠ str "auth_token" := by decide
    by_cases h1 : cookieNameOf line = str "ct0"
    · have h2 : cookieNameOf line ≠ str "auth_token" := by rw [h1]; exact hne
      rw [if_pos h1, ih]
      simp only [h1, h2, if_true, if_false]
      cases lastNamed (str "ct0") rest <;> cases lastNamed (str "auth_token") rest <;> rfl
    · rw [if_neg h1]
      by_cases h2 : cookieNameOf line = str "auth_token"
      · rw [if_pos h2, ih]
        simp only [h1, h2, if_true, if_false]
        cases lastNamed (str "ct0") rest <;> cases lastNamed (str "auth_token") rest <;> rfl
      · rw [if_neg h2, ih]
        simp only [h1, h2, if_false]
        cases lastNamed (str "ct0") rest <;> cases lastNamed (str "auth_token") rest <;> rfl

theorem Net.Do_cons (net : Net) (req : Request) (r : Option Response)
    (rest : List (Option Response)) (h : net.responses = r :: rest) :
    net.Do req =
      ({ net with responses := rest, sent := net.sent ++ [req],
                  received := net.received ++ [r] }, r) := by
  unfold Net.Do
  rw [h]

/-- The two requests of SubmitUsernameAndPassword answered without an error: the client after
the harvest of the lines of the password response. -/
theorem LoginFlow.submitCredentials_ok (f : LoginFlow) (h : Helicon) (net : Net)
    (resp1 resp2 : Response) (rest : List (Option Response)) (j : LoginFlow)
    (hresp : net.responses = some resp1 :: some resp2 :: rest)
    (h1 : resp1.readOK = true) (h1s : resp1.StatusCode ≤ 200) (h1j : resp1.JSON = some j)
    (h2 : resp2.readOK = true) (h2s : resp2.StatusCode ≤ 200) :
    ∃ net2, f.submitCredentials h net = (net2, .ok (harvestSession resp2.SetCookie h)) := by
  unfold LoginFlow.submitCredentials
  dsimp only []
  rw [Net.Do_cons net _ _ _ hresp]
  simp only [h1, Nat.not_lt.2 h1s, h1j, Bool.not_true, if_false, Bool.false_eq_true]
  rw [Net.Do_cons _ _ (some resp2) rest rfl]
  simp only [h2, Nat.not_lt.2 h2s, Bool.not_true, if_false, Bool.false_eq_true]
  exact ⟨_, rfl⟩

theorem cookieNameOf_nil : cookieNameOf [] ≠ str "ct0" := by decide

theorem lastNamed_name (n : Str) (lines : List Str) (line : Str)
    (h : lastNamed n lines = some line) : cookieNameOf line = n := by
  unfold lastNamed at h
  have := List.mem_of_getLast?_eq_some h
  simpa using (List.mem_filter.1 this).2

/-! ## C12 -/

set_option maxRecDepth 1000000 in
/-- Counterexample to C12 as stated: the password response has status 200 and one line named
`auth_token`, the line `auth_token=X; Path=/`, and no line named `ct0`; the client holds no
CSRF cookie, so SubmitUsernameAndPassword calls Login, whose password response issues
`auth_token=A; Path=/`. After SubmitUsernameAndPassword has returned nil, AuthToken.Raw is
that line and not the line of the first response. -/
theorem C12_counterexample :
    passwordResponseOtherAuth.StatusCode = 200 ∧
    lastNamed (str "auth_token") passwordResponseOtherAuth.SetCookie =
      some (str "auth_token=X; Path=/") ∧
    (challengedFlow.SubmitUsernameAndPassword Helicon.Login alice restartOtherAuthWorld {}).ret
      = .ok () ∧
    (challengedFlow.SubmitUsernameAndPassword Helicon.Login alice restartOtherAuthWorld
      {}).h.Cookies.AuthToken.Raw = str "auth_token=A; Path=/" ∧
    (challengedFlow.SubmitUsernameAndPassword Helicon.Login alice restartOtherAuthWorld
      {}).h.Cookies.AuthToken.Raw ≠ str "auth_token=X; Path=/" := by
  decide

/-- C12, amended. For every password response with status 200, after
SubmitUsernameAndPassword: CSRFToken.Raw is, verbatim and in full, the last of the lines
whose cookie name (the first `;`-segment, cut at its first `=`, trimmed) is `ct0`, when there
is one; when CSRFToken.Raw is not empty after the lines are read, because there is such a
line or the client held one before, the call returns nil, AuthToken.Raw is the last of the
lines named `auth_token`, and a field without a line of its name is as it was; lines with any
other cookie name change neither field; and when CSRFToken.Raw is empty after the lines are
read, the client is the one that the call of Login leaves. -/
theorem C12_session_cookies_harvested (login : Helicon → Net → Keyring → Run) (f : LoginFlow)
    (h : Helicon) (net : Net) (kr : Keyring) (resp1 resp2 : Response)
    (rest : List (Option Response)) (j : LoginFlow)
    (hresp : net.responses = some resp1 :: some resp2 :: rest)
    (h1 : resp1.readOK = true) (h1s : resp1.StatusCode ≤ 200) (h1j : resp1.JSON = some j)
    (h2 : resp2.readOK = true) (h2s : resp2.StatusCode = 200) :
    (∀ line, lastNamed (str "ct0") resp2.SetCookie = some line →
      (f.SubmitUsernameAndPassword login h net kr).h.Cookies.CSRFToken.Raw = line) ∧
    ((lastNamed (str "ct0") resp2.SetCookie).getD h.Cookies.CSRFToken.Raw ≠ [] →
      (f.SubmitUsernameAndPassword login h net kr).ret = .ok () ∧
      (f.SubmitUsernameAndPassword login h net kr).h.Cookies.CSRFToken.Raw =
        (lastNamed (str "ct0") resp2.SetCookie).getD h.Cookies.CSRFToken.Raw ∧
      (f.SubmitUsernameAndPassword login h net kr).h.Cookies.AuthToken.Raw =
        (lastNamed (str "auth_token") resp2.SetCookie).getD h.Cookies.AuthToken.Raw) ∧
    harvestSession resp2.SetCookie h =
      harvestSession (resp2.SetCookie.filter (fun line =>
        cookieNameOf line = str "ct0" ∨ cookieNameOf line = str "auth_token")) h ∧
    ((lastNamed (str "ct0") resp2.SetCookie).getD h.Cookies.CSRFToken.Raw = [] →
      ∃ net2, (f.SubmitUsernameAndPassword login h net kr).h =
        (login (harvestSession resp2.SetCookie h) net2 kr).h) := by
  obtain ⟨net2, hs⟩ := LoginFlow.submitCredentials_ok f h net resp1 resp2 rest j hresp h1 h1s h1j
    h2 (le_of_eq h2s)
  have hE := harvestSession_eq resp2.SetCookie h
  have hraw : (harvestSession resp2.SetCookie h).Cookies.CSRFToken.Raw =
      (lastNamed (str "ct0") resp2.SetCookie).getD h.Cookies.CSRFToken.Raw := by rw [hE]
  have hauth : (harvestSession resp2.SetCookie h).Cookies.AuthToken.Raw =
      (lastNamed (str "auth_token") resp2.SetCookie).getD h.Cookies.AuthToken.Raw := by rw [hE]
  have hb : (lastNamed (str "ct0") resp2.SetCookie).getD h.Cookies.CSRFToken.Raw ≠ [] →
      f.SubmitUsernameAndPassword login h net kr =
        ⟨harvestSession resp2.SetCookie h, net2, kr, .ok ()⟩ := by
    intro hne
    unfold LoginFlow.SubmitUsernameAndPassword
    rw [hs]
    simp only
    rw [if_neg (by rw [hraw]; exact hne)]
  refine ⟨?_, ?_, ?_, ?_⟩
  · intro line hl
    have hne : (lastNamed (str "ct0") resp2.SetCookie).getD h.Cookies.CSRFToken.Raw ≠ [] := by
      rw [hl]
      intro he
      have hn := lastNamed_name _ _ _ hl
      simp only [Option.getD_some] at he
      rw [he] at hn
      exact cookieNameOf_nil hn
    rw [hb hne]
    simp only
    rw [hraw, hl]
    rfl
  · intro hne
    rw [hb hne]
    exact ⟨rfl, hraw, hauth⟩
  · rw [harvestSession_eq, harvestSession_eq]
    have key : ∀ n : Str, n = str "ct0" ∨ n = str "auth_token" →
        lastNamed n (resp2.SetCookie.filter (fun line =>
          cookieNameOf line = str "ct0" ∨ cookieNameOf line = str "auth_token")) =
        lastNamed n resp2.SetCookie := by
      intro n hn
      unfold lastNamed
      rw [List.filter_filter]
      congr 1
      apply List.filter_congr
      intro x _
      have hne : str "ct0" ≠ str "auth_token" := by decide
      rcases hn with rfl | rfl
      · by_cases hx : cookieNameOf x = str "ct0" <;> simp [hx]
      · by_cases hx : cookieNameOf x = str "auth_token" <;> simp [hx]
    rw [key _ (Or.inl rfl), key _ (Or.inr rfl)]
  · intro he
    refine ⟨net2, ?_⟩
    unfold LoginFlow.SubmitUsernameAndPassword
    rw [hs]
    simp only
    rw [if_pos (by rw [hraw]; exact he)]
    rcases login (harvestSession resp2.SetCookie h) net2 kr with ⟨h3, net3, kr3, u | e | p | _⟩ <;>
      rfl

set_option maxRecDepth 1000000 in
/-- Witness of C12, amended: the password response of the happy path. -/
theorem C12_session_cookies_harvested_witness :
    (lastStepWorld.responses = [some (tokenResponse (str "T3")), some passwordResponse] ∧
      passwordResponse.StatusCode = 200 ∧
      (lastNamed (str "ct0") passwordResponse.SetCookie).getD alice.Cookies.CSRFToken.Raw ≠ []) ∧
    (challengedFlow.SubmitUsernameAndPassword Helicon.Login alice lastStepWorld {}).ret = .ok () ∧
    (challengedFlow.SubmitUsernameAndPassword Helicon.Login alice lastStepWorld
      {}).h.Cookies.CSRFToken.Raw = str "ct0=C; Path=/" ∧
    (challengedFlow.SubmitUsernameAndPassword Helicon.Login alice lastStepWorld
      {}).h.Cookies.AuthToken.Raw = str "auth_token=A; Path=/" :=
  ⟨⟨rfl, rfl, by decide⟩,
    (C12_session_cookies_harvested Helicon.Login challengedFlow alice lastStepWorld {}
      (tokenResponse (str "T3")) passwordResponse [] { FlowToken := str "T3" } rfl rfl
      (by decide) rfl rfl rfl).2.1 (by decide)⟩

/-! ## Lemmas: the exchanges of the steps -/

theorem Net.Exchanged.nothing (net : Net) : Net.Exchanged net net [] := by
  simp [Net.Exchanged]

theorem Net.Exchanged.followedBy {a b c : Net} {es fs : List (Request × Option Response)}
    (h1 : Net.Exchanged a b es) (h2 : Net.Exchanged b c fs) : Net.Exchanged a c (es ++ fs) := by
  unfold Net.Exchanged at *
  rw [h2.1, h2.2, h1.1, h1.2]
  simp

theorem zip_fst_snd (es : List (Request × Option Response)) :
    (es.map Prod.fst).zip (es.map Prod.snd) = es := by
  induction es with
  | nil => rfl
  | cons e es ih => simp [ih]

theorem Net.Exchanged.exchanges {a b : Net} {es : List (Request × Option Response)}
    (h : Net.Exchanged a b es) : Net.exchanges a b = es := by
  unfold Net.exchanges
  rw [h.1, h.2]
  simp only [List.drop_left]
  exact zip_fst_snd es

theorem Net.Do_exchanged {net net1 : Net} {req : Request} {r : Option Response}
    (h : net.Do req = (net1, r)) : Net.Exchanged net net1 [(req, r)] := by
  unfold Net.Do at h
  unfold Net.Exchanged
  rcases hr : net.responses with _ | ⟨x, rest⟩
  · rw [hr] at h
    simp only [Prod.mk.injEq] at h
    obtain ⟨h1, h2⟩ := h
    subst h1 h2
    simp
  · rw [hr] at h
    simp only [Prod.mk.injEq] at h
    obtain ⟨h1, h2⟩ := h
    subst h1 h2
    simp

theorem Net.Run_exchanged {net net1 : Net} {r : Option JSValue} (h : net.Run = (net1, r)) :
    Net.Exchanged net net1 [] := by
  unfold Net.Run at h
  unfold Net.Exchanged
  rcases hr : net.evals with _ | ⟨x, rest⟩
  · rw [hr] at h
    simp only [Prod.mk.injEq] at h
    obtain ⟨h1, h2⟩ := h
    subst h1
    simp
  · rw [hr] at h
    simp only [Prod.mk.injEq] at h
    obtain ⟨h1, h2⟩ := h
    subst h1
    simp

theorem Helicon.FindTwitterMainJavascriptUrl_gets (h : Helicon) (net : Net) :
    ∃ es, Net.Exchanged net (h.FindTwitterMainJavascriptUrl net).1 es ∧
      ∀ e ∈ es, e.1.Method = str "GET" := by
  unfold Helicon.FindTwitterMainJavascriptUrl
  dsimp only []
  split
  · next net1 hd => exact ⟨_, Net.Do_exchanged hd, by simp⟩
  · next net1 resp hd =>
    refine ⟨[(loginPageRequest h, some resp)], ?_, by simp [loginPageRequest]⟩
    split_ifs <;> (try split) <;> exact Net.Do_exchanged hd

theorem Helicon.GenerateGuestToken_gets (h : Helicon) (net : Net) :
    ∃ es, Net.Exchanged net (h.GenerateGuestToken net).1 es ∧
      ∀ e ∈ es, e.1.Method = str "GET" := by
  unfold Helicon.GenerateGuestToken
  dsimp only []
  split
  · next net1 hd => exact ⟨_, Net.Do_exchanged hd, by simp⟩
  · next net1 resp hd =>
    refine ⟨[(loginPageRequest h, some resp)], ?_, by simp [loginPageRequest]⟩
    split_ifs <;> (try split) <;> exact Net.Do_exchanged hd

theorem Helicon.FindAnonymousBearerToken_gets (h : Helicon) (net : Net) :
    ∃ es, Net.Exchanged net (h.FindAnonymousBearerToken net).1 es ∧
      ∀ e ∈ es, e.1.Method = str "GET" := by
  obtain ⟨es, m, hg⟩ := Helicon.FindTwitterMainJavascriptUrl_gets h net
  unfold Helicon.FindAnonymousBearerToken
  split
  · next net1 e he => rw [he] at m; exact ⟨es, m, hg⟩
  · next net1 p he => rw [he] at m; exact ⟨es, m, hg⟩
  · next net1 he => rw [he] at m; exact ⟨es, m, hg⟩
  · next net1 url he =>
    rw [he] at m
    split_ifs
    · exact ⟨es, m, hg⟩
    · dsimp only []
      split
      · next net2 hd =>
        refine ⟨_, m.followedBy (Net.Do_exchanged hd), ?_⟩
        intro e he
        rcases List.mem_append.1 he with h1 | h1
        · exact hg e h1
        · simp at h1; rw [h1]
      · next net2 resp hd =>
        refine ⟨es ++ [(mainScriptRequest h url, some resp)], ?_, ?_⟩
        · split_ifs <;> (try split) <;> exact m.followedBy (Net.Do_exchanged hd)
        · intro e he
          rcases List.mem_append.1 he with h1 | h1
          · exact hg e h1
          · simp at h1; rw [h1]; rfl

theorem LoginFlow.solveJSInstrumentationChallenge_gets (f : LoginFlow) (ua : Str) (net : Net) :
    ∃ es, Net.Exchanged net (f.solveJSInstrumentationChallenge ua net).1 es ∧
      ∀ e ∈ es, e.1.Method = str "GET" := by
  unfold LoginFlow.solveJSInstrumentationChallenge
  split
  · exact ⟨[], Net.Exchanged.nothing net, by simp⟩
  · next first tl hs =>
    dsimp only []
    split
    · next net1 hd => exact ⟨_, Net.Do_exchanged hd, by simp⟩
    · next net1 resp hd =>
      have m1 := Net.Do_exchanged hd
      refine ⟨[({ Method := str "GET", URL := first.Url }, some resp)], ?_, by simp⟩
      split_ifs
      · exact m1
      · exact m1
      · split
        · next net2 hr => simpa using m1.followedBy (Net.Run_exchanged hr)
        · next net2 s j hr =>
          have := m1.followedBy (Net.Run_exchanged hr)
          split_ifs <;> simpa using this
        · next net2 d hr => simpa using m1.followedBy (Net.Run_exchanged hr)
        · next net2 v hr => simpa using m1.followedBy (Net.Run_exchanged hr)

theorem isOnboarding_get (q : Request) (h : q.Method = str "GET") : isOnboarding q = false := by
  have : str "GET" ≠ str "POST" := by decide
  simp [isOnboarding, h, this]

theorem not_rejected_of_get {e : Request × Option Response} (h : e.1.Method = str "GET") :
    ¬ Rejected e := by
  intro hr
  have h1 := hr.1
  rw [isOnboarding_get _ h] at h1
  exact absurd h1 (by simp)

theorem posts_gets {es : List (Request × Option Response)} (h : ∀ e ∈ es, e.1.Method = str "GET") :
    posts es = [] := by
  unfold posts
  rw [List.filter_eq_nil_iff]
  intro e he
  simp [isOnboarding_get _ (h e he)]

theorem posts_append (es fs : List (Request × Option Response)) :
    posts (es ++ fs) = posts es ++ posts fs := by
  simp [posts]

theorem posts_single {q : Request} (r : Option Response) (h : isOnboarding q = true) :
    posts [(q, r)] = [(q, r)] := by
  simp [posts, h]

theorem Reports.wrap {err : Error} {e : Request × Option Response} (text : Str)
    (h : Reports (some err) e) : Reports (some (.wrap text err)) e := by
  obtain ⟨err1, h1, h2⟩ := h
  simp only [Option.some.injEq] at h1
  subst h1
  refine ⟨_, rfl, ?_⟩
  intro resp hr hok
  obtain ⟨pre, h3⟩ := h2 resp hr hok
  refine ⟨text ++ pre, ?_⟩
  simp [Error.message, h3]

theorem StopsAtRejection.nil (o : Option Error) : StopsAtRejection [] o := by
  simp [StopsAtRejection]

theorem StopsAtRejection.of_none {es : List (Request × Option Response)} (o : Option Error)
    (h : ∀ e ∈ es, ¬ Rejected e) : StopsAtRejection es o :=
  ⟨fun e he => h e (List.mem_of_mem_dropLast he),
    fun e he hr => absurd hr (h e (List.mem_of_getLast?_eq_some he))⟩

theorem StopsAtRejection.mono {es : List (Request × Option Response)} {o o2 : Option Error}
    (h : StopsAtRejection es o) (hm : ∀ e, Reports o e → Reports o2 e) :
    StopsAtRejection es o2 :=
  ⟨h.1, fun e he hr => hm e (h.2 e he hr)⟩

theorem Reports.not_none {e : Request × Option Response} : ¬ Reports none e := by
  rintro ⟨err, h1, -⟩
  simp at h1

/-- A step that returned no error had no rejected exchange. -/
theorem StopsAtRejection.none_rejected {es : List (Request × Option Response)}
    (h : StopsAtRejection es none) : ∀ e ∈ es, ¬ Rejected e := by
  intro e he hr
  rcases List.eq_nil_or_concat es with rfl | ⟨l, b, rfl⟩
  · simp at he
  · rw [List.concat_eq_append] at he h
    rcases List.mem_append.1 he with h1 | h1
    · exact h.1 e (by simpa using h1) hr
    · simp at h1
      subst h1
      exact Reports.not_none (h.2 e (by simp) hr)

theorem StopsAtRejection.append {es fs : List (Request × Option Response)} {o : Option Error}
    (h1 : ∀ e ∈ es, ¬ Rejected e) (h2 : StopsAtRejection fs o) :
    StopsAtRejection (es ++ fs) o := by
  rcases List.eq_nil_or_concat fs with rfl | ⟨l, b, rfl⟩
  · rw [List.append_nil]
    exact StopsAtRejection.of_none o h1
  · rw [List.concat_eq_append] at h2 ⊢
    constructor
    · intro e he
      rw [← List.append_assoc, List.dropLast_concat] at he
      rcases List.mem_append.1 he with h | h
      · exact h1 e h
      · exact h2.1 e (by simpa using h)
    · intro e he
      apply h2.2 e
      rw [← List.append_assoc] at he
      simpa using he

/-- A step that sent requests for pages and then one onboarding POST. -/
theorem StopsAtRejection.gets_post {gets : List (Request × Option Response)} {q : Request}
    {r : Option Response} {o : Option Error} (hg : ∀ e ∈ gets, e.1.Method = str "GET")
    (h : Rejected (q, r) → Reports o (q, r)) : StopsAtRejection (gets ++ [(q, r)]) o := by
  apply StopsAtRejection.append (fun e he => not_rejected_of_get (hg e he))
  constructor
  · simp
  · intro e he
    simp at he
    subst he
    exact h

theorem harvestPieces_FlowToken (pieces : List Str) (f : LoginFlow) :
    (harvestPieces pieces f).FlowToken = f.FlowToken := by
  induction pieces generalizing f with
  | nil => rfl
  | cons p rest ih =>
    unfold harvestPieces
    dsimp only []
    rw [ih]
    split_ifs <;> rfl

theorem harvestLines_FlowToken (lines : List Str) (f : LoginFlow) :
    (harvestLines lines f).FlowToken = f.FlowToken := by
  induction lines generalizing f with
  | nil => rfl
  | cons l rest ih =>
    unfold harvestLines
    rw [ih, harvestPieces_FlowToken]

theorem isOnboarding_start (hd : List (Str × Str)) (b : Payload) :
    isOnboarding
      { Method := str "POST", URL := taskURL ++ str "?flow_name=login", Header := hd, Body := b }
      = true := by
  simp [isOnboarding]

theorem isOnboarding_task (hd : List (Str × Str)) (b : Payload) :
    isOnboarding { Method := str "POST", URL := taskURL, Header := hd, Body := b } = true := by
  simp [isOnboarding]

theorem Reports.unread (err : Error) (q : Request) (resp : Response)
    (h : (!resp.readOK) = true) : Reports (some err) (q, some resp) := by
  refine ⟨err, rfl, ?_⟩
  intro resp2 hr hok
  simp only [Option.some.injEq] at hr
  subst hr
  simp [hok] at h

theorem Reports.read (err : Error) (q : Request) (resp : Response) (text : Str)
    (h : err.message = text ++ strconv.Itoa resp.StatusCode ++ str " from " ++ q.URL
      ++ str ", raw body: " ++ resp.Body) : Reports (some err) (q, some resp) := by
  refine ⟨err, rfl, ?_⟩
  intro resp2 hr _
  simp only [Option.some.injEq] at hr
  subst hr
  exact ⟨text, h⟩

theorem Res.error?_ok {α : Type} (a : α) : (Res.ok a).error? = none := rfl

/-- The exchanges of StartLoginFlow: requests for pages, then at most the start request, which
is the last exchange; a flow that is returned has the flow token of its answer. -/
theorem Helicon.StartLoginFlow_exchanges (h : Helicon) (net net1 : Net) (res : Res LoginFlow)
    (hS : h.StartLoginFlow net = (net1, res)) :
    ∃ es, Net.Exchanged net net1 es ∧ StopsAtRejection es res.error? ∧
      ((posts es = [] ∧ ∀ f, res ≠ .ok f) ∨
        ∃ q r, posts es = [(q, r)] ∧ isStartRequest q = true ∧ stepOf q = 0 ∧
          ∀ f, res = .ok f → responseFlowToken r = some f.FlowToken) := by
  obtain ⟨es1, m1, g1⟩ := Helicon.FindAnonymousBearerToken_gets h net
  unfold Helicon.StartLoginFlow at hS
  have none1 : ∀ o, StopsAtRejection es1 o := fun o =>
    StopsAtRejection.of_none o (fun e he => not_rejected_of_get (g1 e he))
  split at hS
  · next na e he =>
    rw [he] at m1
    simp only [Prod.mk.injEq] at hS
    obtain ⟨rfl, rfl⟩ := hS
    exact ⟨es1, m1, none1 _, Or.inl ⟨posts_gets g1, by simp⟩⟩
  · next na p he =>
    rw [he] at m1
    simp only [Prod.mk.injEq] at hS
    obtain ⟨rfl, rfl⟩ := hS
    exact ⟨es1, m1, none1 _, Or.inl ⟨posts_gets g1, by simp⟩⟩
  · next na he =>
    rw [he] at m1
    simp only [Prod.mk.injEq] at hS
    obtain ⟨rfl, rfl⟩ := hS
    exact ⟨es1, m1, none1 _, Or.inl ⟨posts_gets g1, by simp⟩⟩
  · next na tok he =>
    rw [he] at m1
    obtain ⟨es2, m2, g2⟩ := Helicon.GenerateGuestToken_gets h na
    have g12 : ∀ e ∈ es1 ++ es2, e.1.Method = str "GET" := by
      intro e he
      rcases List.mem_append.1 he with h1 | h1
      · exact g1 e h1
      · exact g2 e h1
    have none12 : ∀ o, StopsAtRejection (es1 ++ es2) o := fun o =>
      StopsAtRejection.of_none o (fun e he => not_rejected_of_get (g12 e he))
    split at hS
    · next nb e hg =>
      rw [hg] at m2
      simp only [Prod.mk.injEq] at hS
      obtain ⟨rfl, rfl⟩ := hS
      exact ⟨es1 ++ es2, m1.followedBy m2, none12 _, Or.inl ⟨posts_gets g12, by simp⟩⟩
    · next nb p hg =>
      rw [hg] at m2
      simp only [Prod.mk.injEq] at hS
      obtain ⟨rfl, rfl⟩ := hS
      exact ⟨es1 ++ es2, m1.followedBy m2, none12 _, Or.inl ⟨posts_gets g12, by simp⟩⟩
    · next nb hg =>
      rw [hg] at m2
      simp only [Prod.mk.injEq] at hS
      obtain ⟨rfl, rfl⟩ := hS
      exact ⟨es1 ++ es2, m1.followedBy m2, none12 _, Or.inl ⟨posts_gets g12, by simp⟩⟩
    · next nb guest hg =>
      rw [hg] at m2
      dsimp only [] at hS
      set q0 : Request :=
        { Method := str "POST", URL := taskURL ++ str "?flow_name=login",
          Header := [(str "Authorization", tok), (str "x-guest-token", guest),
            (str "User-Agent", h.UserAgent), (str "Content-Type", str "application/json")],
          Body := .text startBody } with hq0
      have hstart : isStartRequest q0 = true := isStartRequest_start _ _
      have hstep : stepOf q0 = 0 := rfl
      have hposts : ∀ r : Option Response, posts ((es1 ++ es2) ++ [(q0, r)]) = [(q0, r)] := by
        intro r
        rw [posts_append, posts_gets g12, posts_single r (isOnboarding_start _ _)]
        rfl
      split at hS
      · next nc hd =>
        simp only [Prod.mk.injEq] at hS
        obtain ⟨rfl, rfl⟩ := hS
        refine ⟨_, (m1.followedBy m2).followedBy (Net.Do_exchanged hd), ?_,
          Or.inr ⟨q0, none, hposts _, hstart, hstep, ?_⟩⟩
        · apply StopsAtRejection.gets_post g12
          rintro ⟨-, resp, hr, -⟩
          simp at hr
        · intro f hf; simp at hf
      · next nc resp hd =>
        have mm := (m1.followedBy m2).followedBy (Net.Do_exchanged hd)
        split_ifs at hS with hread hstat
        · simp only [Prod.mk.injEq] at hS
          obtain ⟨rfl, rfl⟩ := hS
          refine ⟨_, mm, ?_, Or.inr ⟨q0, some resp, hposts _, hstart, hstep,
            by intro f hf; simp at hf⟩⟩
          apply StopsAtRejection.gets_post g12
          intro _
          exact Reports.unread _ _ _ hread
        · simp only [Prod.mk.injEq] at hS
          obtain ⟨rfl, rfl⟩ := hS
          refine ⟨_, mm, ?_, Or.inr ⟨q0, some resp, hposts _, hstart, hstep,
            by intro f hf; simp at hf⟩⟩
          apply StopsAtRejection.gets_post g12
          intro _
          exact Reports.read _ _ _ (str "unexpected status ") rfl
        · have hnr : ¬ Rejected (q0, some resp) := by
            rintro ⟨-, resp2, hr, hgt⟩
            simp only [Option.some.injEq] at hr
            subst hr
            exact hstat hgt
          split at hS
          · simp only [Prod.mk.injEq] at hS
            obtain ⟨rfl, rfl⟩ := hS
            exact ⟨_, mm, StopsAtRejection.gets_post g12 (fun hr => absurd hr hnr),
              Or.inr ⟨q0, some resp, hposts _, hstart, hstep, by intro f hf; simp at hf⟩⟩
          · next decoded hj =>
            simp only [Prod.mk.injEq] at hS
            obtain ⟨rfl, rfl⟩ := hS
            refine ⟨_, mm, StopsAtRejection.gets_post g12 (fun hr => absurd hr hnr),
              Or.inr ⟨q0, some resp, hposts _, hstart, hstep, ?_⟩⟩
            intro f hf
            simp only [Res.ok.injEq] at hf
            subst hf
            rw [harvestLines_FlowToken]
            simp [responseFlowToken, hj]

theorem taskPost_facts (na nc : Net) (hdr : List (Str × Str)) (b : Payload)
    (ans : Option Response)
    (hd : na.Do { Method := str "POST", URL := taskURL, Header := hdr, Body := b } = (nc, ans)) :
    ∃ q : Request, Net.Exchanged na nc [(q, ans)] ∧ isOnboarding q = true ∧
      isStartRequest q = false ∧ q.URL = taskURL ∧ q.Body = b :=
  ⟨_, Net.Do_exchanged hd, isOnboarding_task _ _, isStartRequest_task _ _, rfl, rfl⟩

theorem not_rejected_none (q : Request) : ¬ Rejected (q, none) := by
  rintro ⟨-, resp, hr, -⟩
  simp at hr

theorem not_rejected_status (q : Request) (resp : Response) (h : ¬ resp.StatusCode > 200) :
    ¬ Rejected (q, some resp) := by
  rintro ⟨-, resp2, hr, hgt⟩
  simp only [Option.some.injEq] at hr
  subst hr
  exact h hgt

/-- The exchanges of SolveAndSubmitJSChallenge: the request for the script, then at most the
challenge submission, which is the last exchange and carries the flow token of the flow. -/
theorem LoginFlow.SolveAndSubmitJSChallenge_exchanges (f : LoginFlow) (h : Helicon)
    (net net1 : Net) (res : Res LoginFlow)
    (hS : f.SolveAndSubmitJSChallenge h net = (net1, res)) :
    ∃ es, Net.Exchanged net net1 es ∧ StopsAtRejection es res.error? ∧
      ((posts es = [] ∧ ∀ f1, res ≠ .ok f1) ∨
        ∃ q r, posts es = [(q, r)] ∧ isStartRequest q = false ∧ stepOf q = 1 ∧
          q.Body.flowToken = some f.FlowToken ∧
          ∀ f1, res = .ok f1 → responseFlowToken r = some f1.FlowToken) := by
  obtain ⟨es1, m1, g1⟩ := LoginFlow.solveJSInstrumentationChallenge_gets f h.UserAgent net
  unfold LoginFlow.SolveAndSubmitJSChallenge at hS
  have none1 : ∀ o, StopsAtRejection es1 o := fun o =>
    StopsAtRejection.of_none o (fun e he => not_rejected_of_get (g1 e he))
  split at hS
  · next na e he =>
    rw [he] at m1
    simp only [Prod.mk.injEq] at hS
    obtain ⟨rfl, rfl⟩ := hS
    exact ⟨es1, m1, none1 _, Or.inl ⟨posts_gets g1, by simp⟩⟩
  · next na p he =>
    rw [he] at m1
    simp only [Prod.mk.injEq] at hS
    obtain ⟨rfl, rfl⟩ := hS
    exact ⟨es1, m1, none1 _, Or.inl ⟨posts_gets g1, by simp⟩⟩
  · next na he =>
    rw [he] at m1
    simp only [Prod.mk.injEq] at hS
    obtain ⟨rfl, rfl⟩ := hS
    exact ⟨es1, m1, none1 _, Or.inl ⟨posts_gets g1, by simp⟩⟩
  · next na sol isJSON he =>
    rw [he] at m1
    split_ifs at hS with hj
    · simp only [Prod.mk.injEq] at hS
      obtain ⟨rfl, rfl⟩ := hS
      exact ⟨es1, m1, none1 _, Or.inl ⟨posts_gets g1, by simp⟩⟩
    · dsimp only [] at hS
      split at hS
      · next nc hd =>
        obtain ⟨q0, ex, ho, hns, hurl, hb⟩ := taskPost_facts _ _ _ _ _ hd
        simp only [Prod.mk.injEq] at hS
        obtain ⟨rfl, rfl⟩ := hS
        refine ⟨_, m1.followedBy ex, StopsAtRejection.gets_post g1 (fun hr => absurd hr
          (not_rejected_none q0)), Or.inr ⟨q0, none, ?_, hns, ?_, ?_, ?_⟩⟩
        · rw [posts_append, posts_gets g1, posts_single _ ho]; rfl
        · simp [stepOf, hb]
        · simp [hb, Payload.flowToken]
        · intro f1 hf; simp at hf
      · next nc resp hd =>
        obtain ⟨q0, ex, ho, hns, hurl, hb⟩ := taskPost_facts _ _ _ _ _ hd
        have hposts : posts (es1 ++ [(q0, some resp)]) = [(q0, some resp)] := by
          rw [posts_append, posts_gets g1, posts_single _ ho]; rfl
        have hstep : stepOf q0 = 1 := by simp [stepOf, hb]
        have htok : q0.Body.flowToken = some f.FlowToken := by simp [hb, Payload.flowToken]
        split_ifs at hS with hread hstat
        · simp only [Prod.mk.injEq] at hS
          obtain ⟨rfl, rfl⟩ := hS
          exact ⟨_, m1.followedBy ex, StopsAtRejection.gets_post g1 (fun _ =>
            Reports.unread _ q0 resp hread),
            Or.inr ⟨q0, some resp, hposts, hns, hstep, htok, by intro f1 hf; simp at hf⟩⟩
        · simp only [Prod.mk.injEq] at hS
          obtain ⟨rfl, rfl⟩ := hS
          refine ⟨_, m1.followedBy ex, StopsAtRejection.gets_post g1 (fun _ => ?_),
            Or.inr ⟨q0, some resp, hposts, hns, hstep, htok, by intro f1 hf; simp at hf⟩⟩
          apply Reports.read _ _ _ (str "unexpected status code ")
          rw [hurl]
          rfl
        · split at hS
          · simp only [Prod.mk.injEq] at hS
            obtain ⟨rfl, rfl⟩ := hS
            exact ⟨_, m1.followedBy ex, StopsAtRejection.gets_post g1 (fun hr => absurd hr
              (not_rejected_status q0 resp hstat)),
              Or.inr ⟨q0, some resp, hposts, hns, hstep, htok, by intro f1 hf; simp at hf⟩⟩
          · next decoded hjs =>
            simp only [Prod.mk.injEq] at hS
            obtain ⟨rfl, rfl⟩ := hS
            refine ⟨_, m1.followedBy ex, StopsAtRejection.gets_post g1 (fun hr => absurd hr
              (not_rejected_status q0 resp hstat)),
              Or.inr ⟨q0, some resp, hposts, hns, hstep, htok, ?_⟩⟩
            intro f1 hf
            simp only [Res.ok.injEq] at hf
            subst hf
            simp [responseFlowToken, hjs]

theorem StopsAtRejection.single {q : Request} {r : Option Response} {o : Option Error}
    (h : Rejected (q, r) → Reports o (q, r)) : StopsAtRejection [(q, r)] o :=
  @StopsAtRejection.gets_post [] q r o (by simp) h

theorem StopsAtRejection.pair {q q2 : Request} {r r2 : Option Response} {o : Option Error}
    (h1 : ¬ Rejected (q, r)) (h : Rejected (q2, r2) → Reports o (q2, r2)) :
    StopsAtRejection [(q, r), (q2, r2)] o :=
  @StopsAtRejection.append [(q, r)] [(q2, r2)] o (by simpa using h1) (StopsAtRejection.single h)

/-- The exchanges of the two requests of SubmitUsernameAndPassword: the username submission,
which carries the flow token of the flow, and then at most the password submission, which
carries the flow token of the answer to the username submission. -/
theorem LoginFlow.submitCredentials_exchanges (f : LoginFlow) (h : Helicon)
    (net net1 : Net) (res : Res Helicon) (hS : f.submitCredentials h net = (net1, res)) :
    ∃ es, Net.Exchanged net net1 es ∧ StopsAtRejection es res.error? ∧
      ∃ q r, isStartRequest q = false ∧ stepOf q = 2 ∧ q.Body.flowToken = some f.FlowToken ∧
        ((posts es = [(q, r)] ∧ ∀ h1, res ≠ .ok h1) ∨
          ∃ q2 r2, posts es = [(q, r), (q2, r2)] ∧ isStartRequest q2 = false ∧ stepOf q2 = 3 ∧
            ∃ t, q2.Body.flowToken = some t ∧ responseFlowToken r = some t) := by
  unfold LoginFlow.submitCredentials at hS
  dsimp only [] at hS
  split at hS
  · next nc hd =>
    obtain ⟨q0, ex, ho, hns, hurl, hb⟩ := taskPost_facts _ _ _ _ _ hd
    simp only [Prod.mk.injEq] at hS
    obtain ⟨rfl, rfl⟩ := hS
    exact ⟨_, ex, StopsAtRejection.single (fun hr => absurd hr (not_rejected_none q0)),
      q0, none, hns, by simp [stepOf, hb], by simp [hb, Payload.flowToken],
      Or.inl ⟨posts_single _ ho, by simp⟩⟩
  · next nc resp hd =>
    obtain ⟨q0, ex, ho, hns, hurl, hb⟩ := taskPost_facts _ _ _ _ _ hd
    have hstep : stepOf q0 = 2 := by simp [stepOf, hb]
    have htok : q0.Body.flowToken = some f.FlowToken := by simp [hb, Payload.flowToken]
    split_ifs at hS with hread hstat
    · simp only [Prod.mk.injEq] at hS
      obtain ⟨rfl, rfl⟩ := hS
      exact ⟨_, ex, StopsAtRejection.single (fun _ => Reports.unread _ q0 resp hread),
        q0, some resp, hns, hstep, htok, Or.inl ⟨posts_single _ ho, by simp⟩⟩
    · simp only [Prod.mk.injEq] at hS
      obtain ⟨rfl, rfl⟩ := hS
      refine ⟨_, ex, StopsAtRejection.single (fun _ => ?_),
        q0, some resp, hns, hstep, htok, Or.inl ⟨posts_single _ ho, by simp⟩⟩
      apply Reports.read _ _ _ (str "unexpected status code ")
      rw [hurl]
      rfl
    · have hnr := not_rejected_status q0 resp hstat
      split at hS
      · simp only [Prod.mk.injEq] at hS
        obtain ⟨rfl, rfl⟩ := hS
        exact ⟨_, ex, StopsAtRejection.single (fun hr => absurd hr hnr),
          q0, some resp, hns, hstep, htok, Or.inl ⟨posts_single _ ho, by simp⟩⟩
      · next decoded hjs =>
        have hlink : ∀ q2 : Request,
            q2.Body = .password decoded.FlowToken (str "LoginEnterPassword")
              h.Credentials.Password (str "next_link") →
            stepOf q2 = 3 ∧
              ∃ t, q2.Body.flowToken = some t ∧ responseFlowToken (some resp) = some t := by
          intro q2 hb2
          exact ⟨by simp [stepOf, hb2], decoded.FlowToken, by simp [hb2, Payload.flowToken],
            by simp [responseFlowToken, hjs]⟩
        split at hS
        · next nd hd2 =>
          obtain ⟨q2, ex2, ho2, hns2, hurl2, hb2⟩ := taskPost_facts _ _ _ _ _ hd2
          simp only [Prod.mk.injEq] at hS
          obtain ⟨rfl, rfl⟩ := hS
          refine ⟨_, ex.followedBy ex2, StopsAtRejection.pair hnr (fun hr => absurd hr
            (not_rejected_none q2)), q0, some resp, hns, hstep, htok,
            Or.inr ⟨q2, none, ?_, hns2, (hlink q2 hb2).1, (hlink q2 hb2).2⟩⟩
          simp [posts, ho, ho2]
        · next nd resp2 hd2 =>
          obtain ⟨q2, ex2, ho2, hns2, hurl2, hb2⟩ := taskPost_facts _ _ _ _ _ hd2
          have hposts : posts ([(q0, some resp)] ++ [(q2, some resp2)]) =
              [(q0, some resp), (q2, some resp2)] := by
            simp [posts, ho, ho2]
          split_ifs at hS with hread2 hstat2
          · simp only [Prod.mk.injEq] at hS
            obtain ⟨rfl, rfl⟩ := hS
            exact ⟨_, ex.followedBy ex2, StopsAtRejection.pair hnr (fun _ =>
              Reports.unread _ q2 resp2 hread2), q0, some resp, hns, hstep, htok,
              Or.inr ⟨q2, some resp2, hposts, hns2, (hlink q2 hb2).1, (hlink q2 hb2).2⟩⟩
          · simp only [Prod.mk.injEq] at hS
            obtain ⟨rfl, rfl⟩ := hS
            refine ⟨_, ex.followedBy ex2, StopsAtRejection.pair hnr (fun _ => ?_),
              q0, some resp, hns, hstep, htok,
              Or.inr ⟨q2, some resp2, hposts, hns2, (hlink q2 hb2).1, (hlink q2 hb2).2⟩⟩
            apply Reports.read _ _ _ (str "unexpected status code ")
            rw [hurl2]
            rfl
          · simp only [Prod.mk.injEq] at hS
            obtain ⟨rfl, rfl⟩ := hS
            exact ⟨_, ex.followedBy ex2, StopsAtRejection.pair hnr (fun hr => absurd hr
              (not_rejected_status q2 resp2 hstat2)), q0, some resp, hns, hstep, htok,
              Or.inr ⟨q2, some resp2, hposts, hns2, (hlink q2 hb2).1, (hlink q2 hb2).2⟩⟩

/-! ## Lemmas: the exchanges of Login -/

theorem afterNestedLogin_net (r : Run) : (afterNestedLogin r).net = r.net := by
  rcases r with ⟨h, net, kr, u | e | p | _⟩
  · unfold afterNestedLogin
    simp only
    split <;> rfl
  · rfl
  · rfl
  · rfl

theorem afterNestedLogin_reports (r : Run) (e : Request × Option Response)
    (hr : Reports r.ret.error? e) : Reports (afterNestedLogin r).ret.error? e := by
  rcases r with ⟨h, net, kr, u | err | p | _⟩
  · exact absurd hr Reports.not_none
  · exact Reports.wrap _ hr
  · exact absurd hr Reports.not_none
  · exact absurd hr Reports.not_none

theorem StopsAtRejection.afterNestedLogin {es : List (Request × Option Response)} (r : Run)
    (h : StopsAtRejection es r.ret.error?) :
    StopsAtRejection es (afterNestedLogin r).ret.error? :=
  h.mono (afterNestedLogin_reports r)

theorem StopsAtRejection.wrapped {es : List (Request × Option Response)} {err : Error}
    (text : Str) (h : StopsAtRejection es (some err)) :
    StopsAtRejection es (some (.wrap text err)) :=
  h.mono (fun _ hr => Reports.wrap text hr)

theorem Follows.start (a b : Request × Option Response) (h : isStartRequest b.1 = true) :
    Follows a b := Or.inl h

theorem Follows.next {a b : Request × Option Response} {n : Nat} {t : Str}
    (ha : stepOf a.1 = n) (hb : stepOf b.1 = n + 1) (htok : b.1.Body.flowToken = some t)
    (hresp : responseFlowToken a.2 = some t) : Follows a b :=
  Or.inr ⟨by rw [ha, hb], t, htok, hresp⟩

/-- The exchanges of Login, whatever the world answers: no exchange but the last is a
rejected onboarding POST, a rejected last one is reported by the error returned, the
onboarding exchanges follow one another rightly, and the first of them starts a run of the
flow. -/
theorem Helicon.LoginFuel_exchanges (fuel : Nat) (h : Helicon) (net : Net) (kr : Keyring) :
    ∃ es, Net.Exchanged net (Helicon.LoginFuel fuel h net kr).net es ∧
      StopsAtRejection es (Helicon.LoginFuel fuel h net kr).ret.error? ∧
      List.Chain' Follows (posts es) ∧ ∀ e ∈ (posts es).head?, isStartRequest e.1 = true := by
  induction fuel generalizing h net kr with
  | zero =>
    exact ⟨[], Net.Exchanged.nothing net, StopsAtRejection.nil _, by simp [posts], by simp [posts]⟩
  | succ n ih =>
    rw [Helicon.LoginFuel_succ]
    rcases hS : h.StartLoginFlow net with ⟨net1, res1⟩
    obtain ⟨es1, ex1, sar1, hp1⟩ := Helicon.StartLoginFlow_exchanges h net net1 res1 hS
    have shape1 : List.Chain' Follows (posts es1) ∧
        ∀ e ∈ (posts es1).head?, isStartRequest e.1 = true := by
      rcases hp1 with ⟨hp, -⟩ | ⟨q, r, hp, hq, -, -⟩
      · rw [hp]; simp
      · rw [hp]; simp [hq]
    rcases res1 with flow | e | p | _
    · -- the start step returned a flow
      rcases hp1 with ⟨-, hno⟩ | ⟨qs, rs, hps, hqs, hss, hts⟩
      · exact absurd rfl (hno flow)
      have nr1 := StopsAtRejection.none_rejected sar1
      have hts := hts flow rfl
      simp only
      rcases hC : flow.SolveAndSubmitJSChallenge h net1 with ⟨net2, res2⟩
      obtain ⟨es2, ex2, sar2, hp2⟩ :=
        LoginFlow.SolveAndSubmitJSChallenge_exchanges flow h net1 net2 res2 hC
      have nr12 : StopsAtRejection es2 none → ∀ e ∈ es1 ++ es2, ¬ Rejected e := by
        intro hn e he
        rcases List.mem_append.1 he with h1 | h1
        · exact nr1 e h1
        · exact StopsAtRejection.none_rejected hn e h1
      have shape2 : List.Chain' Follows (posts (es1 ++ es2)) ∧
          ∀ e ∈ (posts (es1 ++ es2)).head?, isStartRequest e.1 = true := by
        rw [posts_append, hps]
        rcases hp2 with ⟨hp, -⟩ | ⟨qc, rc, hp, -, hsc, htc, -⟩
        · rw [hp]; simp [hqs]
        · rw [hp]
          refine ⟨?_, by simp [hqs]⟩
          simp only [List.singleton_append, List.chain'_cons, List.chain'_singleton, and_true]
          exact Follows.next hss hsc htc hts
      rcases res2 with flow1 | e | p | _
      · -- the challenge step returned
        rcases hp2 with ⟨-, hno⟩ | ⟨qc, rc, hpc, -, hsc, htc, htc2⟩
        · exact absurd rfl (hno flow1)
        have htc2 := htc2 flow1 rfl
        have nr2 := nr12 sar2
        simp only
        rcases hP : flow1.submitCredentials h net2 with ⟨net3, res3⟩
        obtain ⟨es3, ex3, sar3, qu, ru, -, hsu, htu, hp3⟩ :=
          LoginFlow.submitCredentials_exchanges flow1 h net2 net3 res3 hP
        have ex123 := (ex1.followedBy ex2).followedBy ex3
        have chain3 : List.Chain' Follows (posts ((es1 ++ es2) ++ es3)) ∧
            (∀ e ∈ (posts ((es1 ++ es2) ++ es3)).head?, isStartRequest e.1 = true) ∧
            ((posts ((es1 ++ es2) ++ es3)) ≠ []) := by
          rw [posts_append, posts_append, hps, hpc]
          rcases hp3 with ⟨hp, -⟩ | ⟨qp, rp, hp, -, hsp, t, htp, htp2⟩
          · rw [hp]
            refine ⟨?_, by simp [hqs], by simp⟩
            simp only [List.singleton_append, List.cons_append, List.nil_append,
              List.chain'_cons, List.chain'_singleton, and_true]
            exact ⟨Follows.next hss hsc htc hts, Follows.next hsc hsu htu htc2⟩
          · rw [hp]
            refine ⟨?_, by simp [hqs], by simp⟩
            simp only [List.singleton_append, List.cons_append, List.nil_append,
              List.chain'_cons, List.chain'_singleton, and_true]
            exact ⟨Follows.next hss hsc htc hts, Follows.next hsc hsu htu htc2,
              Follows.next hsu hsp htp htp2⟩
        rcases res3 with h1 | e | p | _
        · -- both credentials were accepted
          have nr3 : ∀ e ∈ (es1 ++ es2) ++ es3, ¬ Rejected e := by
            intro e he
            rcases List.mem_append.1 he with h1 | h1
            · exact nr2 e h1
            · exact StopsAtRejection.none_rejected sar3 e h1
          simp only
          split_ifs
          · obtain ⟨es4, ex4, sar4, ch4, hd4⟩ := ih h1 net3 kr
            refine ⟨((es1 ++ es2) ++ es3) ++ es4, ?_, ?_, ?_, ?_⟩
            · rw [afterNestedLogin_net]
              exact ex123.followedBy ex4
            · exact StopsAtRejection.afterNestedLogin _ (StopsAtRejection.append nr3 sar4)
            · rw [posts_append]
              apply List.Chain'.append chain3.1 ch4
              intro x _ y hy
              exact Follows.start x y (hd4 y hy)
            · rw [posts_append]
              intro e he
              apply chain3.2.1 e
              rcases hl : posts ((es1 ++ es2) ++ es3) with _ | ⟨a, l⟩
              · exact absurd hl chain3.2.2
              · rw [hl] at he
                simpa using he
          · refine ⟨(es1 ++ es2) ++ es3, ?_, ?_, chain3.1, chain3.2.1⟩
            · rw [afterNestedLogin_net]
              exact ex123
            · exact StopsAtRejection.of_none _ nr3
        · exact ⟨_, ex123, StopsAtRejection.append nr2 (StopsAtRejection.wrapped _ sar3),
            chain3.1, chain3.2.1⟩
        · exact ⟨_, ex123, StopsAtRejection.append nr2 sar3, chain3.1, chain3.2.1⟩
        · exact ⟨_, ex123, StopsAtRejection.append nr2 sar3, chain3.1, chain3.2.1⟩
      · exact ⟨_, ex1.followedBy ex2, StopsAtRejection.append nr1 (StopsAtRejection.wrapped _ sar2),
          shape2.1, shape2.2⟩
      · exact ⟨_, ex1.followedBy ex2, StopsAtRejection.append nr1 sar2, shape2.1, shape2.2⟩
      · exact ⟨_, ex1.followedBy ex2, StopsAtRejection.append nr1 sar2, shape2.1, shape2.2⟩
    · exact ⟨es1, ex1, StopsAtRejection.wrapped _ sar1, shape1.1, shape1.2⟩
    · exact ⟨es1, ex1, sar1, shape1.1, shape1.2⟩
    · exact ⟨es1, ex1, sar1, shape1.1, shape1.2⟩

theorem Res.error?_eq_some {α : Type} {r : Res α} {err : Error} (h : r.error? = some err) :
    r = .error err := by
  cases r <;> simp [Res.error?] at h
  rw [h]

/-! ## C11 -/

set_option maxRecDepth 1000000 in
/-- The onboarding exchanges of the happy path: the flow token of each request next to the
flow token of its answer. -/
theorem Helicon.Login_happyWorld_tokens :
    (posts (Net.exchanges happyWorld (alice.Login happyWorld {}).net)).map
        (fun e => (e.1.Body.flowToken, responseFlowToken e.2)) =
      [(none, some (str "T1")), (some (str "T1"), some (str "T2")),
       (some (str "T2"), some (str "T3")), (some (str "T3"), some (str "T4"))] := by
  decide

/-- C11. In every run of Login, whatever the world answers, the onboarding exchanges follow
one another rightly: each onboarding request either starts a run of the flow, or is the next
step after the onboarding request before it (the challenge after the start, the username
after the challenge, the password after the username) and carries as `flow_token` the flow
token of the answer to that request, the immediately preceding onboarding response; and the
first onboarding request of the run is a start request. -/
theorem C11_flow_token_of_previous_response (h : Helicon) (net : Net) (kr : Keyring) :
    List.Chain' Follows (posts (Net.exchanges net (h.Login net kr).net)) ∧
    ∀ e ∈ (posts (Net.exchanges net (h.Login net kr).net)).head?, isStartRequest e.1 = true := by
  obtain ⟨es, ex, -, hc, hd⟩ := Helicon.LoginFuel_exchanges (net.responses.length + 1) h net kr
  unfold Helicon.Login
  rw [ex.exchanges]
  exact ⟨hc, hd⟩

/-! ## C20 -/

/-- C20. In every run of Login, when one of the onboarding POSTs (start, challenge, username
or password) is answered with a status above 200, that exchange is the last one of the run,
no later request is sent, and Login returns an error; the message of the error ends with the
decimal status code, the address and the raw body of the answer, the body having been
read. -/
theorem C20_rejected_step_fails (h : Helicon) (net : Net) (kr : Keyring)
    (pre post : List (Request × Option Response)) (q : Request) (resp : Response)
    (hex : Net.exchanges net (h.Login net kr).net = pre ++ (q, some resp) :: post)
    (hq : isOnboarding q = true) (hstatus : resp.StatusCode > 200) :
    post = [] ∧
    ∃ err, (h.Login net kr).ret = .error err ∧
      (resp.readOK = true →
        ∃ text, err.message = text ++ strconv.Itoa resp.StatusCode ++ str " from " ++ q.URL
          ++ str ", raw body: " ++ resp.Body) := by
  obtain ⟨es, ex, sar, -, -⟩ := Helicon.LoginFuel_exchanges (net.responses.length + 1) h net kr
  unfold Helicon.Login at hex ⊢
  rw [ex.exchanges] at hex
  have hrej : Rejected (q, some resp) := ⟨hq, resp, rfl, hstatus⟩
  have hpost : post = [] := by
    by_contra hne
    apply sar.1 (q, some resp) _ hrej
    rw [hex]
    have e : pre ++ (q, some resp) :: post = (pre ++ [(q, some resp)]) ++ post := by simp
    rw [e, List.dropLast_append_of_ne_nil _ hne]
    simp
  subst hpost
  refine ⟨rfl, ?_⟩
  obtain ⟨err, h1, h2⟩ := sar.2 (q, some resp) (by rw [hex]; simp) hrej
  exact ⟨err, Res.error?_eq_some h1, fun hok => h2 resp rfl hok⟩

set_option maxRecDepth 1000000 in
/-- Witness of C20: the username submission is answered with status 403 and the body
`{"errors":1}`. -/
theorem C20_rejected_step_fails_witness :
    (Net.exchanges usernameRejectedWorld (alice.Login usernameRejectedWorld {}).net =
        (Net.exchanges usernameRejectedWorld (alice.Login usernameRejectedWorld {}).net).take 6
          ++ (usernameRequest, some forbiddenResponse) :: [] ∧
      isOnboarding usernameRequest = true ∧ forbiddenResponse.StatusCode > 200) ∧
    ∃ err, (alice.Login usernameRejectedWorld {}).ret = .error err ∧
      (forbiddenResponse.readOK = true →
        ∃ text, err.message = text ++ str "403" ++ str " from " ++ taskURL
          ++ str ", raw body: " ++ str "\x7b\x22errors\x22:1\x7d") :=
  have hex : Net.exchanges usernameRejectedWorld (alice.Login usernameRejectedWorld {}).net =
      (Net.exchanges usernameRejectedWorld (alice.Login usernameRejectedWorld {}).net).take 6
        ++ (usernameRequest, some forbiddenResponse) :: [] := by decide
  ⟨⟨hex, by decide, by decide⟩,
    (C20_rejected_step_fails alice usernameRejectedWorld {} _ [] usernameRequest
      forbiddenResponse hex (by decide) (by decide)).2⟩

/-! ## C21 -/

/-- C21, the code for every answer to the request of hitApi. The test of the status is
`resp.StatusCode > 200`: hitApi returns the raw body and no error if and only if the status
is not above 200, and so also for a status below 200, which is not 200; for a status above
200 it returns no body and an error whose message carries the decimal status code and the
body. -/
theorem C21_body_iff_status_at_most_200 (h : Helicon) (uri : Str) (net net1 : Net)
    (resp : Response) (hurl : url.Parse uri = true)
    (hdo : net.Do (apiRequest h uri) = (net1, some resp)) :
    ((h.hitApi uri net).2 = .ok resp.Body ↔ resp.StatusCode ≤ 200) ∧
    (resp.StatusCode > 200 →
      (h.hitApi uri net).2 = .error (.msg (str "unexpected status code "
        ++ strconv.Itoa resp.StatusCode ++ str " from with body " ++ resp.Body))) := by
  unfold apiRequest at hdo
  unfold Helicon.hitApi
  simp only [hurl, hdo, Bool.not_true, Bool.false_eq_true, if_false]
  by_cases hs : resp.StatusCode > 200
  · simp [hs]
  · simp [hs, Nat.not_lt.1 hs]

set_option maxRecDepth 100000 in
/-- Witness of C21, the failing input: the answer with status 101 and the body `up`. The
status is not 200, and hitApi returns the body and no error. -/
theorem C21_body_iff_status_at_most_200_witness :
    (url.Parse apiURL = true ∧ switchingResponse.StatusCode = 101 ∧
      switchingResponse.Body = str "up") ∧
    (aliceLoggedIn.hitApi apiURL (apiWorld switchingResponse)).2 = .ok (str "up") :=
  ⟨⟨by decide, by decide, by decide⟩,
    (C21_body_iff_status_at_most_200 aliceLoggedIn apiURL (apiWorld switchingResponse)
      ((apiWorld switchingResponse).Do (apiRequest aliceLoggedIn apiURL)).1
      switchingResponse (by decide) (by decide)).1.2 (by decide)⟩

/-! ## Lemmas: the headers of a request -/

theorem http.Header.lookup_removed (hd : List (Str × Str)) (key : Str) :
    (hd.filter (fun e => e.1 ≠ key)).lookup key = none := by
  induction hd with
  | nil => rfl
  | cons e rest ih =>
    by_cases h : e.1 = key
    · simpa [List.filter_cons, h] using ih
    · have hk : (key == e.1) = false := by
        simp only [beq_eq_false_iff_ne, ne_eq]
        exact fun c => h c.symm
      rcases e with ⟨a, b⟩
      simp only [List.filter_cons, h, ne_eq, not_false_eq_true, decide_True, if_true,
        List.lookup_cons, hk]
      simpa using ih

theorem http.Header.lookup_kept (hd : List (Str × Str)) (key other : Str)
    (hne : other ≠ key) :
    (hd.filter (fun e => e.1 ≠ key)).lookup other = hd.lookup other := by
  induction hd with
  | nil => rfl
  | cons e rest ih =>
    rcases e with ⟨a, b⟩
    by_cases h : a = key
    · subst h
      have hk : (other == a) = false := by simpa using hne
      have e : ((a, b) :: rest).filter (fun e => e.1 ≠ a) = rest.filter (fun e => e.1 ≠ a) := by
        simp [List.filter_cons]
      rw [e, ih, List.lookup_cons, hk]
    · simp only [List.filter_cons, h, ne_eq, not_false_eq_true, decide_True, if_true,
        List.lookup_cons]
      cases (other == a)
      · simpa using ih
      · rfl

theorem lookup_append_single (hd : List (Str × Str)) (key value other : Str) :
    (hd ++ [(key, value)]).lookup other =
      match hd.lookup other with
      | some v => some v
      | none => if other = key then some value else none := by
  induction hd with
  | nil =>
    by_cases h : other = key
    · simp [List.lookup, h]
    · have hk : (other == key) = false := by simpa using h
      simp [List.lookup, h, hk]
  | cons e rest ih =>
    rcases e with ⟨a, b⟩
    simp only [List.cons_append, List.lookup_cons]
    cases (other == a)
    · simpa using ih
    · rfl

theorem http.Header.Get_of_Set (hd : List (Str × Str)) (key value : Str) :
    http.Header.Get (http.Header.Set hd key value) key = value := by
  unfold http.Header.Get http.Header.Set
  rw [lookup_append_single, http.Header.lookup_removed]
  simp

theorem http.Header.Get_past_Set (hd : List (Str × Str)) (key value other : Str)
    (hne : other ≠ key) :
    http.Header.Get (http.Header.Set hd key value) other = http.Header.Get hd other := by
  unfold http.Header.Get http.Header.Set
  rw [lookup_append_single, http.Header.lookup_kept _ _ _ hne]
  cases hd.lookup other <;> simp [hne]

/-! ## C22 -/

/-- C22. For every client and every request, after setCommonHeaders the request has the
headers Authorization = Cookies.BearerToken as it is, X-Csrf-Token = CSRFToken.Value,
X-Twitter-Auth-Type = `OAuth2Session`, X-Twitter-Active-User = `yes`,
X-Twitter-Client-Language = `en`, Cookie = `auth_token=`, AuthToken.Value, `; ct0=`,
CSRFToken.Value, Accept = `*/*` and User-Agent = UserAgent; the value after `ct0=` in the
Cookie header is the value of the X-Csrf-Token header; method, address and body are as they
were. -/
theorem C22_common_headers (h : Helicon) (req : Request) :
    http.Header.Get (h.setCommonHeaders req).Header (str "Authorization") = h.Cookies.BearerToken ∧
    http.Header.Get (h.setCommonHeaders req).Header (str "X-Csrf-Token")
      = h.Cookies.CSRFToken.Value ∧
    http.Header.Get (h.setCommonHeaders req).Header (str "X-Twitter-Auth-Type")
      = str "OAuth2Session" ∧
    http.Header.Get (h.setCommonHeaders req).Header (str "X-Twitter-Active-User") = str "yes" ∧
    http.Header.Get (h.setCommonHeaders req).Header (str "X-Twitter-Client-Language") = str "en" ∧
    http.Header.Get (h.setCommonHeaders req).Header (str "Cookie")
      = str "auth_token=" ++ h.Cookies.AuthToken.Value ++ str "; ct0=" ++ h.Cookies.CSRFToken.Value ∧
    http.Header.Get (h.setCommonHeaders req).Header (str "Accept") = str "*/*" ∧
    http.Header.Get (h.setCommonHeaders req).Header (str "User-Agent") = h.UserAgent ∧
    http.Header.Get (h.setCommonHeaders req).Header (str "Cookie")
      = str "auth_token=" ++ h.Cookies.AuthToken.Value ++ str "; ct0="
        ++ http.Header.Get (h.setCommonHeaders req).Header (str "X-Csrf-Token") ∧
    (h.setCommonHeaders req).Method = req.Method ∧ (h.setCommonHeaders req).URL = req.URL ∧
    (h.setCommonHeaders req).Body = req.Body := by
  have k1 : http.Header.Get (h.setCommonHeaders req).Header (str "X-Csrf-Token")
      = h.Cookies.CSRFToken.Value := by
    unfold Helicon.setCommonHeaders
    dsimp only []
    rw [http.Header.Get_past_Set _ _ _ _ (by decide), http.Header.Get_past_Set _ _ _ _ (by decide),
      http.Header.Get_past_Set _ _ _ _ (by decide), http.Header.Get_past_Set _ _ _ _ (by decide),
      http.Header.Get_past_Set _ _ _ _ (by decide), http.Header.Get_past_Set _ _ _ _ (by decide),
      http.Header.Get_of_Set]
  have k2 : http.Header.Get (h.setCommonHeaders req).Header (str "Cookie")
      = str "auth_token=" ++ h.Cookies.AuthToken.Value ++ str "; ct0=" ++ h.Cookies.CSRFToken.Value := by
    unfold Helicon.setCommonHeaders
    dsimp only []
    rw [http.Header.Get_past_Set _ _ _ _ (by decide), http.Header.Get_past_Set _ _ _ _ (by decide),
      http.Header.Get_of_Set]
  refine ⟨?_, k1, ?_, ?_, ?_, k2, ?_, ?_, ?_, rfl, rfl, rfl⟩
  · unfold Helicon.setCommonHeaders
    dsimp only []
    rw [http.Header.Get_past_Set _ _ _ _ (by decide), http.Header.Get_past_Set _ _ _ _ (by decide),
      http.Header.Get_past_Set _ _ _ _ (by decide), http.Header.Get_past_Set _ _ _ _ (by decide),
      http.Header.Get_past_Set _ _ _ _ (by decide), http.Header.Get_past_Set _ _ _ _ (by decide),
      http.Header.Get_past_Set _ _ _ _ (by decide), http.Header.Get_of_Set]
  · unfold Helicon.setCommonHeaders
    dsimp only []
    rw [http.Header.Get_past_Set _ _ _ _ (by decide), http.Header.Get_past_Set _ _ _ _ (by decide),
      http.Header.Get_past_Set _ _ _ _ (by decide), http.Header.Get_past_Set _ _ _ _ (by decide),
      http.Header.Get_past_Set _ _ _ _ (by decide), http.Header.Get_of_Set]
  · unfold Helicon.setCommonHeaders
    dsimp only []
    rw [http.Header.Get_past_Set _ _ _ _ (by decide), http.Header.Get_past_Set _ _ _ _ (by decide),
      http.Header.Get_past_Set _ _ _ _ (by decide), http.Header.Get_past_Set _ _ _ _ (by decide),
      http.Header.Get_of_Set]
  · unfold Helicon.setCommonHeaders
    dsimp only []
    rw [http.Header.Get_past_Set _ _ _ _ (by decide), http.Header.Get_past_Set _ _ _ _ (by decide),
      http.Header.Get_past_Set _ _ _ _ (by decide), http.Header.Get_of_Set]
  · unfold Helicon.setCommonHeaders
    dsimp only []
    rw [http.Header.Get_past_Set _ _ _ _ (by decide), http.Header.Get_of_Set]
  · unfold Helicon.setCommonHeaders
    dsimp only []
    rw [http.Header.Get_of_Set]
  · rw [k2, k1]

/-! ## Lemmas: the requests of the challenge step -/

theorem Net.Exchanged.sentSince {a b : Net} {es : List (Request × Option Response)}
    (h : Net.Exchanged a b es) : Net.sentSince a b = es.map Prod.fst := by
  unfold Net.sentSince
  rw [h.1]
  simp

/-- Every request of SolveAndSubmitJSChallenge is the request for the script or the challenge
submission for the payload that the evaluation gave. -/
theorem LoginFlow.SolveAndSubmitJSChallenge_requests (f : LoginFlow) (h : Helicon)
    (net net1 : Net) (res : Res LoginFlow)
    (hS : f.SolveAndSubmitJSChallenge h net = (net1, res)) :
    ∀ q ∈ Net.sentSince net net1,
      q.Method = str "GET" ∨
        ∃ s na, f.solveJSInstrumentationChallenge h.UserAgent net = (na, .ok (s, true)) ∧
          q = challengeRequest f s := by
  obtain ⟨es1, m1, g1⟩ := LoginFlow.solveJSInstrumentationChallenge_gets f h.UserAgent net
  have hg : ∀ q ∈ es1.map Prod.fst, q.Method = str "GET" := by
    intro q hq
    obtain ⟨e, he, rfl⟩ := List.mem_map.1 hq
    exact g1 e he
  have only1 : ∀ na, Net.Exchanged net na es1 → ∀ q ∈ Net.sentSince net na,
      q.Method = str "GET" ∨
        ∃ s na, f.solveJSInstrumentationChallenge h.UserAgent net = (na, .ok (s, true)) ∧
          q = challengeRequest f s := by
    intro na m q hq
    rw [m.sentSince] at hq
    exact Or.inl (hg q hq)
  unfold LoginFlow.SolveAndSubmitJSChallenge at hS
  split at hS
  · next na e he =>
    rw [he] at m1
    simp only [Prod.mk.injEq] at hS
    obtain ⟨rfl, rfl⟩ := hS
    exact only1 _ m1
  · next na p he =>
    rw [he] at m1
    simp only [Prod.mk.injEq] at hS
    obtain ⟨rfl, rfl⟩ := hS
    exact only1 _ m1
  · next na he =>
    rw [he] at m1
    simp only [Prod.mk.injEq] at hS
    obtain ⟨rfl, rfl⟩ := hS
    exact only1 _ m1
  · next na sol isJSON he =>
    rw [he] at m1
    split_ifs at hS with hj
    · simp only [Prod.mk.injEq] at hS
      obtain ⟨rfl, rfl⟩ := hS
      exact only1 _ m1
    · have hjt : isJSON = true := by simpa using hj
      subst hjt
      dsimp only [] at hS
      have key : ∀ (nc : Net) (ans : Option Response),
          na.Do (challengeRequest f sol) = (nc, ans) →
          ∀ q ∈ Net.sentSince net nc, q.Method = str "GET" ∨
            ∃ s na, f.solveJSInstrumentationChallenge h.UserAgent net = (na, .ok (s, true)) ∧
              q = challengeRequest f s := by
        intro nc ans hd q hq
        rw [(m1.followedBy (Net.Do_exchanged hd)).sentSince] at hq
        simp only [List.map_append, List.map_cons, List.map_nil, List.mem_append,
          List.mem_singleton] at hq
        rcases hq with hq | hq
        · exact Or.inl (hg q hq)
        · exact Or.inr ⟨sol, na, he, hq⟩
      split at hS
      · next nc hd =>
        simp only [Prod.mk.injEq] at hS
        obtain ⟨rfl, rfl⟩ := hS
        exact key _ none hd
      · next nc resp hd =>
        have hk := key nc (some resp) hd
        have hn : net1 = nc := by
          split_ifs at hS
          · exact (Prod.mk.inj hS).1.symm
          · exact (Prod.mk.inj hS).1.symm
          · split at hS <;> exact (Prod.mk.inj hS).1.symm
        rw [hn]
        exact hk

/-! ## C23 -/

/-- C23. For every login flow, and so for the one the start step produced with the guest
token `g` and the harvested values `a`, `i` and `c`, the challenge submission that
SolveAndSubmitJSChallenge sends, its one POST, has the Cookie header
`gt=g; att=a; guest_id_ads=i; guest_id_marketing=i; guest_id=i; __cf_bm=c`. -/
theorem C23_challenge_cookie_header (f : LoginFlow) (h : Helicon) (net : Net) (q : Request)
    (hq : q ∈ Net.sentSince net (f.SolveAndSubmitJSChallenge h net).1)
    (hpost : q.Method = str "POST") :
    q.Header.lookup (str "Cookie") =
      some (str "gt=" ++ f.GuestToken ++ str "; att=" ++ f.Att ++ str "; guest_id_ads="
        ++ f.GuestId ++ str "; guest_id_marketing=" ++ f.GuestId ++ str "; guest_id="
        ++ f.GuestId ++ str "; __cf_bm=" ++ f.CFBM) := by
  rcases LoginFlow.SolveAndSubmitJSChallenge_requests f h net _ _ rfl q hq with
    hg | ⟨s, na, -, rfl⟩
  · rw [hg] at hpost
    exact absurd hpost (by decide)
  · unfold challengeRequest
    simp only [List.lookup]
    have d1 : (str "Cookie" == str "Authorization") = false := by decide
    have d2 : (str "Cookie" == str "User-Agent") = false := by decide
    have d3 : (str "Cookie" == str "x-twitter-active-user") = false := by decide
    have d4 : (str "Cookie" == str "x-twitter-client-language") = false := by decide
    have d5 : (str "Cookie" == str "x-guest-token") = false := by decide
    have d6 : (str "Cookie" == str "Cookie") = true := by decide
    simp only [d1, d2, d3, d4, d5, d6]

set_option maxRecDepth 1000000 in
/-- Witness of C23: the challenge step of the happy path. -/
theorem C23_challenge_cookie_header_witness :
    (challengeRequest startedFlow (str "\x7b\x22rf\x22:1\x7d") ∈
        Net.sentSince challengeWorld (startedFlow.SolveAndSubmitJSChallenge alice challengeWorld).1 ∧
      (challengeRequest startedFlow (str "\x7b\x22rf\x22:1\x7d")).Method = str "POST") ∧
    (challengeRequest startedFlow (str "\x7b\x22rf\x22:1\x7d")).Header.lookup (str "Cookie") =
      some (str ("gt=1234567; att=1-abc; guest_id_ads=v1%3A17; guest_id_marketing=v1%3A17; "
        ++ "guest_id=v1%3A17; __cf_bm=xyz")) :=
  ⟨⟨by decide, by decide⟩,
    C23_challenge_cookie_header startedFlow alice challengeWorld
      (challengeRequest startedFlow (str "\x7b\x22rf\x22:1\x7d")) (by decide) (by decide)⟩

/-! ## Lemmas: the requests of the username and the password step -/

/-- Every request of SubmitUsernameAndPassword in front of the check of the CSRF cookie is
the username submission or a password submission. -/
theorem LoginFlow.submitCredentials_requests (f : LoginFlow) (h : Helicon) (net net1 : Net)
    (res : Res Helicon) (hS : f.submitCredentials h net = (net1, res)) :
    ∀ q ∈ Net.sentSince net net1,
      q = submitUsernameRequest f h ∨ ∃ t, q = submitPasswordRequest f h t := by
  unfold LoginFlow.submitCredentials at hS
  dsimp only [] at hS
  have one : ∀ (nc : Net) (ans : Option Response),
      net.Do (submitUsernameRequest f h) = (nc, ans) →
      ∀ q ∈ Net.sentSince net nc,
        q = submitUsernameRequest f h ∨ ∃ t, q = submitPasswordRequest f h t := by
    intro nc ans hd q hq
    rw [(Net.Do_exchanged hd).sentSince] at hq
    simp only [List.map_cons, List.map_nil, List.mem_singleton] at hq
    exact Or.inl hq
  have two : ∀ (nc nd : Net) (ans ans2 : Option Response) (t : Str),
      net.Do (submitUsernameRequest f h) = (nc, ans) →
      nc.Do (submitPasswordRequest f h t) = (nd, ans2) →
      ∀ q ∈ Net.sentSince net nd,
        q = submitUsernameRequest f h ∨ ∃ t, q = submitPasswordRequest f h t := by
    intro nc nd ans ans2 t hd hd2 q hq
    rw [((Net.Do_exchanged hd).followedBy (Net.Do_exchanged hd2)).sentSince] at hq
    simp only [List.map_cons, List.map_nil, List.cons_append, List.nil_append, List.mem_cons,
      List.mem_singleton, List.not_mem_nil, or_false] at hq
    rcases hq with hq | hq
    · exact Or.inl hq
    · exact Or.inr ⟨t, hq⟩
  split at hS
  · next nc hd =>
    simp only [Prod.mk.injEq] at hS
    obtain ⟨rfl, rfl⟩ := hS
    exact one _ none hd
  · next nc resp hd =>
    split_ifs at hS with hread hstat
    · simp only [Prod.mk.injEq] at hS
      obtain ⟨rfl, rfl⟩ := hS
      exact one _ _ hd
    · simp only [Prod.mk.injEq] at hS
      obtain ⟨rfl, rfl⟩ := hS
      exact one _ _ hd
    · split at hS
      · simp only [Prod.mk.injEq] at hS
        obtain ⟨rfl, rfl⟩ := hS
        exact one _ _ hd
      · next decoded hjs =>
        split at hS
        · next nd hd2 =>
          simp only [Prod.mk.injEq] at hS
          obtain ⟨rfl, rfl⟩ := hS
          exact two _ _ _ _ decoded.FlowToken hd hd2
        · next nd resp2 hd2 =>
          have hk := two _ _ _ _ decoded.FlowToken hd hd2
          have hn : net1 = nd := by
            split_ifs at hS <;> exact (Prod.mk.inj hS).1.symm
          rw [hn]
          exact hk

theorem credentialsHeader_Cookie (f : LoginFlow) :
    (credentialsHeader f).lookup (str "Cookie") =
      some (str "gt=" ++ f.GuestToken ++ str "; att=" ++ f.Att ++ str "; guest_id_ads="
        ++ f.GuestId ++ str "; guest_id_marketing=" ++ f.GuestId ++ str "; guest_id="
        ++ f.GuestId) := by
  unfold credentialsHeader
  simp only [List.lookup]
  have d1 : (str "Cookie" == str "Authorization") = false := by decide
  have d2 : (str "Cookie" == str "User-Agent") = false := by decide
  have d3 : (str "Cookie" == str "x-twitter-active-user") = false := by decide
  have d4 : (str "Cookie" == str "x-twitter-client-language") = false := by decide
  have d5 : (str "Cookie" == str "x-guest-token") = false := by decide
  have d6 : (str "Cookie" == str "Cookie") = true := by decide
  simp only [d1, d2, d3, d4, d5, d6]

/-! ## C24 -/

/-- C24, the code for every flow. The username submission and the password submission that
SubmitUsernameAndPassword sends both have the Cookie header
`gt=<guest_token>; att=<att>; guest_id_ads=<guest_id>; guest_id_marketing=<guest_id>;
guest_id=<guest_id>`: without `; __cf_bm=<cfbm>` at its end, whatever was harvested at the
start step, and so never the header that the challenge submission carries. -/
theorem C24_credentials_cookie_header_lacks_cfbm (f : LoginFlow) (h : Helicon) (net : Net)
    (q : Request) (hq : q ∈ Net.sentSince net (f.submitCredentials h net).1) :
    q.Header.lookup (str "Cookie") =
      some (str "gt=" ++ f.GuestToken ++ str "; att=" ++ f.Att ++ str "; guest_id_ads="
        ++ f.GuestId ++ str "; guest_id_marketing=" ++ f.GuestId ++ str "; guest_id="
        ++ f.GuestId) ∧
    q.Header.lookup (str "Cookie") ≠ some (accumulatedCookies f) := by
  have hc : q.Header.lookup (str "Cookie") =
      some (str "gt=" ++ f.GuestToken ++ str "; att=" ++ f.Att ++ str "; guest_id_ads="
        ++ f.GuestId ++ str "; guest_id_marketing=" ++ f.GuestId ++ str "; guest_id="
        ++ f.GuestId) := by
    rcases LoginFlow.submitCredentials_requests f h net _ _ rfl q hq with rfl | ⟨t, rfl⟩
    · exact credentialsHeader_Cookie f
    · exact credentialsHeader_Cookie f
  refine ⟨hc, ?_⟩
  rw [hc]
  intro he
  simp only [Option.some.injEq] at he
  have hl := congrArg List.length he
  unfold accumulatedCookies at hl
  have h10 : (str "; __cf_bm=").length = 10 := by decide
  simp only [List.length_append, h10] at hl
  omega

set_option maxRecDepth 1000000 in
/-- Witness of C24: the last step of the happy path, with `xyz` harvested as `__cf_bm`. -/
theorem C24_credentials_cookie_header_lacks_cfbm_witness :
    (submitUsernameRequest challengedFlow alice ∈
        Net.sentSince lastStepWorld (challengedFlow.submitCredentials alice lastStepWorld).1 ∧
      challengedFlow.CFBM = str "xyz") ∧
    (submitUsernameRequest challengedFlow alice).Header.lookup (str "Cookie") =
      some (str ("gt=1234567; att=1-abc; guest_id_ads=v1%3A17; guest_id_marketing=v1%3A17; "
        ++ "guest_id=v1%3A17")) :=
  ⟨⟨by decide, by decide⟩,
    (C24_credentials_cookie_header_lacks_cfbm challengedFlow alice lastStepWorld
      (submitUsernameRequest challengedFlow alice) (by decide)).1⟩

/-! ## C25 -/

/-- C25. When solveJSInstrumentationChallenge has fetched the script and the evaluation in the
browser has handed back the value `v`: if `v` is a string of length at least 1 the call
returns exactly that string; if `v` is not a string, or is the empty string, the call returns
an error; and a payload is returned only in the first case. -/
theorem C25_payload_is_nonempty_string (f : LoginFlow) (ua : Str) (net net1 net2 : Net)
    (first : Subtask) (rest : List Subtask) (resp : Response) (v : JSValue)
    (hsub : f.Subtasks = first :: rest)
    (hdo : net.Do { Method := str "GET", URL := first.Url } = (net1, some resp))
    (hstatus : resp.StatusCode ≤ 200) (hread : resp.readOK = true)
    (hrun : net1.Run = (net2, some v)) :
    (∀ s j, v = .string s j → s ≠ [] →
      f.solveJSInstrumentationChallenge ua net = (net2, .ok (s, j))) ∧
    ((¬ ∃ s j, v = .string s j ∧ s ≠ []) →
      ∃ e, f.solveJSInstrumentationChallenge ua net = (net2, .error e)) ∧
    (∀ s j, (f.solveJSInstrumentationChallenge ua net).2 = .ok (s, j) →
      v = .string s j ∧ s ≠ []) := by
  have hns : ¬ resp.StatusCode > 200 := Nat.not_lt.2 hstatus
  unfold LoginFlow.solveJSInstrumentationChallenge
  rw [hsub]
  simp only [hdo, hns, hread, hrun, if_false, Bool.not_true, Bool.false_eq_true]
  rcases v with ⟨s, j⟩ | ⟨_ | d⟩ | _
  · by_cases hs : s = []
    · simp [hs]
    · simp [hs]
  · simp
  · simp
  · simp

set_option maxRecDepth 1000000 in
/-- Witness of C25: the challenge of the happy path. -/
theorem C25_payload_is_nonempty_string_witness :
    (startedFlow.Subtasks = [instrumentationSubtask] ∧ scriptResponse.StatusCode ≤ 200) ∧
    (startedFlow.solveJSInstrumentationChallenge (str "UA") challengeWorld).2 =
      .ok (str "\x7b\x22rf\x22:1\x7d", true) :=
  ⟨⟨by decide, by decide⟩,
    congrArg Prod.snd
      ((C25_payload_is_nonempty_string startedFlow (str "UA") challengeWorld
        (challengeWorld.Do scriptRequest).1 (challengeWorld.Do scriptRequest).1.Run.1
        instrumentationSubtask [] scriptResponse (.string (str "\x7b\x22rf\x22:1\x7d") true)
        (by decide) (by decide) (by decide) (by decide) (by decide)).1
        (str "\x7b\x22rf\x22:1\x7d") true rfl (by decide))⟩

/-! ## C26 -/

set_option maxRecDepth 1000000 in
/-- Counterexample to C26 as stated: the executor returns the non-empty payload `abc`, which
is no JSON; SolveAndSubmitJSChallenge returns an error and sends no body at all: its only
request is the one for the script. -/
theorem C26_counterexample :
    (startedFlow.solveJSInstrumentationChallenge (str "UA") challengeWorldNoJSON).2 =
      .ok (str "abc", false) ∧
    (startedFlow.SolveAndSubmitJSChallenge alice challengeWorldNoJSON).2 =
      .error (.wrap (str "failed to decode challenge solution, ") (.lib (str "encoding/json"))) ∧
    (Net.sentSince challengeWorldNoJSON
      (startedFlow.SolveAndSubmitJSChallenge alice challengeWorldNoJSON).1).map
        (fun q => q.Method) = [str "GET"] := by
  decide

/-- C26, amended. For every non-empty payload string `s` returned by the challenge executor
that `encoding/json` can decode, SolveAndSubmitJSChallenge sends one request after it, a POST
to the task endpoint whose body is the encoding of a SubmitJSChallengeRequest with
`flow_token` the current flow token and the single `subtask_inputs` entry with `subtask_id`
`LoginJsInstrumentationSubtask`, `js_instrumentation.link` `next_link` and, as the string
field `js_instrumentation.response`, exactly `s`; for a payload that `encoding/json` cannot
decode it returns an error and sends nothing. -/
theorem C26_challenge_body (f : LoginFlow) (h : Helicon) (net na : Net) (s : Str) (j : Bool)
    (hsolve : f.solveJSInstrumentationChallenge h.UserAgent net = (na, .ok (s, j))) :
    s ≠ [] ∧
    (j = true →
      ∃ q ans, Net.Exchanged na (f.SolveAndSubmitJSChallenge h net).1 [(q, ans)] ∧
        q.Method = str "POST" ∧ q.URL = taskURL ∧
        q.Body = .jsChallenge f.FlowToken (str "LoginJsInstrumentationSubtask") s
          (str "next_link")) ∧
    (j = false →
      f.SolveAndSubmitJSChallenge h net =
        (na, .error (.wrap (str "failed to decode challenge solution, ")
          (.lib (str "encoding/json"))))) := by
  refine ⟨?_, ?_, ?_⟩
  · intro hs
    subst hs
    unfold LoginFlow.solveJSInstrumentationChallenge at hsolve
    split at hsolve
    · simp at hsolve
    · dsimp only [] at hsolve
      split at hsolve
      · simp at hsolve
      · split_ifs at hsolve
        · simp at hsolve
        · simp at hsolve
        · split at hsolve
          · simp at hsolve
          · split_ifs at hsolve with he
            · simp at hsolve
            · simp only [Prod.mk.injEq, Res.ok.injEq] at hsolve
              exact he hsolve.2.1
          · simp at hsolve
          · simp at hsolve
  · intro hj
    subst hj
    unfold LoginFlow.SolveAndSubmitJSChallenge
    rw [hsolve]
    simp only [Bool.not_true, Bool.false_eq_true, if_false]
    split
    · next nc hd => exact ⟨_, none, Net.Do_exchanged hd, rfl, rfl, rfl⟩
    · next nc resp hd =>
      refine ⟨challengeRequest f s, some resp, ?_, rfl, rfl, rfl⟩
      split_ifs <;> (try split) <;> exact Net.Do_exchanged hd
  · intro hj
    subst hj
    unfold LoginFlow.SolveAndSubmitJSChallenge
    rw [hsolve]
    simp

set_option maxRecDepth 1000000 in
/-- Witness of C26, amended: the challenge of the happy path. -/
theorem C26_challenge_body_witness :
    (startedFlow.solveJSInstrumentationChallenge alice.UserAgent challengeWorld).2 =
      .ok (str "\x7b\x22rf\x22:1\x7d", true) ∧
    ∃ q ans, Net.Exchanged
        (startedFlow.solveJSInstrumentationChallenge alice.UserAgent challengeWorld).1
        (startedFlow.SolveAndSubmitJSChallenge alice challengeWorld).1 [(q, ans)] ∧
      q.Method = str "POST" ∧ q.URL = taskURL ∧
      q.Body = .jsChallenge (str "T1") (str "LoginJsInstrumentationSubtask")
        (str "\x7b\x22rf\x22:1\x7d") (str "next_link") :=
  ⟨by decide,
    (C26_challenge_body startedFlow alice challengeWorld
      (startedFlow.solveJSInstrumentationChallenge alice.UserAgent challengeWorld).1
      (str "\x7b\x22rf\x22:1\x7d") true (by decide)).2.1 rfl⟩

/-! ## C30 -/

/-- C30, the code on a flow without subtasks. When StartLoginFlow has returned a flow whose
list of subtasks is empty, SolveAndSubmitJSChallenge does not return an error: the index 0 is
out of range and the call panics before any request, and so does Login. -/
theorem C30_empty_subtasks_panics (h : Helicon) (net net1 : Net) (kr : Keyring) (f : LoginFlow)
    (hstart : h.StartLoginFlow net = (net1, .ok f)) (hsub : f.Subtasks = []) :
    f.SolveAndSubmitJSChallenge h net1 =
      (net1, .panic (str "index out of range [0] with length 0")) ∧
    (h.Login net kr).ret = .panic (str "index out of range [0] with length 0") := by
  have hp : f.SolveAndSubmitJSChallenge h net1 =
      (net1, .panic (str "index out of range [0] with length 0")) := by
    unfold LoginFlow.SolveAndSubmitJSChallenge LoginFlow.solveJSInstrumentationChallenge
    rw [hsub]
  refine ⟨hp, ?_⟩
  unfold Helicon.Login
  rw [Helicon.LoginFuel_succ, hstart]
  simp only
  rw [hp]

set_option maxRecDepth 1000000 in
/-- Witness of C30: a start response with status 200 and the body
`{"flow_token":"T1","status":"success"}`. -/
theorem C30_empty_subtasks_panics_witness :
    (startResponseNoSubtasks.StatusCode = 200 ∧
      (alice.StartLoginFlow noSubtasksWorld).2 = .ok flowNoSubtasks ∧
      flowNoSubtasks.Subtasks = []) ∧
    (alice.Login noSubtasksWorld {}).ret = .panic (str "index out of range [0] with length 0") :=
  ⟨⟨by decide, by decide, by decide⟩,
    (C30_empty_subtasks_panics alice noSubtasksWorld (alice.StartLoginFlow noSubtasksWorld).1 {}
      flowNoSubtasks (by decide) rfl).2⟩

/-! ## C27 -/

set_option maxRecDepth 1000000 in
/-- C27, the code at the failing input. The start response has the lines `att=1-abc; Path=/`
and `guest_id=v1%3A17; att=zzz`: the one cookie named `att` has the value `1-abc`, and `att`
in the second line is an attribute of the cookie `guest_id`. StartLoginFlow returns a flow
whose Att is `zzz`: the later segment has contributed its value. -/
theorem C27_attribute_segment_is_harvested :
    startResponseAttAttribute.SetCookie.map cookieNameOf = [str "att", str "guest_id"] ∧
    (alice.StartLoginFlow attAttributeWorld).2 =
      .ok { FlowToken := str "T1", Subtasks := [instrumentationSubtask],
            AnonymousBearerToken := str "Bearer AAAA", GuestToken := str "1234567",
            GuestId := str "v1%3A17", UserAgent := str "UA", Att := str "zzz" } := by
  decide

/-! ## C28 -/

set_option maxRecDepth 1000000 in
/-- C28, the code at the failing input. The client holds the CSRF cookie line
`ct0=OLD; Path=/` of an earlier session, and the password response of the first run carries
no `ct0`. Login does not run the flow again, although the world would answer a second run
with `ct0=C; Path=/`: it returns nil after one run, the earlier line is left in place, and it
is the first field of the entry that Login stores. -/
theorem C28_stale_csrf_hides_logout :
    lastNamed (str "ct0") passwordResponseNoCSRF.SetCookie = none ∧
    (aliceStale.Login oneRestartWorld {}).ret = .ok () ∧
    flowRuns (aliceStale.Login oneRestartWorld {}).net = 1 ∧
    (aliceStale.Login oneRestartWorld {}).h.Cookies.CSRFToken.Raw = str "ct0=OLD; Path=/" ∧
    ((keyring.Get (aliceStale.Login oneRestartWorld {}).kr (str "helicon") (str "alice")).bind
        base64.DecodeString).map (fun blob => strings.Split blob 31) =
      some [str "ct0=OLD; Path=/", str "auth_token=A; Path=/", []] ∧
    flowRuns (alice.Login oneRestartWorld {}).net = 2 := by
  decide

/-! ## C29 -/

set_option maxRecDepth 1000000 in
/-- C29, the code at the failing input. Two cookies with the same Raw `ct0=NEW`, one of them
zero otherwise and one that was parsed from `ct0=OLD; Max-Age=21600; Path=/; Secure` before:
Parse returns nil for both and sets Key and Value of both to `ct0` and `NEW`, but the second
one keeps MaxAge 21600, Path `/` and Secure of the line it no longer has. -/
theorem C29_parse_keeps_earlier_fields :
    cookieReplaced.Raw = str "ct0=NEW" ∧
    (Cookie.Parse { Raw := str "ct0=NEW" }).2 = none ∧ (Cookie.Parse cookieReplaced).2 = none ∧
    (Cookie.Parse cookieReplaced).1.Key = str "ct0" ∧
    (Cookie.Parse cookieReplaced).1.Value = str "NEW" ∧
    (Cookie.Parse { Raw := str "ct0=NEW" }).1.MaxAge = 0 ∧
    (Cookie.Parse cookieReplaced).1.MaxAge = 21600 ∧
    (Cookie.Parse { Raw := str "ct0=NEW" }).1.Path = [] ∧
    (Cookie.Parse cookieReplaced).1.Path = str "/" ∧
    (Cookie.Parse { Raw := str "ct0=NEW" }).1.Secure = false ∧
    (Cookie.Parse cookieReplaced).1.Secure = true := by
  decide

end helicon
